import Mathlib

set_option linter.unusedTactic false
set_option linter.unreachableTactic false
set_option linter.unnecessarySeqFocus false
set_option linter.unusedVariables false

/-!
# pgexporter: message buffer, transport I/O and message codec

A shallow embedding of `src/libpgexporter/memory.c` and `src/libpgexporter/message.c`.

* C memory is an explicit heap of blocks (`World.heap`); a pointer is a block address and
  `NULL` is `none`.  Every access to a block that is freed, missing or of the wrong shape, and
  every out-of-bounds access, makes the operation return `none` (undefined behaviour in C).
* The two statics of `memory.c` (`message`, `data`) and `errno` are fields of `World`.
* `malloc` always succeeds and returns a fresh address; a stack local is a block that lives
  until its function returns.
* The transport (`read`, `write`, `SSL_read`, `SSL_write`) is a script of outcomes chosen by
  the environment, consumed one per call; a loop that needs an outcome when the script is
  exhausted has no result (`none`): it is still waiting.
* `size_t`/`ssize_t` values are `Nat`/`Int`; the 32-bit quantities (`int offset`, the `int`
  count of `SSL_read`/`SSL_write`, the argument of `pgexporter_write_int32`) are reduced
  modulo `2^32` explicitly.
-/

namespace Pgexporter

/-! ## Heap model -/

/-- Heap address of a block; `NULL` is `none : Option Ptr`. -/
abbrev Ptr := Nat

/-- Modelled from the spec: `message_t` of `message.h` (not among the sources): a one-byte
kind, the length (bytes occupied), the max_length (capacity of the backing buffer) and the
pointer to the byte buffer.  The field types follow their uses in `message.c`
(`(signed char)` for kind, `%zd` for length, `size_t` assigned to max_length). -/
structure message_t where
  kind : Int
  length : Int
  max_length : Nat
  data : Option Ptr
deriving DecidableEq

/-- Modelled from the spec: the tri-state outcome of `message.h` (not among the sources):
"Return codes are one of: OK, ZERO (peer closed / timeout exceeded), ERROR". -/
inductive Status
  | MESSAGE_STATUS_ZERO
  | MESSAGE_STATUS_OK
  | MESSAGE_STATUS_ERROR
deriving DecidableEq

export Status (MESSAGE_STATUS_ZERO MESSAGE_STATUS_OK MESSAGE_STATUS_ERROR)

/-- A heap block: a `message_t` header or a byte buffer (bytes are naturals below 256). -/
inductive Obj
  | msg (m : message_t)
  | buf (bytes : List Nat)
deriving DecidableEq

/-- The program state: the heap (`none` marks a freed block), the statics `message` and `data`
of `memory.c`, `errno`, the receive timeouts (seconds) installed on the socket so far, oldest
first, and the indeterminate contents that `malloc` hands out. -/
structure World where
  heap : List (Option Obj)
  message : Option Ptr
  data : Option Ptr
  errno : Int
  rcvtimeo : List Int
  uninit : message_t
  uninit_byte : Nat
deriving DecidableEq

/-- Replace `bs.length` bytes of `b` at `off` by `bs`. -/
def splice (b : List Nat) (off : Nat) (bs : List Nat) : List Nat :=
  b.take off ++ bs ++ b.drop (off + bs.length)

namespace World

/-- The block at address `p`, if it is allocated. -/
def load (w : World) (p : Ptr) : Option Obj :=
  match w.heap[p]? with
  | some (some o) => some o
  | _ => none

/-- The header at address `p`. -/
def loadMsg (w : World) (p : Ptr) : Option message_t :=
  match w.load p with
  | some (Obj.msg m) => some m
  | _ => none

/-- The byte buffer at address `p`. -/
def loadBuf (w : World) (p : Ptr) : Option (List Nat) :=
  match w.load p with
  | some (Obj.buf b) => some b
  | _ => none

/-- Replace the content of the heap cell `p`. -/
def put (w : World) (p : Ptr) (x : Option Obj) : World := { w with heap := w.heap.set p x }

/-- Overwrite the header at `p`. -/
def storeMsg (w : World) (p : Ptr) (m : message_t) : Option World :=
  match w.loadMsg p with
  | some _ => some (w.put p (some (Obj.msg m)))
  | none => none

/-- Overwrite the byte buffer at `p` with one of the same size. -/
def storeBuf (w : World) (p : Ptr) (b : List Nat) : Option World :=
  match w.loadBuf p with
  | some old =>
    if b.length = old.length then some (w.put p (some (Obj.buf b)))
    else none
  | none => none

/-- Call `malloc(sizeof(message_t))`: a fresh block holding an indeterminate header. -/
def mallocMsg (w : World) : World × Ptr :=
  ({ w with heap := w.heap ++ [some (Obj.msg w.uninit)] }, w.heap.length)

/-- Call `malloc(size)`: a fresh block of `size` indeterminate bytes. -/
def malloc (w : World) (size : Nat) : World × Ptr :=
  ({ w with heap := w.heap ++ [some (Obj.buf (List.replicate size w.uninit_byte))] },
    w.heap.length)

/-- Call `free(p)` for a non-null `p`: the block must be allocated. -/
def free (w : World) (p : Ptr) : Option World :=
  match w.load p with
  | some _ => some (w.put p none)
  | none => none

/-- Write `bs` into the buffer at `p`, starting at byte `off`. -/
def writeBytes (w : World) (p : Ptr) (off : Nat) (bs : List Nat) : Option World :=
  match w.loadBuf p with
  | some b =>
    if off + bs.length ≤ b.length then
      w.storeBuf p (splice b off bs)
    else none
  | none => none

/-- Call `memset(p, c, n)` on a byte buffer. -/
def memset (w : World) (p : Ptr) (c : Nat) (n : Nat) : Option World :=
  w.writeBytes p 0 (List.replicate n c)

/-- Call `memset(m, 0, sizeof(message_t))` on a header: every field becomes zero, the pointer
NULL. -/
def memsetMsg (w : World) (p : Ptr) : Option World :=
  w.storeMsg p { kind := 0, length := 0, max_length := 0, data := none }

/-- Assignment `m->kind = k`. -/
def setKind (w : World) (p : Ptr) (k : Int) : Option World :=
  match w.loadMsg p with
  | some m => w.storeMsg p { m with kind := k }
  | none => none

/-- Assignment `m->length = n`. -/
def setLength (w : World) (p : Ptr) (n : Int) : Option World :=
  match w.loadMsg p with
  | some m => w.storeMsg p { m with length := n }
  | none => none

/-- Assignment `m->max_length = n`. -/
def setMaxLength (w : World) (p : Ptr) (n : Nat) : Option World :=
  match w.loadMsg p with
  | some m => w.storeMsg p { m with max_length := n }
  | none => none

/-- Assignment `m->data = d`. -/
def setData (w : World) (p : Ptr) (d : Option Ptr) : Option World :=
  match w.loadMsg p with
  | some m => w.storeMsg p { m with data := d }
  | none => none

end World

/-! ## Byte-level helpers -/

/-- The bytes of a C string literal (without the terminator). -/
def lit (s : String) : List Nat := s.toList.map Char.toNat

/-- Library function `strlen`: the number of bytes before the first NUL (the end of the list
stands for the terminator of a NUL-free string). -/
def strlen (s : List Nat) : Nat := (s.takeWhile (fun b => b ≠ 0)).length

/-- The four bytes of a 32-bit value, most significant first. -/
def be32 (i : Int) : List Nat :=
  let v := (i % 4294967296).toNat
  [v / 16777216 % 256, v / 65536 % 256, v / 256 % 256, v % 256]

/-- The signed 32-bit value of the four big-endian bytes at `off`. -/
def int32_at (bytes : List Nat) (off : Nat) : Option Int :=
  match bytes.drop off with
  | b0 :: b1 :: b2 :: b3 :: _ =>
    let v := b0 * 16777216 + b1 * 65536 + b2 * 256 + b3
    some (if v < 2147483648 then (v : Int) else (v : Int) - 4294967296)
  | _ => none

/-- Modelled from the spec: `pgexporter_write_byte` of `utils.c` (not among the sources):
stores one byte at `data`. -/
def pgexporter_write_byte (w : World) (p : Ptr) (off : Nat) (b : Int) : Option World :=
  w.writeBytes p off [(b % 256).toNat]

/-- Modelled from the spec: `pgexporter_write_int32` of `utils.c` (not among the sources):
"All multi-byte integers are big-endian 32-bit (network byte order)". -/
def pgexporter_write_int32 (w : World) (p : Ptr) (off : Nat) (i : Int) : Option World :=
  w.writeBytes p off (be32 i)

/-- Modelled from the spec: `pgexporter_write_string` of `utils.c` (not among the sources):
copies the `strlen(s)` bytes of `s`; the terminator of each string on the wire is the zero
left by the preceding `memset` (the layouts of section 4.3 leave no room for a terminator
after the last field of the SCRAM messages). -/
def pgexporter_write_string (w : World) (p : Ptr) (off : Nat) (s : List Nat) : Option World :=
  w.writeBytes p off (s.take (strlen s))

/-- The code of an ASCII character, as the `char` constants of the source. -/
def chr (c : Char) : Int := (c.toNat : Int)

/-- Conversion of a byte to `signed char`. -/
def signed_char (b : Nat) : Int :=
  if b % 256 < 128 then ((b % 256 : Nat) : Int) else ((b % 256 : Nat) : Int) - 256

/-- Conversion to a 32-bit `int` (two's complement wrap-around). -/
def wrap_int32 (x : Int) : Int := (x + 2147483648) % 4294967296 - 2147483648

/-! ## memory.c -/

/-- Function `pgexporter_memory_destroy` (memory.c:116-130). -/
def pgexporter_memory_destroy (w : World) : Option World := do
  let w ← match w.data with
    | some d => w.free d
    | none => some w
  let w ← match w.message with
    | some m => w.free m
    | none => some w
  some { w with data := none, message := none }

/-- Function `pgexporter_memory_size` (memory.c:60-75). -/
def pgexporter_memory_size (w : World) (size : Nat) : Option World := do
  let w ← pgexporter_memory_destroy w
  let (w, m) := w.mallocMsg
  let w := { w with message := some m }
  let (w, d) := w.malloc size
  let w := { w with data := some d }
  let w ← w.memsetMsg m
  let w ← w.memset d 0 size
  let w ← w.setKind m 0
  let w ← w.setLength m 0
  let w ← w.setMaxLength m size
  let w ← w.setData m w.data
  some w

/-- Function `pgexporter_memory_message` (memory.c:80-89), without the `DEBUG` assertions. -/
def pgexporter_memory_message (w : World) : Option Ptr := w.message

/-- Function `pgexporter_memory_free` (memory.c:94-111), without the `DEBUG` assertions. -/
def pgexporter_memory_free (w : World) : Option World := do
  let message ← w.message
  let length := (← w.loadMsg message).max_length
  let w ← w.memsetMsg message
  let data ← w.data
  let w ← w.memset data 0 length
  let w ← w.setKind message 0
  let w ← w.setLength message 0
  let w ← w.setMaxLength message length
  let w ← w.setData message w.data
  some w

/-! ## message.c: copies -/

/-- Function `pgexporter_free_message` (message.c:84-88): the argument is not used. -/
def pgexporter_free_message (w : World) (msg : Option Ptr) : Option World :=
  pgexporter_memory_free w

/-- Function `pgexporter_copy_message` (message.c:90-109), without the `DEBUG` assertions.
A negative `msg->length` (an allocation of more than `SSIZE_MAX` bytes) and a `memcpy` that
reads past the source buffer have no result. -/
def pgexporter_copy_message (w : World) (msg : Ptr) : Option (World × Ptr) := do
  let m ← w.loadMsg msg
  if m.length < 0 then none
  let (w, copy) := w.mallocMsg
  let (w, cd) := w.malloc m.length.toNat
  let w ← w.setData copy (some cd)
  let w ← w.setKind copy m.kind
  let w ← w.setLength copy m.length
  let src ← w.loadBuf (← m.data)
  if src.length < m.length.toNat then none
  let w ← w.writeBytes cd 0 (src.take m.length.toNat)
  some (w, copy)

/-- Function `pgexporter_free_copy_message` (message.c:111-125). -/
def pgexporter_free_copy_message (w : World) (msg : Option Ptr) : Option World :=
  match msg with
  | some p => do
    let m ← w.loadMsg p
    let w ← match m.data with
      | some d => do
        let w ← w.free d
        w.setData p none
      | none => some w
    w.free p
  | none => some w

/-! ## message.c: constructors -/

/-- Function `pgexporter_create_startup_message` (message.c:577-609). -/
def pgexporter_create_startup_message (w : World) (username database : List Nat) :
    Option (World × Status × Ptr) := do
  let us := strlen username
  let ds := strlen database
  let size := 4 + 4 + 4 + 1 + us + 1 + 8 + 1 + ds + 1 + 17 + 11 + 1
  let (w, m) := w.mallocMsg
  let (w, d) := w.malloc size
  let some w := w.setData m (some d) | none
  let some w := w.memset d 0 size | none
  let some w := w.setKind m 0 | none
  let some w := w.setLength m size | none
  let some w := pgexporter_write_int32 w d 0 size | none
  let some w := pgexporter_write_int32 w d 4 196608 | none
  let some w := pgexporter_write_string w d 8 (lit "user") | none
  let some w := pgexporter_write_string w d 13 username | none
  let some w := pgexporter_write_string w d (13 + us + 1) (lit "database") | none
  let some w := pgexporter_write_string w d (13 + us + 1 + 9) database | none
  let some w := pgexporter_write_string w d (13 + us + 1 + 9 + ds + 1)
    (lit "application_name") | none
  let some w := pgexporter_write_string w d (13 + us + 1 + 9 + ds + 1 + 17)
    (lit "pgexporter") | none
  some (w, MESSAGE_STATUS_OK, m)


/-- Function `pgexporter_create_ssl_message` (message.c:553-575). -/
def pgexporter_create_ssl_message (w : World) : Option (World × Status × Ptr) := do
  let size := 8
  let (w, m) := w.mallocMsg
  let (w, d) := w.malloc size
  let some w := w.setData m (some d) | none
  let some w := w.memset d 0 size | none
  let some w := w.setKind m 0 | none
  let some w := w.setLength m size | none
  let some w := pgexporter_write_int32 w d 0 size | none
  let some w := pgexporter_write_int32 w d 4 80877103 | none
  some (w, MESSAGE_STATUS_OK, m)

/-- Function `pgexporter_create_auth_password_response` (message.c:340-363). -/
def pgexporter_create_auth_password_response (w : World) (password : List Nat) :
    Option (World × Status × Ptr) := do
  let size := 6 + strlen password
  let (w, m) := w.mallocMsg
  let (w, d) := w.malloc size
  let some w := w.setData m (some d) | none
  let some w := w.memset d 0 size | none
  let some w := w.setKind m (chr 'p') | none
  let some w := w.setLength m size | none
  let some w := pgexporter_write_byte w d 0 (chr 'p') | none
  let some w := pgexporter_write_int32 w d 1 (size - 1 : Nat) | none
  let some w := pgexporter_write_string w d 5 password | none
  some (w, MESSAGE_STATUS_OK, m)

/-- Function `pgexporter_create_auth_md5_response` (message.c:365-388). -/
def pgexporter_create_auth_md5_response (w : World) (md5 : List Nat) :
    Option (World × Status × Ptr) := do
  let size := 1 + 4 + strlen md5 + 1
  let (w, m) := w.mallocMsg
  let (w, d) := w.malloc size
  let some w := w.setData m (some d) | none
  let some w := w.memset d 0 size | none
  let some w := w.setKind m (chr 'p') | none
  let some w := w.setLength m size | none
  let some w := pgexporter_write_byte w d 0 (chr 'p') | none
  let some w := pgexporter_write_int32 w d 1 (size - 1 : Nat) | none
  let some w := pgexporter_write_string w d 5 md5 | none
  some (w, MESSAGE_STATUS_OK, m)

/-- Function `pgexporter_create_auth_scram256_response` (message.c:416-441). -/
def pgexporter_create_auth_scram256_response (w : World) (nounce : List Nat) :
    Option (World × Status × Ptr) := do
  let size := 1 + 4 + 13 + 4 + 9 + strlen nounce
  let (w, m) := w.mallocMsg
  let (w, d) := w.malloc size
  let some w := w.setData m (some d) | none
  let some w := w.memset d 0 size | none
  let some w := w.setKind m (chr 'p') | none
  let some w := w.setLength m size | none
  let some w := pgexporter_write_byte w d 0 (chr 'p') | none
  let some w := pgexporter_write_int32 w d 1 (size - 1 : Nat) | none
  let some w := pgexporter_write_string w d 5 (lit "SCRAM-SHA-256") | none
  let some w := pgexporter_write_string w d 22 (lit " n,,n=,r=") | none
  let some w := pgexporter_write_string w d 31 nounce | none
  some (w, MESSAGE_STATUS_OK, m)

/-- Function `pgexporter_create_auth_scram256_continue` (message.c:443-472). -/
def pgexporter_create_auth_scram256_continue (w : World) (cn sn salt : List Nat) :
    Option (World × Status × Ptr) := do
  let size := 1 + 4 + 4 + 2 + strlen cn + strlen sn + 3 + strlen salt + 7
  let (w, m) := w.mallocMsg
  let (w, d) := w.malloc size
  let some w := w.setData m (some d) | none
  let some w := w.memset d 0 size | none
  let some w := w.setKind m (chr 'R') | none
  let some w := w.setLength m size | none
  let some w := pgexporter_write_byte w d 0 (chr 'R') | none
  let some w := pgexporter_write_int32 w d 1 (size - 1 : Nat) | none
  let some w := pgexporter_write_int32 w d 5 11 | none
  let some w := pgexporter_write_string w d 9 (lit "r=") | none
  let some w := pgexporter_write_string w d 11 cn | none
  let some w := pgexporter_write_string w d (11 + strlen cn) sn | none
  let some w := pgexporter_write_string w d (11 + strlen cn + strlen sn) (lit ",s=") | none
  let some w := pgexporter_write_string w d (11 + strlen cn + strlen sn + 3) salt | none
  let some w := pgexporter_write_string w d (11 + strlen cn + strlen sn + 3 + strlen salt)
    (lit ",i=4096") | none
  some (w, MESSAGE_STATUS_OK, m)

/-- Function `pgexporter_create_auth_scram256_continue_response` (message.c:474-499). -/
def pgexporter_create_auth_scram256_continue_response (w : World) (wp p : List Nat) :
    Option (World × Status × Ptr) := do
  let size := 1 + 4 + strlen wp + 3 + strlen p
  let (w, m) := w.mallocMsg
  let (w, d) := w.malloc size
  let some w := w.setData m (some d) | none
  let some w := w.memset d 0 size | none
  let some w := w.setKind m (chr 'p') | none
  let some w := w.setLength m size | none
  let some w := pgexporter_write_byte w d 0 (chr 'p') | none
  let some w := pgexporter_write_int32 w d 1 (size - 1 : Nat) | none
  let some w := pgexporter_write_string w d 5 wp | none
  let some w := pgexporter_write_string w d (5 + strlen wp) (lit ",p=") | none
  let some w := pgexporter_write_string w d (5 + strlen wp + 3) p | none
  some (w, MESSAGE_STATUS_OK, m)

/-- Function `pgexporter_create_auth_scram256_final` (message.c:501-526). -/
def pgexporter_create_auth_scram256_final (w : World) (ss : List Nat) :
    Option (World × Status × Ptr) := do
  let size := 1 + 4 + 4 + 2 + strlen ss
  let (w, m) := w.mallocMsg
  let (w, d) := w.malloc size
  let some w := w.setData m (some d) | none
  let some w := w.memset d 0 size | none
  let some w := w.setKind m (chr 'R') | none
  let some w := w.setLength m size | none
  let some w := pgexporter_write_byte w d 0 (chr 'R') | none
  let some w := pgexporter_write_int32 w d 1 (size - 1 : Nat) | none
  let some w := pgexporter_write_int32 w d 5 12 | none
  let some w := pgexporter_write_string w d 9 (lit "v=") | none
  let some w := pgexporter_write_string w d 11 ss | none
  some (w, MESSAGE_STATUS_OK, m)

/-- The header and the bytes of the message at `p`: what a caller holding the pointer sees. -/
def World.view (w : World) (p : Ptr) : Option (message_t × List Nat) := do
  let m ← w.loadMsg p
  let b ← w.loadBuf (← m.data)
  some (m, b)

/-! ## Transport model -/

/-- Value of `EAGAIN` in `errno.h` (Linux). -/
def EAGAIN : Int := 11

/-- Value of `EWOULDBLOCK` in `errno.h` (Linux, where it equals `EAGAIN`). -/
def EWOULDBLOCK : Int := 11

/-- Error codes of `openssl/ssl.h`. -/
def SSL_ERROR_NONE : Int := 0
def SSL_ERROR_SSL : Int := 1
def SSL_ERROR_WANT_READ : Int := 2
def SSL_ERROR_WANT_WRITE : Int := 3
def SSL_ERROR_WANT_X509_LOOKUP : Int := 4
def SSL_ERROR_SYSCALL : Int := 5
def SSL_ERROR_ZERO_RETURN : Int := 6
def SSL_ERROR_WANT_CONNECT : Int := 7
def SSL_ERROR_WANT_ACCEPT : Int := 8
def SSL_ERROR_WANT_ASYNC : Int := 9
def SSL_ERROR_WANT_ASYNC_JOB : Int := 10
def SSL_ERROR_WANT_CLIENT_HELLO_CB : Int := 11

/-- One outcome of `read` or `SSL_read`: the value returned, the bytes received (stored in
the buffer when the value is positive), the error reported (the `errno` a failing `read`
sets, the `SSL_get_error` code of a failing `SSL_read`), and the reading of `time(NULL)`
after the attempt. -/
structure ReadOutcome where
  numbytes : Int
  bytes : List Nat
  err : Int
  now : Int
deriving DecidableEq

/-- One outcome of `write` or `SSL_write`: the value returned and the error reported (the
`errno` a failing `write` sets, the `SSL_get_error` code of a failing `SSL_write`). -/
structure WriteOutcome where
  numbytes : Int
  err : Int
deriving DecidableEq

/-- The arguments of one `write`/`SSL_write` call: `msg->data + offset` and the count. -/
structure WriteCall where
  offset : Int
  count : Int
deriving DecidableEq

/-- A state in which nothing is allocated yet. -/
def World.init : World :=
  { heap := [], message := none, data := none, errno := 0, rcvtimeo := [],
    uninit := { kind := 85, length := 7, max_length := 3, data := some 9 }, uninit_byte := 170 }

/-- The singleton of `memory.c` is live with capacity `n`: `message` points to a header whose
max_length is `n` and `data` points to a buffer of `n` bytes. -/
def World.live (w : World) (pm pd : Ptr) (n : Nat) : Bool :=
  w.message == some pm && w.data == some pd
    && (match w.loadMsg pm with
        | some hdr => hdr.max_length == n
        | none => false)
    && (match w.loadBuf pd with
        | some b => b.length == n
        | none => false)

/-- Call `setsockopt(socket, SOL_SOCKET, SO_RCVTIMEO, &tv, sizeof(tv))` with `tv.tv_sec = sec`. -/
def setsockopt (w : World) (sec : Int) : World := { w with rcvtimeo := w.rcvtimeo ++ [sec] }

/-- Call `read(socket, buf, count)`: a positive outcome stores its bytes at `buf` (an outcome that
delivers more than `count` bytes, or a number of bytes other than the value returned, is not
an outcome of this call); a negative outcome sets `errno`; zero leaves `errno` alone. -/
def sys_read (w : World) (r : ReadOutcome) (buf : Option Ptr) (count : Nat) :
    Option (World × Int) :=
  if 0 < r.numbytes then
    if (r.bytes.length : Int) = r.numbytes ∧ r.numbytes ≤ count then
      match buf with
      | some p => (w.writeBytes p 0 r.bytes).map (fun w => (w, r.numbytes))
      | none => none
    else none
  else if r.numbytes < 0 then some ({ w with errno := r.err }, r.numbytes)
  else some (w, r.numbytes)

/-- Call `SSL_read(ssl, buf, num)`: as `sys_read`, with an `int` count and no effect on `errno`. -/
def SSL_read (w : World) (r : ReadOutcome) (buf : Option Ptr) (num : Int) :
    Option (World × Int) :=
  if 0 < r.numbytes then
    if (r.bytes.length : Int) = r.numbytes ∧ r.numbytes ≤ num then
      match buf with
      | some p => (w.writeBytes p 0 r.bytes).map (fun w => (w, r.numbytes))
      | none => none
    else none
  else some (w, r.numbytes)

/-- The result of a read operation: the state, the status, the caller's `*msg` and the
outcomes not consumed. -/
structure ReadResult where
  world : World
  status : Status
  msg : Option Ptr
  rest : List ReadOutcome
deriving DecidableEq

/-- The result of a write operation: the state, the status, the calls made to the transport
in order, and the outcomes not consumed. -/
structure WriteResult where
  world : World
  status : Status
  calls : List WriteCall
  rest : List WriteOutcome
deriving DecidableEq

/-- Prepend a call to the calls of a result. -/
def WriteResult.after (c : WriteCall) (r : WriteResult) : WriteResult :=
  { r with calls := c :: r.calls }

/-! ## message.c: transport I/O -/

/-- Clearing of the receive timeout before a return of `read_message`
(`if (unlikely(timeout > 0))` blocks). -/
def clear_rcvtimeo (w : World) (timeout : Int) : World :=
  if timeout > 0 then setsockopt w 0 else w

/-- The code of `read_message` after its loop (message.c:685-694). -/
def read_message_exit (w : World) (timeout : Int) (msg : Option Ptr)
    (rest : List ReadOutcome) : Option ReadResult :=
  if timeout > 0 then do
    let w := setsockopt w 0
    let w ← pgexporter_memory_free w
    some ⟨w, MESSAGE_STATUS_ERROR, msg, rest⟩
  else some ⟨w, MESSAGE_STATUS_ERROR, msg, rest⟩

/-- The `do ... while (keep_read)` loop of `read_message` (message.c:626-683), one iteration
per outcome of `read`. -/
def read_message_loop (block : Bool) (timeout : Int) :
    World → List ReadOutcome → Option Ptr → Option ReadResult
  | _, [], _ => none
  | w, r :: rest, msg => do
    let m ← pgexporter_memory_message w
    let hdr ← w.loadMsg m
    let (w, numbytes) ← sys_read w r hdr.data hdr.max_length
    if numbytes > 0 then
      let first ← (← w.loadBuf (← hdr.data)).head?
      let w ← w.setKind m (signed_char first)
      let w ← w.setLength m numbytes
      some ⟨clear_rcvtimeo w timeout, MESSAGE_STATUS_OK, some m, rest⟩
    else if numbytes = 0 then
      let w ← pgexporter_memory_free w
      if (w.errno = EAGAIN ∨ w.errno = EWOULDBLOCK) ∧ block = true then
        read_message_loop block timeout { w with errno := 0 } rest msg
      else
        some ⟨clear_rcvtimeo w timeout, MESSAGE_STATUS_ZERO, msg, rest⟩
    else
      let w ← pgexporter_memory_free w
      if (w.errno = EAGAIN ∨ w.errno = EWOULDBLOCK) ∧ block = true then
        read_message_loop block timeout { w with errno := 0 } rest msg
      else
        read_message_exit w timeout msg rest

/-- Function `read_message` (message.c:611-695); `msg` is the caller's `*msg` before the call. -/
def read_message (w : World) (script : List ReadOutcome) (block : Bool) (timeout : Int)
    (msg : Option Ptr) : Option ReadResult :=
  let w := if timeout > 0 then setsockopt w timeout else w
  read_message_loop block timeout w script msg

/-- The `do ... while (keep_read)` loop of `ssl_read_message` (message.c:770-833), for a build
with the `SSL_ERROR_WANT_ASYNC*` and `SSL_ERROR_WANT_CLIENT_HELLO_CB` cases; `keep_read` is
the flag as the previous iteration left it.  The OpenSSL error queue is not modelled. -/
def ssl_read_message_loop (timeout : Int) (start_time : Int) :
    World → Bool → List ReadOutcome → Option Ptr → Option ReadResult
  | _, _, [], _ => none
  | w, keep_read, r :: rest, msg => do
    let m ← pgexporter_memory_message w
    let hdr ← w.loadMsg m
    let (w, numbytes) ← SSL_read w r hdr.data (wrap_int32 hdr.max_length)
    if numbytes > 0 then
      let first ← (← w.loadBuf (← hdr.data)).head?
      let w ← w.setKind m (signed_char first)
      let w ← w.setLength m numbytes
      some ⟨w, MESSAGE_STATUS_OK, some m, rest⟩
    else
      let w ← pgexporter_memory_free w
      let err := r.err
      if err = SSL_ERROR_ZERO_RETURN then
        if timeout > 0 ∧ r.now - start_time ≥ timeout then
          some ⟨w, MESSAGE_STATUS_ZERO, msg, rest⟩
        else
          ssl_read_message_loop timeout start_time w true rest msg
      else if err = SSL_ERROR_WANT_READ ∨ err = SSL_ERROR_WANT_WRITE
          ∨ err = SSL_ERROR_WANT_CONNECT ∨ err = SSL_ERROR_WANT_ACCEPT
          ∨ err = SSL_ERROR_WANT_X509_LOOKUP ∨ err = SSL_ERROR_WANT_ASYNC
          ∨ err = SSL_ERROR_WANT_ASYNC_JOB ∨ err = SSL_ERROR_WANT_CLIENT_HELLO_CB then
        ssl_read_message_loop timeout start_time w true rest msg
      else if err = SSL_ERROR_SYSCALL then
        some ⟨{ w with errno := 0 }, MESSAGE_STATUS_ERROR, msg, rest⟩
      else if err = SSL_ERROR_SSL then
        some ⟨w, MESSAGE_STATUS_ERROR, msg, rest⟩
      else if keep_read = true then
        ssl_read_message_loop timeout start_time w keep_read rest msg
      else
        some ⟨w, MESSAGE_STATUS_ERROR, msg, rest⟩

/-- Function `ssl_read_message` (message.c:757-836); `start_time` is what `time(NULL)` returns
at the start of the call (read only when `timeout > 0`). -/
def ssl_read_message (w : World) (script : List ReadOutcome) (timeout : Int)
    (start_time : Int) (msg : Option Ptr) : Option ReadResult :=
  ssl_read_message_loop timeout start_time w false script msg

/-- The `do ... while (keep_write)` loop of `write_message` (message.c:715-752), one
iteration per outcome of `write`; `offset` is an `int`. -/
def write_message_loop (length : Int) :
    World → List WriteOutcome → (offset totalbytes remaining : Int) → Option WriteResult
  | _, [], _, _, _ => none
  | w, r :: rest, offset, totalbytes, remaining =>
    let call : WriteCall := ⟨offset, remaining⟩
    let numbytes := r.numbytes
    let w := if numbytes = -1 then { w with errno := r.err } else w
    if numbytes = length then
      some ⟨w, MESSAGE_STATUS_OK, [call], rest⟩
    else if numbytes ≠ -1 then
      let offset := wrap_int32 (offset + numbytes)
      let totalbytes := totalbytes + numbytes
      let remaining := remaining - numbytes
      if totalbytes = length then
        some ⟨w, MESSAGE_STATUS_OK, [call], rest⟩
      else
        (write_message_loop length { w with errno := 0 } rest offset totalbytes remaining).map
          (WriteResult.after call)
    else if w.errno = EAGAIN then
      (write_message_loop length { w with errno := 0 } rest offset totalbytes remaining).map
        (WriteResult.after call)
    else
      some ⟨w, MESSAGE_STATUS_ERROR, [call], rest⟩

/-- Function `write_message` (message.c:697-755), without the `DEBUG` assertion. -/
def write_message (w : World) (script : List WriteOutcome) (msg : Ptr) : Option WriteResult := do
  let m ← w.loadMsg msg
  write_message_loop m.length w script 0 0 m.length

/-- The `do ... while (keep_write)` loop of `ssl_write_message` (message.c:856-922), for a
build with the `SSL_ERROR_WANT_ASYNC*` and `SSL_ERROR_WANT_CLIENT_HELLO_CB` cases;
`keep_write` is the flag as the previous iteration left it; `offset` and the count handed to
`SSL_write` are `int`s. -/
def ssl_write_message_loop (length : Int) :
    World → Bool → List WriteOutcome → (offset totalbytes remaining : Int) →
      Option WriteResult
  | _, _, [], _, _, _ => none
  | w, keep_write, r :: rest, offset, totalbytes, remaining =>
    let call : WriteCall := ⟨offset, wrap_int32 remaining⟩
    let numbytes := r.numbytes
    if numbytes = length then
      some ⟨w, MESSAGE_STATUS_OK, [call], rest⟩
    else if numbytes > 0 then
      let offset := wrap_int32 (offset + numbytes)
      let totalbytes := totalbytes + numbytes
      let remaining := remaining - numbytes
      if totalbytes = length then
        some ⟨w, MESSAGE_STATUS_OK, [call], rest⟩
      else
        (ssl_write_message_loop length { w with errno := 0 } true rest offset totalbytes
          remaining).map (WriteResult.after call)
    else
      let err := r.err
      if err = SSL_ERROR_ZERO_RETURN ∨ err = SSL_ERROR_WANT_READ ∨ err = SSL_ERROR_WANT_WRITE
          ∨ err = SSL_ERROR_WANT_CONNECT ∨ err = SSL_ERROR_WANT_ACCEPT
          ∨ err = SSL_ERROR_WANT_X509_LOOKUP ∨ err = SSL_ERROR_WANT_ASYNC
          ∨ err = SSL_ERROR_WANT_ASYNC_JOB ∨ err = SSL_ERROR_WANT_CLIENT_HELLO_CB then
        (ssl_write_message_loop length { w with errno := 0 } true rest offset totalbytes
          remaining).map (WriteResult.after call)
      else if err = SSL_ERROR_SYSCALL ∨ err = SSL_ERROR_SSL then
        some ⟨{ w with errno := 0 }, MESSAGE_STATUS_ERROR, [call], rest⟩
      else if keep_write = true then
        (ssl_write_message_loop length w keep_write rest offset totalbytes remaining).map
          (WriteResult.after call)
      else
        some ⟨w, MESSAGE_STATUS_ERROR, [call], rest⟩

/-- Function `ssl_write_message` (message.c:838-925), without the `DEBUG` assertion. -/
def ssl_write_message (w : World) (script : List WriteOutcome) (msg : Ptr) :
    Option WriteResult := do
  let m ← w.loadMsg msg
  ssl_write_message_loop m.length w false script 0 0 m.length

/-- The bytes the transport takes from the buffer `data` in a call at `offset` that accepts
`n` bytes (none when the range is not inside the buffer). -/
def chunk (data : List Nat) (offset n : Int) : Option (List Nat) :=
  if 0 ≤ offset ∧ 0 ≤ n ∧ offset + n ≤ data.length then
    some ((data.drop offset.toNat).take n.toNat)
  else none

/-- The bytes accepted by the transport over a sequence of calls: the concatenation of the
chunks of the calls that accepted something. -/
def wire (data : List Nat) : List WriteCall → List WriteOutcome → Option (List Nat)
  | c :: cs, r :: rs =>
    if 0 < r.numbytes then do
      let x ← chunk data c.offset r.numbytes
      let xs ← wire data cs rs
      some (x ++ xs)
    else wire data cs rs
  | _, _ => some []

/-! ## message.c: public transport entry points and fixed-content writers -/

/-- Function `pgexporter_write_message` (message.c:73-82): `ssl == NULL` selects the plain
socket. -/
def pgexporter_write_message (w : World) (ssl : Option Ptr) (script : List WriteOutcome)
    (msg : Ptr) : Option WriteResult :=
  match ssl with
  | none => write_message w script msg
  | some _ => ssl_write_message w script msg

/-- Function `pgexporter_read_block_message` (message.c:51-60). -/
def pgexporter_read_block_message (w : World) (ssl : Option Ptr) (script : List ReadOutcome)
    (start_time : Int) (msg : Option Ptr) : Option ReadResult :=
  match ssl with
  | none => read_message w script true 0 msg
  | some _ => ssl_read_message w script 0 start_time msg

/-- Function `pgexporter_read_timeout_message` (message.c:62-71). -/
def pgexporter_read_timeout_message (w : World) (ssl : Option Ptr)
    (script : List ReadOutcome) (timeout : Int) (start_time : Int) (msg : Option Ptr) :
    Option ReadResult :=
  match ssl with
  | none => read_message w script true timeout msg
  | some _ => ssl_read_message w script timeout start_time msg

/-- The end of a writer: its locals `msg` and the array `msg.data` points to go out of scope. -/
def leave (r : WriteResult) (msg : Ptr) : Option WriteResult := do
  let m ← r.world.loadMsg msg
  let w ← r.world.free (← m.data)
  let w ← w.free msg
  some { r with world := w }

/-- The locals `msg` and `terminate` of `pgexporter_write_terminate` as they are when the
message is handed to the transport (message.c:265-276). -/
def write_terminate_locals (w : World) : Option (World × Ptr) := do
  let (w, msg) := w.mallocMsg
  let (w, terminate) := w.malloc 5
  let some w := w.memsetMsg msg | none
  let some w := w.memset terminate 0 5 | none
  let some w := pgexporter_write_byte w terminate 0 (chr 'X') | none
  let some w := pgexporter_write_int32 w terminate 1 4 | none
  let some w := w.setKind msg (chr 'X') | none
  let some w := w.setLength msg 5 | none
  let some w := w.setData msg (some terminate) | none
  some (w, msg)

/-- Function `pgexporter_write_terminate` (message.c:262-284). -/
def pgexporter_write_terminate (w : World) (ssl : Option Ptr) (script : List WriteOutcome) :
    Option WriteResult := do
  let (w, msg) ← write_terminate_locals w
  let r ← pgexporter_write_message w ssl script msg
  leave r msg

/-- The locals `msg` and `connection_refused` of `pgexporter_write_connection_refused` as
they are when the message is handed to the transport (message.c:289-305). -/
def write_connection_refused_locals (w : World) : Option (World × Ptr) := do
  let size := 46
  let (w, msg) := w.mallocMsg
  let (w, connection_refused) := w.malloc size
  let some w := w.memsetMsg msg | none
  let some w := w.memset connection_refused 0 size | none
  let some w := pgexporter_write_byte w connection_refused 0 (chr 'E') | none
  let some w := pgexporter_write_int32 w connection_refused 1 (size - 1 : Nat) | none
  let some w := pgexporter_write_string w connection_refused 5 (lit "SFATAL") | none
  let some w := pgexporter_write_string w connection_refused 12 (lit "VFATAL") | none
  let some w := pgexporter_write_string w connection_refused 19 (lit "C53300") | none
  let some w := pgexporter_write_string w connection_refused 26 (lit "Mconnection refused") | none
  let some w := w.setKind msg (chr 'E') | none
  let some w := w.setLength msg size | none
  let some w := w.setData msg (some connection_refused) | none
  some (w, msg)

/-- Function `pgexporter_write_connection_refused` (message.c:286-313). -/
def pgexporter_write_connection_refused (w : World) (ssl : Option Ptr)
    (script : List WriteOutcome) : Option WriteResult := do
  let (w, msg) ← write_connection_refused_locals w
  let r ← pgexporter_write_message w ssl script msg
  leave r msg

/-- The locals `msg` and `scram` of `pgexporter_write_auth_scram256` as they are when the
message is handed to the transport (message.c:393-406). -/
def write_auth_scram256_locals (w : World) : Option (World × Ptr) := do
  let (w, msg) := w.mallocMsg
  let (w, scram) := w.malloc 24
  let some w := w.memsetMsg msg | none
  let some w := w.memset scram 0 24 | none
  let some w := pgexporter_write_byte w scram 0 (chr 'R') | none
  let some w := pgexporter_write_int32 w scram 1 23 | none
  let some w := pgexporter_write_int32 w scram 5 10 | none
  let some w := pgexporter_write_string w scram 9 (lit "SCRAM-SHA-256") | none
  let some w := w.setKind msg (chr 'R') | none
  let some w := w.setLength msg 24 | none
  let some w := w.setData msg (some scram) | none
  some (w, msg)

/-- Function `pgexporter_write_auth_scram256` (message.c:390-414). -/
def pgexporter_write_auth_scram256 (w : World) (ssl : Option Ptr)
    (script : List WriteOutcome) : Option WriteResult := do
  let (w, msg) ← write_auth_scram256_locals w
  let r ← pgexporter_write_message w ssl script msg
  leave r msg

/-- The locals `msg` and `success` of `pgexporter_write_auth_success` as they are when the
message is handed to the transport (message.c:531-543). -/
def write_auth_success_locals (w : World) : Option (World × Ptr) := do
  let (w, msg) := w.mallocMsg
  let (w, success) := w.malloc 9
  let some w := w.memsetMsg msg | none
  let some w := w.memset success 0 9 | none
  let some w := pgexporter_write_byte w success 0 (chr 'R') | none
  let some w := pgexporter_write_int32 w success 1 8 | none
  let some w := pgexporter_write_int32 w success 5 0 | none
  let some w := w.setKind msg (chr 'R') | none
  let some w := w.setLength msg 9 | none
  let some w := w.setData msg (some success) | none
  some (w, msg)

/-- Function `pgexporter_write_auth_success` (message.c:528-551). -/
def pgexporter_write_auth_success (w : World) (ssl : Option Ptr)
    (script : List WriteOutcome) : Option WriteResult := do
  let (w, msg) ← write_auth_success_locals w
  let r ← pgexporter_write_message w ssl script msg
  leave r msg

/-! ## Properties of messages used in the statements -/

/-- The message at `m` has as many bytes as its length says, and its big-endian int32 at byte
`off` equals that number of bytes minus `k`. -/
def SizeField (off : Nat) (k : Int) (w : World) (m : Ptr) : Prop :=
  ∃ hdr bytes, w.view m = some (hdr, bytes)
    ∧ (bytes.length : Int) = hdr.length
    ∧ int32_at bytes off = some ((bytes.length : Int) - k)

/-- The message at `m` has as many bytes as its length says, its byte 0 is its kind and its
big-endian int32 at bytes 1..4 is its length minus 1. -/
def KindTagged (w : World) (m : Ptr) : Prop :=
  ∃ hdr bytes, w.view m = some (hdr, bytes)
    ∧ (bytes.length : Int) = hdr.length
    ∧ bytes.head?.map (fun b => (b : Int)) = some hdr.kind
    ∧ int32_at bytes 1 = some (hdr.length - 1)

/-- A constructor returned `MESSAGE_STATUS_OK` and a message with property `P`. -/
def Built (P : World → Ptr → Prop) (r : Option (World × Status × Ptr)) : Prop :=
  ∃ w m, r = some (w, MESSAGE_STATUS_OK, m) ∧ P w m

/-- A writer hands the transport a message with property `P`. -/
def Handed (P : World → Ptr → Prop) (r : Option (World × Ptr)) : Prop :=
  ∃ w m, r = some (w, m) ∧ P w m

/-- The calls of a write of `L` bytes in which the transport accepts `k₁, k₂, ...` bytes,
`T` bytes having been accepted before: each call starts at the number of bytes accepted so
far and asks for all the bytes still unsent. -/
def expected_calls (L : Int) : Int → List Int → List WriteCall
  | _, [] => []
  | T, k :: ks => ⟨T, L - T⟩ :: expected_calls L (T + k) ks

/-- A state that holds one message of 2147483649 bytes (all zero). -/
def World.huge : World :=
  { World.init with
    heap := [some (Obj.msg { kind := 0, length := 2147483649, max_length := 0, data := some 1 }),
      some (Obj.buf (List.replicate 2147483649 0))] }

/-- A state that holds one message of 5 bytes. -/
def World.sample : World :=
  { World.init with
    heap := [some (Obj.msg { kind := 81, length := 5, max_length := 0, data := some 1 }),
      some (Obj.buf [81, 2, 3, 4, 5])] }

/-- A state with a live singleton of capacity 8 that holds a 3-byte message (kind 69) and
stale bytes after it, next to an unrelated 2-byte message. -/
def World.dirty : World :=
  { World.init with
    heap := [some (Obj.msg { kind := 69, length := 3, max_length := 8, data := some 1 }),
      some (Obj.buf [69, 1, 2, 3, 4, 5, 6, 7]),
      some (Obj.msg { kind := 112, length := 2, max_length := 0, data := some 3 }),
      some (Obj.buf [112, 9])],
    message := some 0, data := some 1, errno := 11 }

/-- The singleton message at `pm` holds what a read of `bytes` into the buffer `old`
delivers: kind = first byte as a signed char, length = number of bytes, max_length and data
pointer as in `hdr`, the bytes at the start of the buffer and the rest of the buffer as it
was. -/
def Delivered (w : World) (pm : Ptr) (hdr : message_t) (old bytes : List Nat) : Prop :=
  w.message = some pm
    ∧ ∃ hdr', w.view pm = some (hdr', bytes ++ old.drop bytes.length)
      ∧ bytes.head?.map signed_char = some hdr'.kind
      ∧ hdr'.length = (bytes.length : Int)
      ∧ hdr'.max_length = hdr.max_length
      ∧ hdr'.data = hdr.data
      ∧ (bytes ++ old.drop bytes.length).take bytes.length = bytes


/-! ## States of the singleton used in the statements -/

/-- The singleton of `memory.c` is destroyed: both statics are NULL. -/
def World.destroyed (w : World) : Bool := w.message == none && w.data == none

/-- What the singleton of `memory.c` holds: kind, length and max_length of the header
`message` points to, and the bytes of the buffer `data` points to. -/
def World.singleton (w : World) : Option (Int × Int × Nat × List Nat) := do
  let hdr ← w.loadMsg (← w.message)
  let b ← w.loadBuf (← w.data)
  some (hdr.kind, hdr.length, hdr.max_length, b)

/-- The singleton is in the released state with capacity `n`: the header at `pm` has kind 0,
length 0, max_length `n` and points to the buffer at `pd`, which holds `n` zero bytes. -/
def World.released (w : World) (pm pd : Ptr) (n : Nat) : Bool :=
  w.message == some pm && w.data == some pd
    && w.loadMsg pm == some { kind := 0, length := 0, max_length := n, data := some pd }
    && w.loadBuf pd == some (List.replicate n 0)

/-- The singleton is ready for a read into its buffer: it is live with capacity `n` and the
data pointer of its header is the buffer. -/
def World.ready (w : World) (pm pd : Ptr) (n : Nat) : Bool :=
  w.live pm pd n
    && (match w.loadMsg pm with
        | some hdr => hdr.data == some pd
        | none => false)

/-- State `w'` differs from `w` at most in the blocks `pm` and `pd`, in `errno` and in the
receive timeouts set. -/
def Frame (pm pd : Ptr) (w w' : World) : Prop :=
  w'.heap.length = w.heap.length ∧ w'.message = w.message ∧ w'.data = w.data
    ∧ ∀ q, q ≠ pm → q ≠ pd → w'.load q = w.load q

/-! ## message.c: the connection probe and the remaining fixed-content writers -/

/-- The end of a function whose locals are a message and the array its data points to: both
go out of scope. -/
def leave_locals (w : World) (msg : Ptr) : Option World := do
  let m ← w.loadMsg msg
  let w ← w.free (← m.data)
  w.free msg

/-- The result of `pgexporter_connection_isvalid`: the state, the value returned, the calls
made to `write`, and the outcomes of `write` and of `read` not consumed. -/
structure ValidResult where
  world : World
  valid : Bool
  calls : List WriteCall
  wrest : List WriteOutcome
  rrest : List ReadOutcome
deriving DecidableEq

/-- The locals `msg` and `valid` of `pgexporter_connection_isvalid` as they are when the
message is handed to `write_message` (message.c:130-148). -/
def connection_isvalid_locals (w : World) : Option (World × Ptr) := do
  let size := 15
  let (w, msg) := w.mallocMsg
  let (w, valid) := w.malloc size
  let some w := w.memsetMsg msg | none
  let some w := w.memset valid 0 size | none
  let some w := pgexporter_write_byte w valid 0 (chr 'Q') | none
  let some w := pgexporter_write_int32 w valid 1 (size - 1 : Nat) | none
  let some w := pgexporter_write_string w valid 5 (lit "SELECT 1;") | none
  let some w := w.setKind msg (chr 'Q') | none
  let some w := w.setLength msg size | none
  let some w := w.setData msg (some valid) | none
  some (w, msg)

/-- The `error:` label of `pgexporter_connection_isvalid` (message.c:169-175) and the return
of `false`. -/
def connection_isvalid_error (w : World) (msg : Ptr) (reply : Option Ptr)
    (calls : List WriteCall) (wrest : List WriteOutcome) (rrest : List ReadOutcome) :
    Option ValidResult := do
  let w ← match reply with
    | some _ => pgexporter_free_message w reply
    | none => some w
  let w ← leave_locals w msg
  some ⟨w, false, calls, wrest, rrest⟩

/-- Function `pgexporter_connection_isvalid` (message.c:127-176): `wscript` and `rscript`
are the outcomes of `write` and `read` on the socket. -/
def pgexporter_connection_isvalid (w : World) (wscript : List WriteOutcome)
    (rscript : List ReadOutcome) : Option ValidResult := do
  let (w, msg) ← connection_isvalid_locals w
  let r ← write_message w wscript msg
  if r.status ≠ MESSAGE_STATUS_OK then
    connection_isvalid_error r.world msg none r.calls r.rest rscript
  else
    let rr ← read_message r.world rscript true 0 none
    if rr.status ≠ MESSAGE_STATUS_OK then
      connection_isvalid_error rr.world msg rr.msg r.calls r.rest rr.rest
    else
      let reply ← rr.msg
      let hdr ← rr.world.loadMsg reply
      if hdr.kind = chr 'E' then
        connection_isvalid_error rr.world msg rr.msg r.calls r.rest rr.rest
      else
        let w ← pgexporter_free_message rr.world rr.msg
        let w ← leave_locals w msg
        some ⟨w, true, r.calls, r.rest, rr.rest⟩

/-- The locals `msg` and `zero` of `pgexporter_write_empty` as they are when the message is
handed to the transport (message.c:198-207). -/
def write_empty_locals (w : World) : Option (World × Ptr) := do
  let (w, msg) := w.mallocMsg
  let (w, zero_) := w.malloc 1
  let some w := w.memsetMsg msg | none
  let some w := w.memset zero_ 0 1 | none
  let some w := w.setKind msg 0 | none
  let some w := w.setLength msg 1 | none
  let some w := w.setData msg (some zero_) | none
  some (w, msg)

/-- Function `pgexporter_write_empty` (message.c:195-215). -/
def pgexporter_write_empty (w : World) (ssl : Option Ptr) (script : List WriteOutcome) :
    Option WriteResult := do
  let (w, msg) ← write_empty_locals w
  let r ← pgexporter_write_message w ssl script msg
  leave r msg

/-- The locals `msg` and `notice` of `pgexporter_write_notice` as they are when the message
is handed to the transport (message.c:219-230). -/
def write_notice_locals (w : World) : Option (World × Ptr) := do
  let (w, msg) := w.mallocMsg
  let (w, notice) := w.malloc 1
  let some w := w.memsetMsg msg | none
  let some w := w.memset notice 0 1 | none
  let some w := w.writeBytes notice 0 [((chr 'N') % 256).toNat] | none
  let some w := w.setKind msg (chr 'N') | none
  let some w := w.setLength msg 1 | none
  let some w := w.setData msg (some notice) | none
  some (w, msg)

/-- Function `pgexporter_write_notice` (message.c:216-238). -/
def pgexporter_write_notice (w : World) (ssl : Option Ptr) (script : List WriteOutcome) :
    Option WriteResult := do
  let (w, msg) ← write_notice_locals w
  let r ← pgexporter_write_message w ssl script msg
  leave r msg

/-- The locals `msg` and `tls` of `pgexporter_write_tls` as they are when the message is
handed to the transport (message.c:242-253). -/
def write_tls_locals (w : World) : Option (World × Ptr) := do
  let (w, msg) := w.mallocMsg
  let (w, tls) := w.malloc 1
  let some w := w.memsetMsg msg | none
  let some w := w.memset tls 0 1 | none
  let some w := w.writeBytes tls 0 [((chr 'S') % 256).toNat] | none
  let some w := w.setKind msg (chr 'S') | none
  let some w := w.setLength msg 1 | none
  let some w := w.setData msg (some tls) | none
  some (w, msg)

/-- Function `pgexporter_write_tls` (message.c:239-261). -/
def pgexporter_write_tls (w : World) (ssl : Option Ptr) (script : List WriteOutcome) :
    Option WriteResult := do
  let (w, msg) ← write_tls_locals w
  let r ← pgexporter_write_message w ssl script msg
  leave r msg

/-- The locals `msg` and `connection_refused` of `pgexporter_write_connection_refused_old`
as they are when the message is handed to the transport (message.c:318-330). -/
def write_connection_refused_old_locals (w : World) : Option (World × Ptr) := do
  let size := 20
  let (w, msg) := w.mallocMsg
  let (w, connection_refused) := w.malloc size
  let some w := w.memsetMsg msg | none
  let some w := w.memset connection_refused 0 size | none
  let some w := pgexporter_write_byte w connection_refused 0 (chr 'E') | none
  let some w := pgexporter_write_string w connection_refused 1 (lit "connection refused") | none
  let some w := w.setKind msg (chr 'E') | none
  let some w := w.setLength msg size | none
  let some w := w.setData msg (some connection_refused) | none
  some (w, msg)

/-- Function `pgexporter_write_connection_refused_old` (message.c:315-338). -/
def pgexporter_write_connection_refused_old (w : World) (ssl : Option Ptr)
    (script : List WriteOutcome) : Option WriteResult := do
  let (w, msg) ← write_connection_refused_old_locals w
  let r ← pgexporter_write_message w ssl script msg
  leave r msg

/-! ## Sequences of operations on the singleton -/

/-- An operation on the singleton of `memory.c`: `pgexporter_memory_size`,
`pgexporter_memory_free`, or a read through one of the two transports, with the outcomes of
its read attempts. -/
inductive MemOp
  | size (n : Nat)
  | free
  | read (script : List ReadOutcome) (block : Bool) (timeout : Int)
  | ssl_read (script : List ReadOutcome) (timeout : Int) (start_time : Int)
deriving DecidableEq

/-- The state after a sequence of operations on the singleton (none when one of them has no
result); after a read the sequence goes on from the state the read left, whatever its
status. -/
def run_ops : World → List MemOp → Option World
  | w, [] => some w
  | w, MemOp.size n :: ops => (pgexporter_memory_size w n).bind (fun w => run_ops w ops)
  | w, MemOp.free :: ops => (pgexporter_memory_free w).bind (fun w => run_ops w ops)
  | w, MemOp.read script block timeout :: ops =>
    (read_message w script block timeout none).bind (fun r => run_ops r.world ops)
  | w, MemOp.ssl_read script timeout start_time :: ops =>
    (ssl_read_message w script timeout start_time none).bind (fun r => run_ops r.world ops)

/-- The singleton is destroyed, or it is ready for a read and the length of its message is at
most its max_length. -/
def Bounded (w : World) : Prop :=
  w.destroyed = true
    ∨ ∃ pm pd n hdr, w.ready pm pd n = true ∧ w.loadMsg pm = some hdr
        ∧ hdr.length ≤ (hdr.max_length : Int)

/-- The message at `m` has length `k` and max_length 0. -/
def Unsized (k : Int) (w : World) (m : Ptr) : Prop :=
  ∃ hdr, w.loadMsg m = some hdr ∧ hdr.length = k ∧ hdr.max_length = 0

/-! ## management.h -/

/-- Management identifiers of `management.h` (lines 43-49). -/
def MANAGEMENT_TRANSFER_CONNECTION : Int := 1
def MANAGEMENT_STOP : Int := 2
def MANAGEMENT_STATUS : Int := 3
def MANAGEMENT_DETAILS : Int := 4
def MANAGEMENT_ISALIVE : Int := 5
def MANAGEMENT_RESET : Int := 6
def MANAGEMENT_RELOAD : Int := 7

/-- The message at `m` has the given kind and length and its data pointer leads to exactly
the given bytes. -/
def Carries (kind length : Int) (bytes : List Nat) (w : World) (m : Ptr) : Prop :=
  ∃ hdr, w.view m = some (hdr, bytes) ∧ hdr.kind = kind ∧ hdr.length = length

/-! ## Decisions of the TLS loops, as used in the statements -/

/-- After the attempt with outcome `r`, the loop of `ssl_read_message` makes another attempt:
whatever outcomes follow, it goes on with them. -/
def SslReadRetries (timeout start_time : Int) (w : World) (keep_read : Bool)
    (r : ReadOutcome) (msg : Option Ptr) : Prop :=
  ∃ w1 k1, ∀ rest,
    ssl_read_message_loop timeout start_time w keep_read (r :: rest) msg
      = ssl_read_message_loop timeout start_time w1 k1 rest msg

/-- At the attempt with outcome `r`, `ssl_read_message` returns `MESSAGE_STATUS_ERROR`:
whatever outcomes follow, they are left unread. -/
def SslReadAborts (timeout start_time : Int) (w : World) (keep_read : Bool)
    (r : ReadOutcome) (msg : Option Ptr) : Prop :=
  ∃ w1, ∀ rest,
    ssl_read_message_loop timeout start_time w keep_read (r :: rest) msg
      = some ⟨w1, MESSAGE_STATUS_ERROR, msg, rest⟩

/-- After the attempt with outcome `r`, the loop of `ssl_write_message` makes another
attempt, with the same offset, total and remaining count. -/
def SslWriteRetries (L : Int) (w : World) (keep_write : Bool) (r : WriteOutcome)
    (offset totalbytes remaining : Int) : Prop :=
  ∃ w1 k1, ∀ rest,
    ssl_write_message_loop L w keep_write (r :: rest) offset totalbytes remaining
      = (ssl_write_message_loop L w1 k1 rest offset totalbytes remaining).map
          (WriteResult.after ⟨offset, wrap_int32 remaining⟩)

/-- At the attempt with outcome `r`, `ssl_write_message` returns `MESSAGE_STATUS_ERROR`:
whatever outcomes follow, they are left unused. -/
def SslWriteAborts (L : Int) (w : World) (keep_write : Bool) (r : WriteOutcome)
    (offset totalbytes remaining : Int) : Prop :=
  ∃ w1, ∀ rest,
    ssl_write_message_loop L w keep_write (r :: rest) offset totalbytes remaining
      = some ⟨w1, MESSAGE_STATUS_ERROR, [⟨offset, wrap_int32 remaining⟩], rest⟩

/-- The TLS error code is one of those for which both loops ask for another attempt (with
`SSL_ERROR_ZERO_RETURN` among them, as in `ssl_write_message` and in `ssl_read_message`
without a timeout). -/
def ssl_retry_code (e : Int) : Bool :=
  e == SSL_ERROR_ZERO_RETURN || e == SSL_ERROR_WANT_READ || e == SSL_ERROR_WANT_WRITE
    || e == SSL_ERROR_WANT_CONNECT || e == SSL_ERROR_WANT_ACCEPT
    || e == SSL_ERROR_WANT_X509_LOOKUP || e == SSL_ERROR_WANT_ASYNC
    || e == SSL_ERROR_WANT_ASYNC_JOB || e == SSL_ERROR_WANT_CLIENT_HELLO_CB

/-- The TLS error code is one of the two for which both loops give up. -/
def ssl_fatal_code (e : Int) : Bool := e == SSL_ERROR_SYSCALL || e == SSL_ERROR_SSL
/-! ## Lemmas on the heap model -/

theorem strlen_eq_length (s : List Nat) (h : ∀ b ∈ s, b ≠ 0) : strlen s = s.length := by
  unfold strlen
  rw [List.takeWhile_eq_self_iff.mpr]
  intro b hb
  simpa using h b hb

theorem take_strlen (s : List Nat) (h : ∀ b ∈ s, b ≠ 0) : s.take (strlen s) = s := by
  rw [strlen_eq_length s h, List.take_length]

theorem tail2_get0 {α : Type} (h : List α) (x y : α) : (h ++ [x, y])[h.length]? = some x := by
  rw [List.getElem?_append_right (le_refl _)]
  simp

theorem tail2_get1 {α : Type} (h : List α) (x y : α) :
    (h ++ [x, y])[h.length + 1]? = some y := by
  rw [List.getElem?_append_right (by omega)]
  simp

theorem tail2_set0 {α : Type} (h : List α) (x y x' : α) :
    (h ++ [x, y]).set h.length x' = h ++ [x', y] := by
  simp [List.set_append]

theorem tail2_set1 {α : Type} (h : List α) (x y y' : α) :
    (h ++ [x, y]).set (h.length + 1) y' = h ++ [x, y'] := by
  simp [List.set_append]

theorem splice_zeros (A : List Nat) (k off : Nat) (bs : List Nat)
    (h1 : A.length ≤ off) (h2 : off + bs.length ≤ A.length + k) :
    splice (A ++ List.replicate k 0) off bs
      = (A ++ List.replicate (off - A.length) 0 ++ bs)
          ++ List.replicate (A.length + k - (off + bs.length)) 0 := by
  unfold splice
  rw [List.take_append_eq_append_take, List.drop_append_eq_append_drop,
    List.take_of_length_le h1, List.drop_eq_nil_of_le (by omega)]
  simp only [List.take_replicate, List.drop_replicate, List.nil_append, List.append_assoc]
  congr 3
  · omega
  · congr 1
    omega


theorem splice_zeros_gap (A : List Nat) (k off : Nat) (bs : List Nat) (g r : Nat)
    (hg : off = A.length + g) (hr : k = g + bs.length + r) :
    splice (A ++ List.replicate k 0) off bs
      = (A ++ List.replicate g 0 ++ bs) ++ List.replicate r 0 := by
  have e1 : off - A.length = g := by omega
  have e2 : A.length + k - (off + bs.length) = r := by omega
  rw [splice_zeros A k off bs (by omega) (by omega), e1, e2]

theorem splice_full (b : List Nat) (n c : Nat) (hn : n = b.length) :
    splice b 0 (List.replicate n c) = [] ++ List.replicate n c := by
  subst hn
  simp [splice]

@[simp] theorem be32_length (i : Int) : (be32 i).length = 4 := rfl

/-- Writing into the buffer of a freshly built message: the two newest heap blocks are the
header and its buffer, and the buffer is a written prefix followed by zeros. -/
theorem writeBytes_tail (h : List (Option Obj)) (x : Option Obj) (A : List Nat) (k : Nat)
    (ms ds : Option Ptr) (e : Int) (rt : List Int) (u : message_t) (ub : Nat)
    (off : Nat) (bs : List Nat) (g r : Nat)
    (hg : off = A.length + g) (hr : k = g + bs.length + r) :
    World.writeBytes
        ⟨h ++ [x, some (Obj.buf (A ++ List.replicate k 0))], ms, ds, e, rt, u, ub⟩
        (h.length + 1) off bs
      = some ⟨h ++ [x, some (Obj.buf ((A ++ List.replicate g 0 ++ bs) ++ List.replicate r 0))],
          ms, ds, e, rt, u, ub⟩ := by
  have hlen : off + bs.length ≤ (A ++ List.replicate k 0).length := by
    simp only [List.length_append, List.length_replicate]
    omega
  have hlen2 : ((A ++ List.replicate g 0 ++ bs) ++ List.replicate r 0).length
      = (A ++ List.replicate k 0).length := by
    simp only [List.length_append, List.length_replicate]
    omega
  simp only [World.writeBytes, World.loadBuf, World.load, tail2_get1, hlen, if_true,
    World.storeBuf, World.put, splice_zeros_gap A k off bs g r hg hr, hlen2, tail2_set1]

theorem memset_tail (h : List (Option Obj)) (x : Option Obj) (b : List Nat)
    (ms ds : Option Ptr) (e : Int) (rt : List Int) (u : message_t) (ub : Nat) (n c : Nat)
    (hn : n = b.length) :
    World.memset ⟨h ++ [x, some (Obj.buf b)], ms, ds, e, rt, u, ub⟩ (h.length + 1) c n
      = some ⟨h ++ [x, some (Obj.buf ([] ++ List.replicate n c))], ms, ds, e, rt, u, ub⟩ := by
  have hlen : 0 + (List.replicate n c).length ≤ b.length := by
    simp only [List.length_replicate]
    omega
  have hlen2 : ([] ++ List.replicate n c).length = b.length := by
    simp only [List.length_replicate, List.nil_append]
    omega
  simp only [World.memset, World.writeBytes, World.loadBuf, World.load, tail2_get1, hlen,
    if_true, World.storeBuf, World.put, splice_full b n c hn, hlen2, tail2_set1]

theorem storeMsg_tail (h : List (Option Obj)) (m : message_t) (y : Option Obj)
    (ms ds : Option Ptr) (e : Int) (rt : List Int) (u : message_t) (ub : Nat) (m' : message_t) :
    World.storeMsg ⟨h ++ [some (Obj.msg m), y], ms, ds, e, rt, u, ub⟩ h.length m'
      = some ⟨h ++ [some (Obj.msg m'), y], ms, ds, e, rt, u, ub⟩ := by
  simp only [World.storeMsg, World.put, World.loadMsg, World.load, tail2_get0, tail2_set0]

theorem loadMsg_tail (h : List (Option Obj)) (m : message_t) (y : Option Obj)
    (ms ds : Option Ptr) (e : Int) (rt : List Int) (u : message_t) (ub : Nat) :
    World.loadMsg ⟨h ++ [some (Obj.msg m), y], ms, ds, e, rt, u, ub⟩ h.length = some m := by
  simp only [World.loadMsg, World.load, tail2_get0]

theorem loadBuf_tail (h : List (Option Obj)) (x : Option Obj) (b : List Nat)
    (ms ds : Option Ptr) (e : Int) (rt : List Int) (u : message_t) (ub : Nat) :
    World.loadBuf ⟨h ++ [x, some (Obj.buf b)], ms, ds, e, rt, u, ub⟩ (h.length + 1)
      = some b := by
  simp only [World.loadBuf, World.load, tail2_get1]

theorem malloc_pair (w : World) (size : Nat) :
    (w.mallocMsg.1.malloc size)
      = (⟨w.heap ++ [some (Obj.msg w.uninit),
            some (Obj.buf (List.replicate size w.uninit_byte))],
          w.message, w.data, w.errno, w.rcvtimeo, w.uninit, w.uninit_byte⟩,
        w.heap.length + 1) := by
  simp [World.mallocMsg, World.malloc]

theorem mallocMsg_snd (w : World) : w.mallocMsg.2 = w.heap.length := rfl

theorem setData_tail (h : List (Option Obj)) (m : message_t) (y : Option Obj)
    (ms ds : Option Ptr) (e : Int) (rt : List Int) (u : message_t) (ub : Nat) (d : Option Ptr) :
    World.setData ⟨h ++ [some (Obj.msg m), y], ms, ds, e, rt, u, ub⟩ h.length d
      = some ⟨h ++ [some (Obj.msg { m with data := d }), y], ms, ds, e, rt, u, ub⟩ := by
  simp only [World.setData, loadMsg_tail, storeMsg_tail]

theorem setKind_tail (h : List (Option Obj)) (m : message_t) (y : Option Obj)
    (ms ds : Option Ptr) (e : Int) (rt : List Int) (u : message_t) (ub : Nat) (k : Int) :
    World.setKind ⟨h ++ [some (Obj.msg m), y], ms, ds, e, rt, u, ub⟩ h.length k
      = some ⟨h ++ [some (Obj.msg { m with kind := k }), y], ms, ds, e, rt, u, ub⟩ := by
  simp only [World.setKind, loadMsg_tail, storeMsg_tail]

theorem setLength_tail (h : List (Option Obj)) (m : message_t) (y : Option Obj)
    (ms ds : Option Ptr) (e : Int) (rt : List Int) (u : message_t) (ub : Nat) (n : Int) :
    World.setLength ⟨h ++ [some (Obj.msg m), y], ms, ds, e, rt, u, ub⟩ h.length n
      = some ⟨h ++ [some (Obj.msg { m with length := n }), y], ms, ds, e, rt, u, ub⟩ := by
  simp only [World.setLength, loadMsg_tail, storeMsg_tail]

theorem lit_user : (lit "user").take (strlen (lit "user")) = lit "user" := by decide

theorem startup_spec (w : World) (u d : List Nat)
    (hu : ∀ b ∈ u, b ≠ 0) (hd : ∀ b ∈ d, b ≠ 0) :
    pgexporter_create_startup_message w u d
      = some (⟨w.heap ++ [some (Obj.msg
                  { kind := 0, length := (53 + u.length + d.length : Nat),
                    max_length := w.uninit.max_length, data := some (w.heap.length + 1) }),
                some (Obj.buf (be32 (53 + u.length + d.length : Nat) ++ be32 196608
                  ++ lit "user" ++ [0] ++ u ++ [0] ++ lit "database" ++ [0] ++ d ++ [0]
                  ++ lit "application_name" ++ [0] ++ lit "pgexporter" ++ [0, 0]))],
              w.message, w.data, w.errno, w.rcvtimeo, w.uninit, w.uninit_byte⟩,
            MESSAGE_STATUS_OK, w.heap.length) := by
  have hsz : 4 + 4 + 4 + 1 + u.length + 1 + 8 + 1 + d.length + 1 + 17 + 11 + 1
      = 53 + u.length + d.length := by omega
  unfold pgexporter_create_startup_message
  simp only [strlen_eq_length u hu, strlen_eq_length d hd, hsz, List.take_length,
    pgexporter_write_int32, pgexporter_write_string, malloc_pair, lit_user,
    take_strlen (lit "database") (by decide), take_strlen (lit "application_name") (by decide),
    take_strlen (lit "pgexporter") (by decide),
    Option.bind_eq_bind, Option.some_bind, setData_tail, mallocMsg_snd]
  rw [memset_tail _ _ _ _ _ _ _ _ _ _ _ (by simp)]
  simp only [Option.some_bind, setKind_tail, setLength_tail]
  rw [writeBytes_tail _ _ _ _ _ _ _ _ _ _ _ _ 0 (49 + u.length + d.length)
    (by first | omega | (simp [lit] <;> omega))
    (by first | omega | (simp [lit] <;> omega))
]
  simp only [Option.some_bind]
  rw [writeBytes_tail _ _ _ _ _ _ _ _ _ _ _ _ 0 (45 + u.length + d.length)
    (by first | omega | (simp [lit] <;> omega))
    (by first | omega | (simp [lit] <;> omega))
]
  simp only [Option.some_bind]
  rw [writeBytes_tail _ _ _ _ _ _ _ _ _ _ _ _ 0 (41 + u.length + d.length)
    (by first | omega | (simp [lit] <;> omega))

    (by first | omega | (simp [lit] <;> omega))
]
  simp only [Option.some_bind]
  rw [writeBytes_tail _ _ _ _ _ _ _ _ _ _ _ _ 1 (40 + d.length)
    (by first | omega | (simp [lit] <;> omega))

    (by first | omega | (simp [lit] <;> omega))
]
  simp only [Option.some_bind]
  rw [writeBytes_tail _ _ _ _ _ _ _ _ _ _ _ _ 1 (31 + d.length)
    (by first | omega | (simp [lit] <;> omega))

    (by first | omega | (simp [lit] <;> omega))
]
  simp only [Option.some_bind]
  rw [writeBytes_tail _ _ _ _ _ _ _ _ _ _ _ _ 1 30 (by first | omega | (simp [lit] <;> omega))

    (by first | omega | (simp [lit] <;> omega))
]
  simp only [Option.some_bind]
  rw [writeBytes_tail _ _ _ _ _ _ _ _ _ _ _ _ 1 13 (by first | omega | (simp [lit] <;> omega))

    (by first | omega | (simp [lit] <;> omega))
]
  simp only [Option.some_bind]
  rw [writeBytes_tail _ _ _ _ _ _ _ _ _ _ _ _ 1 2 (by first | omega | (simp [lit] <;> omega))

    (by first | omega | (simp [lit] <;> omega))
]
  simp

/-! ## Frame lemmas for arbitrary addresses -/

@[simp] theorem put_message (w : World) (p : Ptr) (x : Option Obj) :
    (w.put p x).message = w.message := rfl

@[simp] theorem put_data (w : World) (p : Ptr) (x : Option Obj) :
    (w.put p x).data = w.data := rfl

@[simp] theorem put_errno (w : World) (p : Ptr) (x : Option Obj) :
    (w.put p x).errno = w.errno := rfl

@[simp] theorem put_rcvtimeo (w : World) (p : Ptr) (x : Option Obj) :
    (w.put p x).rcvtimeo = w.rcvtimeo := rfl

theorem load_lt (w : World) (p : Ptr) (o : Obj) (h : w.load p = some o) :
    p < w.heap.length := by
  unfold World.load at h
  rcases Nat.lt_or_ge p w.heap.length with h1 | h1
  · exact h1
  · rw [List.getElem?_eq_none h1] at h
    simp at h

theorem put_load_self (w : World) (p : Ptr) (o o' : Obj) (h : w.load p = some o) :
    (w.put p (some o')).load p = some o' := by
  have hlt := load_lt w p o h
  simp [World.load, World.put, List.getElem?_set, hlt]

theorem put_load_ne (w : World) (p q : Ptr) (x : Option Obj) (h : q ≠ p) :
    (w.put p x).load q = w.load q := by
  simp [World.load, World.put, List.getElem?_set, Ne.symm h]

theorem loadMsg_load (w : World) (p : Ptr) (m : message_t) :
    w.loadMsg p = some m ↔ w.load p = some (Obj.msg m) := by
  unfold World.loadMsg
  split <;> simp_all

theorem loadBuf_load (w : World) (p : Ptr) (b : List Nat) :
    w.loadBuf p = some b ↔ w.load p = some (Obj.buf b) := by
  unfold World.loadBuf
  split <;> simp_all

theorem msg_ne_buf (w : World) (pm pd : Ptr) (m : message_t) (b : List Nat)
    (hm : w.loadMsg pm = some m) (hb : w.loadBuf pd = some b) : pm ≠ pd := by
  rw [loadMsg_load] at hm
  rw [loadBuf_load] at hb
  intro h
  subst h
  rw [hm] at hb
  simp at hb

theorem storeMsg_eq (w : World) (p : Ptr) (m0 m : message_t) (h : w.loadMsg p = some m0) :
    w.storeMsg p m = some (w.put p (some (Obj.msg m))) := by
  simp [World.storeMsg, h]

theorem put_loadMsg_self (w : World) (p : Ptr) (m0 m : message_t)
    (h : w.loadMsg p = some m0) : (w.put p (some (Obj.msg m))).loadMsg p = some m := by
  rw [loadMsg_load] at h ⊢
  exact put_load_self w p _ _ h

theorem put_loadBuf_self (w : World) (p : Ptr) (b0 b : List Nat)
    (h : w.loadBuf p = some b0) : (w.put p (some (Obj.buf b))).loadBuf p = some b := by
  rw [loadBuf_load] at h ⊢
  exact put_load_self w p _ _ h

theorem put_loadMsg_ne (w : World) (p q : Ptr) (x : Option Obj) (h : q ≠ p) :
    (w.put p x).loadMsg q = w.loadMsg q := by
  simp [World.loadMsg, put_load_ne w p q x h]

theorem put_loadBuf_ne (w : World) (p q : Ptr) (x : Option Obj) (h : q ≠ p) :
    (w.put p x).loadBuf q = w.loadBuf q := by
  simp [World.loadBuf, put_load_ne w p q x h]

theorem writeBytes_eq (w : World) (p : Ptr) (b : List Nat) (off : Nat) (bs : List Nat)
    (h : w.loadBuf p = some b) (hlen : off + bs.length ≤ b.length) :
    w.writeBytes p off bs = some (w.put p (some (Obj.buf (splice b off bs)))) := by
  have hl : (splice b off bs).length = b.length := by
    simp only [splice, List.length_append, List.length_take, List.length_drop]
    omega
  simp [World.writeBytes, World.storeBuf, h, hlen, hl]

theorem live_iff (w : World) (pm pd : Ptr) (n : Nat) :
    w.live pm pd n = true ↔
      w.message = some pm ∧ w.data = some pd
        ∧ (∃ hdr, w.loadMsg pm = some hdr ∧ hdr.max_length = n)
        ∧ (∃ b, w.loadBuf pd = some b ∧ b.length = n) := by
  unfold World.live
  cases hm : w.loadMsg pm <;> cases hb : w.loadBuf pd <;> simp [and_assoc]

@[simp] theorem put_heap_length (w : World) (p : Ptr) (x : Option Obj) :
    (w.put p x).heap.length = w.heap.length := by
  simp [World.put]

theorem loadMsg_put_self (w : World) (p : Ptr) (m : message_t) (hlt : p < w.heap.length) :
    (w.put p (some (Obj.msg m))).loadMsg p = some m := by
  simp [World.loadMsg, World.load, World.put, List.getElem?_set, hlt]

theorem loadBuf_put_self (w : World) (p : Ptr) (b : List Nat) (hlt : p < w.heap.length) :
    (w.put p (some (Obj.buf b))).loadBuf p = some b := by
  simp [World.loadBuf, World.load, World.put, List.getElem?_set, hlt]

theorem loadMsg_lt (w : World) (p : Ptr) (m : message_t) (h : w.loadMsg p = some m) :
    p < w.heap.length :=
  load_lt w p _ ((loadMsg_load w p m).mp h)

theorem loadBuf_lt (w : World) (p : Ptr) (b : List Nat) (h : w.loadBuf p = some b) :
    p < w.heap.length :=
  load_lt w p _ ((loadBuf_load w p b).mp h)

theorem memset_eq (w : World) (p : Ptr) (b : List Nat) (n c : Nat)
    (h : w.loadBuf p = some b) (hn : n = b.length) :
    w.memset p c n = some (w.put p (some (Obj.buf (List.replicate n c)))) := by
  unfold World.memset
  rw [writeBytes_eq w p b 0 _ h (by simp; omega), splice_full b n c hn]
  simp

/-- The effect of `pgexporter_memory_free` on a live singleton. -/
theorem memory_free_live (w : World) (pm pd : Ptr) (n : Nat) (h : w.live pm pd n = true) :
    ∃ w', pgexporter_memory_free w = some w'
      ∧ w'.loadMsg pm = some { kind := 0, length := 0, max_length := n, data := some pd }
      ∧ w'.loadBuf pd = some (List.replicate n 0)
      ∧ w'.message = some pm ∧ w'.data = some pd
      ∧ w'.errno = w.errno ∧ w'.rcvtimeo = w.rcvtimeo
      ∧ w'.live pm pd n = true := by
  obtain ⟨hmsg, hdata, ⟨hdr, hm, hcap⟩, ⟨b, hb, hbl⟩⟩ := (live_iff w pm pd n).mp h
  have hne := msg_ne_buf w pm pd hdr b hm hb
  have hne' : pd ≠ pm := Ne.symm hne
  have hlm := loadMsg_lt w pm hdr hm
  have hlb := loadBuf_lt w pd b hb
  unfold pgexporter_memory_free
  simp only [hmsg, hdata, hm, World.memsetMsg, storeMsg_eq w pm hdr _ hm, Option.bind_eq_bind,
    Option.some_bind, put_data]
  rw [memset_eq _ pd b _ 0 (by rw [put_loadBuf_ne _ _ _ _ hne']; exact hb) (by omega)]
  simp only [Option.some_bind, World.setKind, World.setLength, World.setMaxLength,
    World.setData, World.storeMsg, put_loadMsg_ne _ _ _ _ hne, loadMsg_put_self, hlm,
    put_heap_length, put_data, hdata, hcap]
  refine ⟨_, rfl, ?_⟩
  simp [live_iff, loadMsg_put_self, loadBuf_put_self, put_loadBuf_ne _ _ _ _ hne',
    put_loadMsg_ne _ _ _ _ hne, hlm, hlb, hmsg, hdata]

/-! ## Contents of the constructed messages -/

theorem byte_p : ((chr 'p') % 256).toNat = 112 := by decide

theorem byte_R : ((chr 'R') % 256).toNat = 82 := by decide

theorem byte_E : ((chr 'E') % 256).toNat = 69 := by decide

theorem byte_X : ((chr 'X') % 256).toNat = 88 := by decide

theorem ssl_spec (w : World) :
    pgexporter_create_ssl_message w
      = some (⟨w.heap ++ [some (Obj.msg
                  { kind := 0, length := 8,
                    max_length := w.uninit.max_length, data := some (w.heap.length + 1) }),
                some (Obj.buf (be32 8 ++ be32 80877103))],
              w.message, w.data, w.errno, w.rcvtimeo, w.uninit, w.uninit_byte⟩,
            MESSAGE_STATUS_OK, w.heap.length) := by
  unfold pgexporter_create_ssl_message
  simp only [pgexporter_write_int32, malloc_pair, Option.bind_eq_bind, Option.some_bind,
    setData_tail, mallocMsg_snd]
  rw [memset_tail _ _ _ _ _ _ _ _ _ _ _ (by simp)]
  simp only [Option.some_bind, setKind_tail, setLength_tail]
  rw [writeBytes_tail _ _ _ _ _ _ _ _ _ _ _ _ 0 4 (by first | omega | (simp [lit] <;> omega))
    (by first | omega | (simp [lit] <;> omega))]
  simp only [Option.some_bind]
  rw [writeBytes_tail _ _ _ _ _ _ _ _ _ _ _ _ 0 0 (by first | omega | (simp [lit] <;> omega))
    (by first | omega | (simp [lit] <;> omega))]
  simp

theorem password_spec (w : World) (s : List Nat) (hs : ∀ b ∈ s, b ≠ 0) :
    pgexporter_create_auth_password_response w s
      = some (⟨w.heap ++ [some (Obj.msg
                  { kind := chr 'p', length := (6 + s.length : Nat),
                    max_length := w.uninit.max_length, data := some (w.heap.length + 1) }),
                some (Obj.buf ([112] ++ be32 (5 + s.length : Nat) ++ s ++ [0]))],
              w.message, w.data, w.errno, w.rcvtimeo, w.uninit, w.uninit_byte⟩,
            MESSAGE_STATUS_OK, w.heap.length) := by
  have h1 : 6 + s.length - 1 = 5 + s.length := by omega
  unfold pgexporter_create_auth_password_response
  simp only [strlen_eq_length s hs, h1, List.take_length, pgexporter_write_int32,
    pgexporter_write_string, pgexporter_write_byte, byte_p, malloc_pair, Option.bind_eq_bind,
    Option.some_bind, setData_tail, mallocMsg_snd]
  rw [memset_tail _ _ _ _ _ _ _ _ _ _ _ (by simp)]
  simp only [Option.some_bind, setKind_tail, setLength_tail]
  rw [writeBytes_tail _ _ _ _ _ _ _ _ _ _ _ _ 0 (5 + s.length)
    (by first | omega | (simp [lit] <;> omega)) (by first | omega | (simp [lit] <;> omega))]
  simp only [Option.some_bind]
  rw [writeBytes_tail _ _ _ _ _ _ _ _ _ _ _ _ 0 (1 + s.length)
    (by first | omega | (simp [lit] <;> omega)) (by first | omega | (simp [lit] <;> omega))]
  simp only [Option.some_bind]
  rw [writeBytes_tail _ _ _ _ _ _ _ _ _ _ _ _ 0 1
    (by first | omega | (simp [lit] <;> omega)) (by first | omega | (simp [lit] <;> omega))]
  simp

theorem md5_spec (w : World) (s : List Nat) (hs : ∀ b ∈ s, b ≠ 0) :
    pgexporter_create_auth_md5_response w s
      = some (⟨w.heap ++ [some (Obj.msg
                  { kind := chr 'p', length := (6 + s.length : Nat),
                    max_length := w.uninit.max_length, data := some (w.heap.length + 1) }),
                some (Obj.buf ([112] ++ be32 (5 + s.length : Nat) ++ s ++ [0]))],
              w.message, w.data, w.errno, w.rcvtimeo, w.uninit, w.uninit_byte⟩,
            MESSAGE_STATUS_OK, w.heap.length) := by
  have h0 : 1 + 4 + s.length + 1 = 6 + s.length := by omega
  have h1 : 6 + s.length - 1 = 5 + s.length := by omega
  unfold pgexporter_create_auth_md5_response
  simp only [strlen_eq_length s hs, h0, h1, List.take_length, pgexporter_write_int32,
    pgexporter_write_string, pgexporter_write_byte, byte_p, malloc_pair, Option.bind_eq_bind,
    Option.some_bind, setData_tail, mallocMsg_snd]
  rw [memset_tail _ _ _ _ _ _ _ _ _ _ _ (by simp)]
  simp only [Option.some_bind, setKind_tail, setLength_tail]
  rw [writeBytes_tail _ _ _ _ _ _ _ _ _ _ _ _ 0 (5 + s.length)
    (by first | omega | (simp [lit] <;> omega)) (by first | omega | (simp [lit] <;> omega))]
  simp only [Option.some_bind]
  rw [writeBytes_tail _ _ _ _ _ _ _ _ _ _ _ _ 0 (1 + s.length)
    (by first | omega | (simp [lit] <;> omega)) (by first | omega | (simp [lit] <;> omega))]
  simp only [Option.some_bind]
  rw [writeBytes_tail _ _ _ _ _ _ _ _ _ _ _ _ 0 1
    (by first | omega | (simp [lit] <;> omega)) (by first | omega | (simp [lit] <;> omega))]
  simp

theorem scram256_response_spec (w : World) (n : List Nat) (hn : ∀ b ∈ n, b ≠ 0) :
    pgexporter_create_auth_scram256_response w n
      = some (⟨w.heap ++ [some (Obj.msg
                  { kind := chr 'p', length := (31 + n.length : Nat),
                    max_length := w.uninit.max_length, data := some (w.heap.length + 1) }),
                some (Obj.buf ([112] ++ be32 (30 + n.length : Nat) ++ lit "SCRAM-SHA-256"
                  ++ [0, 0, 0, 0] ++ lit " n,,n=,r=" ++ n))],
              w.message, w.data, w.errno, w.rcvtimeo, w.uninit, w.uninit_byte⟩,
            MESSAGE_STATUS_OK, w.heap.length) := by
  have h0 : 1 + 4 + 13 + 4 + 9 + n.length = 31 + n.length := by omega
  have h1 : 31 + n.length - 1 = 30 + n.length := by omega
  unfold pgexporter_create_auth_scram256_response
  simp only [strlen_eq_length n hn, h0, h1, List.take_length, pgexporter_write_int32,
    pgexporter_write_string, pgexporter_write_byte, byte_p, malloc_pair, Option.bind_eq_bind,
    Option.some_bind, setData_tail, mallocMsg_snd,
    take_strlen (lit "SCRAM-SHA-256") (by decide), take_strlen (lit " n,,n=,r=") (by decide)]
  rw [memset_tail _ _ _ _ _ _ _ _ _ _ _ (by simp)]
  simp only [Option.some_bind, setKind_tail, setLength_tail]
  rw [writeBytes_tail _ _ _ _ _ _ _ _ _ _ _ _ 0 (30 + n.length)
    (by first | omega | (simp [lit] <;> omega)) (by first | omega | (simp [lit] <;> omega))]
  simp only [Option.some_bind]
  rw [writeBytes_tail _ _ _ _ _ _ _ _ _ _ _ _ 0 (26 + n.length)
    (by first | omega | (simp [lit] <;> omega)) (by first | omega | (simp [lit] <;> omega))]
  simp only [Option.some_bind]
  rw [writeBytes_tail _ _ _ _ _ _ _ _ _ _ _ _ 0 (13 + n.length)
    (by first | omega | (simp [lit] <;> omega)) (by first | omega | (simp [lit] <;> omega))]
  simp only [Option.some_bind]
  rw [writeBytes_tail _ _ _ _ _ _ _ _ _ _ _ _ 4 n.length
    (by first | omega | (simp [lit] <;> omega)) (by first | omega | (simp [lit] <;> omega))]
  simp only [Option.some_bind]
  rw [writeBytes_tail _ _ _ _ _ _ _ _ _ _ _ _ 0 0
    (by first | omega | (simp [lit] <;> omega)) (by first | omega | (simp [lit] <;> omega))]
  simp

theorem scram256_continue_spec (w : World) (cn sn salt : List Nat)
    (hcn : ∀ b ∈ cn, b ≠ 0) (hsn : ∀ b ∈ sn, b ≠ 0) (hsalt : ∀ b ∈ salt, b ≠ 0) :
    pgexporter_create_auth_scram256_continue w cn sn salt
      = some (⟨w.heap ++ [some (Obj.msg
                  { kind := chr 'R', length := (21 + cn.length + sn.length + salt.length : Nat),
                    max_length := w.uninit.max_length, data := some (w.heap.length + 1) }),
                some (Obj.buf ([82] ++ be32 (20 + cn.length + sn.length + salt.length : Nat)
                  ++ be32 11 ++ lit "r=" ++ cn ++ sn ++ lit ",s=" ++ salt ++ lit ",i=4096"))],
              w.message, w.data, w.errno, w.rcvtimeo, w.uninit, w.uninit_byte⟩,
            MESSAGE_STATUS_OK, w.heap.length) := by
  have h0 : 1 + 4 + 4 + 2 + cn.length + sn.length + 3 + salt.length + 7
      = 21 + cn.length + sn.length + salt.length := by omega
  have h1 : 21 + cn.length + sn.length + salt.length - 1
      = 20 + cn.length + sn.length + salt.length := by omega
  unfold pgexporter_create_auth_scram256_continue
  simp only [strlen_eq_length cn hcn, strlen_eq_length sn hsn, strlen_eq_length salt hsalt,
    h0, h1, List.take_length, pgexporter_write_int32,
    pgexporter_write_string, pgexporter_write_byte, byte_R, malloc_pair, Option.bind_eq_bind,
    Option.some_bind, setData_tail, mallocMsg_snd,
    take_strlen (lit "r=") (by decide), take_strlen (lit ",s=") (by decide),
    take_strlen (lit ",i=4096") (by decide)]
  rw [memset_tail _ _ _ _ _ _ _ _ _ _ _ (by simp)]
  simp only [Option.some_bind, setKind_tail, setLength_tail]
  rw [writeBytes_tail _ _ _ _ _ _ _ _ _ _ _ _ 0 (20 + cn.length + sn.length + salt.length)
    (by first | omega | (simp [lit] <;> omega)) (by first | omega | (simp [lit] <;> omega))]
  simp only [Option.some_bind]
  rw [writeBytes_tail _ _ _ _ _ _ _ _ _ _ _ _ 0 (16 + cn.length + sn.length + salt.length)
    (by first | omega | (simp [lit] <;> omega)) (by first | omega | (simp [lit] <;> omega))]
  simp only [Option.some_bind]
  rw [writeBytes_tail _ _ _ _ _ _ _ _ _ _ _ _ 0 (12 + cn.length + sn.length + salt.length)
    (by first | omega | (simp [lit] <;> omega)) (by first | omega | (simp [lit] <;> omega))]
  simp only [Option.some_bind]
  rw [writeBytes_tail _ _ _ _ _ _ _ _ _ _ _ _ 0 (10 + cn.length + sn.length + salt.length)
    (by first | omega | (simp [lit] <;> omega)) (by first | omega | (simp [lit] <;> omega))]
  simp only [Option.some_bind]
  rw [writeBytes_tail _ _ _ _ _ _ _ _ _ _ _ _ 0 (10 + sn.length + salt.length)
    (by first | omega | (simp [lit] <;> omega)) (by first | omega | (simp [lit] <;> omega))]
  simp only [Option.some_bind]
  rw [writeBytes_tail _ _ _ _ _ _ _ _ _ _ _ _ 0 (10 + salt.length)
    (by first | omega | (simp [lit] <;> omega)) (by first | omega | (simp [lit] <;> omega))]
  simp only [Option.some_bind]
  rw [writeBytes_tail _ _ _ _ _ _ _ _ _ _ _ _ 0 (7 + salt.length)
    (by first | omega | (simp [lit] <;> omega)) (by first | omega | (simp [lit] <;> omega))]
  simp only [Option.some_bind]
  rw [writeBytes_tail _ _ _ _ _ _ _ _ _ _ _ _ 0 7
    (by first | omega | (simp [lit] <;> omega)) (by first | omega | (simp [lit] <;> omega))]
  simp only [Option.some_bind]
  rw [writeBytes_tail _ _ _ _ _ _ _ _ _ _ _ _ 0 0
    (by first | omega | (simp [lit] <;> omega)) (by first | omega | (simp [lit] <;> omega))]
  simp

theorem scram256_continue_response_spec (w : World) (wp p : List Nat)
    (hwp : ∀ b ∈ wp, b ≠ 0) (hp : ∀ b ∈ p, b ≠ 0) :
    pgexporter_create_auth_scram256_continue_response w wp p
      = some (⟨w.heap ++ [some (Obj.msg
                  { kind := chr 'p', length := (8 + wp.length + p.length : Nat),
                    max_length := w.uninit.max_length, data := some (w.heap.length + 1) }),
                some (Obj.buf ([112] ++ be32 (7 + wp.length + p.length : Nat)
                  ++ wp ++ lit ",p=" ++ p))],
              w.message, w.data, w.errno, w.rcvtimeo, w.uninit, w.uninit_byte⟩,
            MESSAGE_STATUS_OK, w.heap.length) := by
  have h0 : 1 + 4 + wp.length + 3 + p.length = 8 + wp.length + p.length := by omega
  have h1 : 8 + wp.length + p.length - 1 = 7 + wp.length + p.length := by omega
  unfold pgexporter_create_auth_scram256_continue_response
  simp only [strlen_eq_length wp hwp, strlen_eq_length p hp,
    h0, h1, List.take_length, pgexporter_write_int32,
    pgexporter_write_string, pgexporter_write_byte, byte_p, malloc_pair, Option.bind_eq_bind,
    Option.some_bind, setData_tail, mallocMsg_snd, take_strlen (lit ",p=") (by decide)]
  rw [memset_tail _ _ _ _ _ _ _ _ _ _ _ (by simp)]
  simp only [Option.some_bind, setKind_tail, setLength_tail]
  rw [writeBytes_tail _ _ _ _ _ _ _ _ _ _ _ _ 0 (7 + wp.length + p.length)
    (by first | omega | (simp [lit] <;> omega)) (by first | omega | (simp [lit] <;> omega))]
  simp only [Option.some_bind]
  rw [writeBytes_tail _ _ _ _ _ _ _ _ _ _ _ _ 0 (3 + wp.length + p.length)
    (by first | omega | (simp [lit] <;> omega)) (by first | omega | (simp [lit] <;> omega))]
  simp only [Option.some_bind]
  rw [writeBytes_tail _ _ _ _ _ _ _ _ _ _ _ _ 0 (3 + p.length)
    (by first | omega | (simp [lit] <;> omega)) (by first | omega | (simp [lit] <;> omega))]
  simp only [Option.some_bind]
  rw [writeBytes_tail _ _ _ _ _ _ _ _ _ _ _ _ 0 p.length
    (by first | omega | (simp [lit] <;> omega)) (by first | omega | (simp [lit] <;> omega))]
  simp only [Option.some_bind]
  rw [writeBytes_tail _ _ _ _ _ _ _ _ _ _ _ _ 0 0
    (by first | omega | (simp [lit] <;> omega)) (by first | omega | (simp [lit] <;> omega))]
  simp

theorem scram256_final_spec (w : World) (ss : List Nat) (hss : ∀ b ∈ ss, b ≠ 0) :
    pgexporter_create_auth_scram256_final w ss
      = some (⟨w.heap ++ [some (Obj.msg
                  { kind := chr 'R', length := (11 + ss.length : Nat),
                    max_length := w.uninit.max_length, data := some (w.heap.length + 1) }),
                some (Obj.buf ([82] ++ be32 (10 + ss.length : Nat) ++ be32 12 ++ lit "v="
                  ++ ss))],
              w.message, w.data, w.errno, w.rcvtimeo, w.uninit, w.uninit_byte⟩,
            MESSAGE_STATUS_OK, w.heap.length) := by
  have h0 : 1 + 4 + 4 + 2 + ss.length = 11 + ss.length := by omega
  have h1 : 11 + ss.length - 1 = 10 + ss.length := by omega
  unfold pgexporter_create_auth_scram256_final
  simp only [strlen_eq_length ss hss, h0, h1, List.take_length, pgexporter_write_int32,
    pgexporter_write_string, pgexporter_write_byte, byte_R, malloc_pair, Option.bind_eq_bind,
    Option.some_bind, setData_tail, mallocMsg_snd, take_strlen (lit "v=") (by decide)]
  rw [memset_tail _ _ _ _ _ _ _ _ _ _ _ (by simp)]
  simp only [Option.some_bind, setKind_tail, setLength_tail]
  rw [writeBytes_tail _ _ _ _ _ _ _ _ _ _ _ _ 0 (10 + ss.length)
    (by first | omega | (simp [lit] <;> omega)) (by first | omega | (simp [lit] <;> omega))]
  simp only [Option.some_bind]
  rw [writeBytes_tail _ _ _ _ _ _ _ _ _ _ _ _ 0 (6 + ss.length)
    (by first | omega | (simp [lit] <;> omega)) (by first | omega | (simp [lit] <;> omega))]
  simp only [Option.some_bind]
  rw [writeBytes_tail _ _ _ _ _ _ _ _ _ _ _ _ 0 (2 + ss.length)
    (by first | omega | (simp [lit] <;> omega)) (by first | omega | (simp [lit] <;> omega))]
  simp only [Option.some_bind]
  rw [writeBytes_tail _ _ _ _ _ _ _ _ _ _ _ _ 0 ss.length
    (by first | omega | (simp [lit] <;> omega)) (by first | omega | (simp [lit] <;> omega))]
  simp only [Option.some_bind]
  rw [writeBytes_tail _ _ _ _ _ _ _ _ _ _ _ _ 0 0
    (by first | omega | (simp [lit] <;> omega)) (by first | omega | (simp [lit] <;> omega))]
  simp

/-! ## Reading a constructed message back -/

theorem view_tail (h : List (Option Obj)) (hdr : message_t) (b : List Nat)
    (ms ds : Option Ptr) (e : Int) (rt : List Int) (u : message_t) (ub : Nat)
    (hd : hdr.data = some (h.length + 1)) :
    World.view ⟨h ++ [some (Obj.msg hdr), some (Obj.buf b)], ms, ds, e, rt, u, ub⟩ h.length
      = some (hdr, b) := by
  simp only [World.view, loadMsg_tail, hd, loadBuf_tail, Option.bind_eq_bind,
    Option.some_bind]

theorem be32_nat (n : Nat) (hn : n < 4294967296) :
    be32 (n : Int) = [n / 16777216 % 256, n / 65536 % 256, n / 256 % 256, n % 256] := by
  have hv : ((n : Int) % 4294967296).toNat = n := by omega
  simp only [be32, hv]

theorem int32_at_be32 (pre rest : List Nat) (i : Int) (h0 : 0 ≤ i) (h1 : i < 2147483648) :
    int32_at (pre ++ (be32 i ++ rest)) pre.length = some i := by
  obtain ⟨n, rfl⟩ := Int.eq_ofNat_of_zero_le h0
  have hn : n < 2147483648 := by omega
  rw [be32_nat n (by omega)]
  simp only [int32_at, List.drop_left, List.cons_append, List.nil_append]
  have hv : n / 16777216 % 256 * 16777216 + n / 65536 % 256 * 65536 + n / 256 % 256 * 256
      + n % 256 = n := by omega
  simp only [hv, hn, if_true]

theorem int32_at_be32_0 (rest : List Nat) (i : Int) (h0 : 0 ≤ i) (h1 : i < 2147483648) :
    int32_at (be32 i ++ rest) 0 = some i := by
  simpa using int32_at_be32 [] rest i h0 h1

theorem int32_at_be32_1 (x : Nat) (rest : List Nat) (i : Int) (h0 : 0 ≤ i)
    (h1 : i < 2147483648) : int32_at ([x] ++ (be32 i ++ rest)) 1 = some i := by
  simpa using int32_at_be32 [x] rest i h0 h1

theorem int32_at_be32_4 (a : Int) (rest : List Nat) (i : Int) (h0 : 0 ≤ i)
    (h1 : i < 2147483648) : int32_at (be32 a ++ (be32 i ++ rest)) 4 = some i := by
  simpa using int32_at_be32 (be32 a) rest i h0 h1

theorem lit_user_length : (lit "user").length = 4 := by decide

theorem lit_database_length : (lit "database").length = 8 := by decide

theorem lit_application_name_length : (lit "application_name").length = 16 := by decide

theorem lit_pgexporter_length : (lit "pgexporter").length = 10 := by decide

/-! ## Claims C1, C9: the startup message -/

/-- C1: for NUL-free `username` and `database` whose message size fits in an int32,
`pgexporter_create_startup_message` returns `MESSAGE_STATUS_OK` and a message of kind 0 and
length `53 + |username| + |database|`, of that many bytes, whose big-endian int32 at offset 0
is that length and whose big-endian int32 at offset 4 is 196608. -/
theorem C1_startup_message_size (w : World) (u d : List Nat)
    (hu : ∀ b ∈ u, b ≠ 0) (hd : ∀ b ∈ d, b ≠ 0)
    (hfit : 53 + u.length + d.length < 2147483648) :
    ∃ w' m hdr bytes,
      pgexporter_create_startup_message w u d = some (w', MESSAGE_STATUS_OK, m)
        ∧ w'.view m = some (hdr, bytes)
        ∧ hdr.kind = 0
        ∧ hdr.length = ((53 + u.length + d.length : Nat) : Int)
        ∧ bytes.length = 53 + u.length + d.length
        ∧ int32_at bytes 0 = some ((53 + u.length + d.length : Nat) : Int)
        ∧ int32_at bytes 4 = some 196608 := by
  refine ⟨_, _, _, _, startup_spec w u d hu hd, view_tail _ _ _ _ _ _ _ _ _ rfl, rfl, rfl,
    ?_, ?_, ?_⟩
  · simp only [List.length_append, be32_length, lit_user_length, lit_database_length,
      lit_application_name_length, lit_pgexporter_length, List.length_cons, List.length_nil]
    omega
  · simp only [List.append_assoc]
    exact int32_at_be32_0 _ _ (by omega) (by omega)
  · simp only [List.append_assoc]
    exact int32_at_be32_4 _ _ _ (by omega) (by omega)

/-- C1 at `username = "alice"`, `database = "postgres"`: the length and the length field are
both 66. -/
theorem C1_startup_message_size_witness :
    (∀ b ∈ lit "alice", b ≠ 0) ∧ (∀ b ∈ lit "postgres", b ≠ 0)
      ∧ 53 + (lit "alice").length + (lit "postgres").length < 2147483648
      ∧ ∃ w' m hdr bytes,
          pgexporter_create_startup_message World.init (lit "alice") (lit "postgres")
              = some (w', MESSAGE_STATUS_OK, m)
            ∧ w'.view m = some (hdr, bytes)
            ∧ hdr.kind = 0
            ∧ hdr.length = 66
            ∧ bytes.length = 66
            ∧ int32_at bytes 0 = some 66
            ∧ int32_at bytes 4 = some 196608 := by
  have h := C1_startup_message_size World.init (lit "alice") (lit "postgres")
    (by decide) (by decide) (by decide)
  have e : 53 + (lit "alice").length + (lit "postgres").length = 66 := by decide
  rw [e] at h
  exact ⟨by decide, by decide, by decide, h⟩

/-- C9: for NUL-free `username` and `database`, the bytes of the startup message from
offset 8 to the end are exactly `"user\0" username "\0" "database\0" database "\0"
"application_name\0" "pgexporter\0"` followed by one zero byte. -/
theorem C9_startup_message_parameters (w : World) (u d : List Nat)
    (hu : ∀ b ∈ u, b ≠ 0) (hd : ∀ b ∈ d, b ≠ 0) :
    ∃ w' m hdr bytes,
      pgexporter_create_startup_message w u d = some (w', MESSAGE_STATUS_OK, m)
        ∧ w'.view m = some (hdr, bytes)
        ∧ bytes.drop 8
            = (lit "user" ++ [0]) ++ (u ++ [0]) ++ (lit "database" ++ [0]) ++ (d ++ [0])
                ++ (lit "application_name" ++ [0]) ++ (lit "pgexporter" ++ [0]) ++ [0] := by
  refine ⟨_, _, _, _, startup_spec w u d hu hd, view_tail _ _ _ _ _ _ _ _ _ rfl, ?_⟩
  have h8 : (be32 ((53 + u.length + d.length : Nat) : Int) ++ be32 196608).length = 8 := by
    simp
  simp only [List.append_assoc] at h8 ⊢
  rw [← List.append_assoc (be32 _) (be32 _), List.drop_left' h8]
  simp

/-- C9 at `username = "alice"`, `database = "postgres"`. -/
theorem C9_startup_message_parameters_witness :
    (∀ b ∈ lit "alice", b ≠ 0) ∧ (∀ b ∈ lit "postgres", b ≠ 0)
      ∧ ∃ w' m hdr bytes,
          pgexporter_create_startup_message World.init (lit "alice") (lit "postgres")
              = some (w', MESSAGE_STATUS_OK, m)
            ∧ w'.view m = some (hdr, bytes)
            ∧ bytes.drop 8
                = (lit "user" ++ [0]) ++ (lit "alice" ++ [0]) ++ (lit "database" ++ [0])
                    ++ (lit "postgres" ++ [0]) ++ (lit "application_name" ++ [0])
                    ++ (lit "pgexporter" ++ [0]) ++ [0] :=
  ⟨by decide, by decide,
    C9_startup_message_parameters World.init (lit "alice") (lit "postgres")
      (by decide) (by decide)⟩

/-! ## Contents of the messages of the fixed writers -/

theorem memsetMsg_tail (h : List (Option Obj)) (m : message_t) (y : Option Obj)
    (ms ds : Option Ptr) (e : Int) (rt : List Int) (u : message_t) (ub : Nat) :
    World.memsetMsg ⟨h ++ [some (Obj.msg m), y], ms, ds, e, rt, u, ub⟩ h.length
      = some ⟨h ++ [some (Obj.msg { kind := 0, length := 0, max_length := 0, data := none }),
          y], ms, ds, e, rt, u, ub⟩ := by
  simp only [World.memsetMsg, storeMsg_tail]

theorem write_terminate_locals_spec (w : World) :
    write_terminate_locals w
      = some (⟨w.heap ++ [some (Obj.msg
                  { kind := chr 'X', length := 5, max_length := 0,
                    data := some (w.heap.length + 1) }),
                some (Obj.buf ([88] ++ be32 4))],
              w.message, w.data, w.errno, w.rcvtimeo, w.uninit, w.uninit_byte⟩,
            w.heap.length) := by
  unfold write_terminate_locals
  simp only [pgexporter_write_int32, pgexporter_write_string, pgexporter_write_byte, byte_X,
    malloc_pair, Option.bind_eq_bind, Option.some_bind, memsetMsg_tail, mallocMsg_snd]
  rw [memset_tail _ _ _ _ _ _ _ _ _ _ _ (by simp)]
  simp only [Option.some_bind]
  rw [writeBytes_tail _ _ _ _ _ _ _ _ _ _ _ _ 0 4
    (by first | omega | (simp [lit] <;> omega)) (by first | omega | (simp [lit] <;> omega))]
  simp only [Option.some_bind]
  rw [writeBytes_tail _ _ _ _ _ _ _ _ _ _ _ _ 0 0
    (by first | omega | (simp [lit] <;> omega)) (by first | omega | (simp [lit] <;> omega))]
  simp only [Option.some_bind, setKind_tail, setLength_tail, setData_tail]
  simp

theorem write_connection_refused_locals_spec (w : World) :
    write_connection_refused_locals w
      = some (⟨w.heap ++ [some (Obj.msg
                  { kind := chr 'E', length := 46, max_length := 0,
                    data := some (w.heap.length + 1) }),
                some (Obj.buf ([69] ++ be32 45 ++ lit "SFATAL" ++ [0] ++ lit "VFATAL" ++ [0]
                  ++ lit "C53300" ++ [0] ++ lit "Mconnection refused" ++ [0]))],
              w.message, w.data, w.errno, w.rcvtimeo, w.uninit, w.uninit_byte⟩,
            w.heap.length) := by
  unfold write_connection_refused_locals
  simp only [pgexporter_write_int32, pgexporter_write_string, pgexporter_write_byte, byte_E,
    malloc_pair, Option.bind_eq_bind, Option.some_bind, memsetMsg_tail, mallocMsg_snd,
    take_strlen (lit "SFATAL") (by decide), take_strlen (lit "VFATAL") (by decide),
    take_strlen (lit "C53300") (by decide),
    take_strlen (lit "Mconnection refused") (by decide)]
  rw [memset_tail _ _ _ _ _ _ _ _ _ _ _ (by simp)]
  simp only [Option.some_bind]
  rw [writeBytes_tail _ _ _ _ _ _ _ _ _ _ _ _ 0 45
    (by first | omega | (simp [lit] <;> omega)) (by first | omega | (simp [lit] <;> omega))]
  simp only [Option.some_bind]
  rw [writeBytes_tail _ _ _ _ _ _ _ _ _ _ _ _ 0 41
    (by first | omega | (simp [lit] <;> omega)) (by first | omega | (simp [lit] <;> omega))]
  simp only [Option.some_bind]
  rw [writeBytes_tail _ _ _ _ _ _ _ _ _ _ _ _ 0 35
    (by first | omega | (simp [lit] <;> omega)) (by first | omega | (simp [lit] <;> omega))]
  simp only [Option.some_bind]
  rw [writeBytes_tail _ _ _ _ _ _ _ _ _ _ _ _ 1 28
    (by first | omega | (simp [lit] <;> omega)) (by first | omega | (simp [lit] <;> omega))]
  simp only [Option.some_bind]
  rw [writeBytes_tail _ _ _ _ _ _ _ _ _ _ _ _ 1 21
    (by first | omega | (simp [lit] <;> omega)) (by first | omega | (simp [lit] <;> omega))]
  simp only [Option.some_bind]
  rw [writeBytes_tail _ _ _ _ _ _ _ _ _ _ _ _ 1 1
    (by first | omega | (simp [lit] <;> omega)) (by first | omega | (simp [lit] <;> omega))]
  simp only [Option.some_bind, setKind_tail, setLength_tail, setData_tail]
  simp

theorem write_auth_scram256_locals_spec (w : World) :
    write_auth_scram256_locals w
      = some (⟨w.heap ++ [some (Obj.msg
                  { kind := chr 'R', length := 24, max_length := 0,
                    data := some (w.heap.length + 1) }),
                some (Obj.buf ([82] ++ be32 23 ++ be32 10 ++ lit "SCRAM-SHA-256"
                  ++ [0, 0]))],
              w.message, w.data, w.errno, w.rcvtimeo, w.uninit, w.uninit_byte⟩,
            w.heap.length) := by
  unfold write_auth_scram256_locals
  simp only [pgexporter_write_int32, pgexporter_write_string, pgexporter_write_byte, byte_R,
    malloc_pair, Option.bind_eq_bind, Option.some_bind, memsetMsg_tail, mallocMsg_snd,
    take_strlen (lit "SCRAM-SHA-256") (by decide)]
  rw [memset_tail _ _ _ _ _ _ _ _ _ _ _ (by simp)]
  simp only [Option.some_bind]
  rw [writeBytes_tail _ _ _ _ _ _ _ _ _ _ _ _ 0 23
    (by first | omega | (simp [lit] <;> omega)) (by first | omega | (simp [lit] <;> omega))]
  simp only [Option.some_bind]
  rw [writeBytes_tail _ _ _ _ _ _ _ _ _ _ _ _ 0 19
    (by first | omega | (simp [lit] <;> omega)) (by first | omega | (simp [lit] <;> omega))]
  simp only [Option.some_bind]
  rw [writeBytes_tail _ _ _ _ _ _ _ _ _ _ _ _ 0 15
    (by first | omega | (simp [lit] <;> omega)) (by first | omega | (simp [lit] <;> omega))]
  simp only [Option.some_bind]
  rw [writeBytes_tail _ _ _ _ _ _ _ _ _ _ _ _ 0 2
    (by first | omega | (simp [lit] <;> omega)) (by first | omega | (simp [lit] <;> omega))]
  simp only [Option.some_bind, setKind_tail, setLength_tail, setData_tail]
  simp

theorem write_auth_success_locals_spec (w : World) :
    write_auth_success_locals w
      = some (⟨w.heap ++ [some (Obj.msg
                  { kind := chr 'R', length := 9, max_length := 0,
                    data := some (w.heap.length + 1) }),
                some (Obj.buf ([82] ++ be32 8 ++ be32 0))],
              w.message, w.data, w.errno, w.rcvtimeo, w.uninit, w.uninit_byte⟩,
            w.heap.length) := by
  unfold write_auth_success_locals
  simp only [pgexporter_write_int32, pgexporter_write_string, pgexporter_write_byte, byte_R,
    malloc_pair, Option.bind_eq_bind, Option.some_bind, memsetMsg_tail, mallocMsg_snd]
  rw [memset_tail _ _ _ _ _ _ _ _ _ _ _ (by simp)]
  simp only [Option.some_bind]
  rw [writeBytes_tail _ _ _ _ _ _ _ _ _ _ _ _ 0 8
    (by first | omega | (simp [lit] <;> omega)) (by first | omega | (simp [lit] <;> omega))]
  simp only [Option.some_bind]
  rw [writeBytes_tail _ _ _ _ _ _ _ _ _ _ _ _ 0 4
    (by first | omega | (simp [lit] <;> omega)) (by first | omega | (simp [lit] <;> omega))]
  simp only [Option.some_bind]
  rw [writeBytes_tail _ _ _ _ _ _ _ _ _ _ _ _ 0 0
    (by first | omega | (simp [lit] <;> omega)) (by first | omega | (simp [lit] <;> omega))]
  simp only [Option.some_bind, setKind_tail, setLength_tail, setData_tail]
  simp

/-! ## Claims C2, C3, C4: size fields and kind tags -/

theorem chr_p : chr 'p' = 112 := by decide

theorem chr_R : chr 'R' = 82 := by decide

theorem chr_E : chr 'E' = 69 := by decide

theorem chr_X : chr 'X' = 88 := by decide

/-- A freshly built message that starts with its kind byte and the int32 `len - 1`. -/
theorem kindTagged_tail (h : List (Option Obj)) (kd L sz : Int) (k mx : Nat) (rest : List Nat)
    (ms ds : Option Ptr) (e : Int) (rt : List Int) (u : message_t) (ub : Nat)
    (hk : (k : Int) = kd) (hlen : ((5 + rest.length : Nat) : Int) = L) (hsz : sz = L - 1)
    (hfit : L < 2147483648) :
    KindTagged
      ⟨h ++ [some (Obj.msg
                { kind := kd, length := L, max_length := mx, data := some (h.length + 1) }),
              some (Obj.buf ([k] ++ (be32 sz ++ rest)))],
        ms, ds, e, rt, u, ub⟩ h.length := by
  subst hsz
  refine ⟨_, _, view_tail _ _ _ _ _ _ _ _ _ rfl, ?_, ?_, ?_⟩
  · simp only [List.length_append, be32_length, List.length_cons, List.length_nil]
    omega
  · simp [hk]
  · exact int32_at_be32_1 _ _ _ (by omega) (by omega)

theorem sizeField_tagged_tail (h : List (Option Obj)) (kd L sz : Int) (k mx : Nat)
    (rest : List Nat) (ms ds : Option Ptr) (e : Int) (rt : List Int) (u : message_t) (ub : Nat)
    (hlen : ((5 + rest.length : Nat) : Int) = L) (hsz : sz = L - 1) (hfit : L < 2147483648) :
    SizeField 1 1
      ⟨h ++ [some (Obj.msg
                { kind := kd, length := L, max_length := mx, data := some (h.length + 1) }),
              some (Obj.buf ([k] ++ (be32 sz ++ rest)))],
        ms, ds, e, rt, u, ub⟩ h.length := by
  subst hsz
  refine ⟨_, _, view_tail _ _ _ _ _ _ _ _ _ rfl, ?_, ?_⟩
  · simp only [List.length_append, be32_length, List.length_cons, List.length_nil]
    omega
  · have hl : (([k] ++ (be32 (L - 1) ++ rest)).length : Int) = L := by
      simp only [List.length_append, be32_length, List.length_cons, List.length_nil]
      omega
    rw [hl]
    exact int32_at_be32_1 _ _ _ (by omega) (by omega)

theorem sizeField_untagged_tail (h : List (Option Obj)) (kd L sz : Int) (mx : Nat)
    (rest : List Nat) (ms ds : Option Ptr) (e : Int) (rt : List Int) (u : message_t) (ub : Nat)
    (hlen : ((4 + rest.length : Nat) : Int) = L) (hsz : sz = L) (hfit : L < 2147483648) :
    SizeField 0 0
      ⟨h ++ [some (Obj.msg
                { kind := kd, length := L, max_length := mx, data := some (h.length + 1) }),
              some (Obj.buf (be32 sz ++ rest))],
        ms, ds, e, rt, u, ub⟩ h.length := by
  subst hsz
  refine ⟨_, _, view_tail _ _ _ _ _ _ _ _ _ rfl, ?_, ?_⟩
  · simp only [List.length_append, be32_length]
    omega
  · have hl : ((be32 sz ++ rest).length : Int) - 0 = sz := by
      simp only [List.length_append, be32_length]
      omega
    rw [hl]
    exact int32_at_be32_0 _ _ (by omega) (by omega)

/-- C3: for NUL-free arguments whose message size fits in an int32, each of the six
kind-tagged constructors returns `MESSAGE_STATUS_OK` and a message whose byte 0 equals its
kind and whose big-endian int32 at offsets 1..4 equals its length minus 1. -/
theorem C3_kind_byte_and_size (w : World) (password md5 nounce cn sn salt wp p ss : List Nat)
    (hpassword : ∀ b ∈ password, b ≠ 0) (hmd5 : ∀ b ∈ md5, b ≠ 0)
    (hnounce : ∀ b ∈ nounce, b ≠ 0) (hcn : ∀ b ∈ cn, b ≠ 0) (hsn : ∀ b ∈ sn, b ≠ 0)
    (hsalt : ∀ b ∈ salt, b ≠ 0) (hwp : ∀ b ∈ wp, b ≠ 0) (hp : ∀ b ∈ p, b ≠ 0)
    (hss : ∀ b ∈ ss, b ≠ 0)
    (fit1 : 6 + password.length < 2147483648) (fit2 : 6 + md5.length < 2147483648)
    (fit3 : 31 + nounce.length < 2147483648)
    (fit4 : 21 + cn.length + sn.length + salt.length < 2147483648)
    (fit5 : 8 + wp.length + p.length < 2147483648) (fit6 : 11 + ss.length < 2147483648) :
    Built KindTagged (pgexporter_create_auth_password_response w password)
      ∧ Built KindTagged (pgexporter_create_auth_md5_response w md5)
      ∧ Built KindTagged (pgexporter_create_auth_scram256_response w nounce)
      ∧ Built KindTagged (pgexporter_create_auth_scram256_continue w cn sn salt)
      ∧ Built KindTagged (pgexporter_create_auth_scram256_continue_response w wp p)
      ∧ Built KindTagged (pgexporter_create_auth_scram256_final w ss) := by
  refine ⟨?_, ?_, ?_, ?_, ?_, ?_⟩
  · have h := password_spec w password hpassword
    simp only [List.append_assoc] at h
    refine ⟨_, _, h, ?_⟩
    refine kindTagged_tail _ _ _ _ _ _ _ _ _ _ _ _ _ ?_ ?_ ?_ ?_
    · decide
    · simp [lit]
      omega
    · push_cast
      omega
    · exact_mod_cast fit1
  · have h := md5_spec w md5 hmd5
    simp only [List.append_assoc] at h
    refine ⟨_, _, h, ?_⟩
    refine kindTagged_tail _ _ _ _ _ _ _ _ _ _ _ _ _ ?_ ?_ ?_ ?_
    · decide
    · simp [lit]
      omega
    · push_cast
      omega
    · exact_mod_cast fit2
  · have h := scram256_response_spec w nounce hnounce
    simp only [List.append_assoc] at h
    refine ⟨_, _, h, ?_⟩
    refine kindTagged_tail _ _ _ _ _ _ _ _ _ _ _ _ _ ?_ ?_ ?_ ?_
    · decide
    · simp [lit]
      omega
    · push_cast
      omega
    · exact_mod_cast fit3
  · have h := scram256_continue_spec w cn sn salt hcn hsn hsalt
    simp only [List.append_assoc] at h
    refine ⟨_, _, h, ?_⟩
    refine kindTagged_tail _ _ _ _ _ _ _ _ _ _ _ _ _ ?_ ?_ ?_ ?_
    · decide
    · simp [lit]
      omega
    · push_cast
      omega
    · exact_mod_cast fit4
  · have h := scram256_continue_response_spec w wp p hwp hp
    simp only [List.append_assoc] at h
    refine ⟨_, _, h, ?_⟩
    refine kindTagged_tail _ _ _ _ _ _ _ _ _ _ _ _ _ ?_ ?_ ?_ ?_
    · decide
    · simp [lit]
      omega
    · push_cast
      omega
    · exact_mod_cast fit5
  · have h := scram256_final_spec w ss hss
    simp only [List.append_assoc] at h
    refine ⟨_, _, h, ?_⟩
    refine kindTagged_tail _ _ _ _ _ _ _ _ _ _ _ _ _ ?_ ?_ ?_ ?_
    · decide
    · simp [lit]
      omega
    · push_cast
      omega
    · exact_mod_cast fit6

/-- C3 at `password = "secret"`, `md5 = "md5abc"`, `nounce = "nonce"`, `cn = "cn"`,
`sn = "sn"`, `salt = "salt"`, `wp = "wp"`, `p = "proof"`, `ss = "sig"`. -/
theorem C3_kind_byte_and_size_witness :
    ((∀ b ∈ lit "secret", b ≠ 0) ∧ (∀ b ∈ lit "md5abc", b ≠ 0) ∧ (∀ b ∈ lit "nonce", b ≠ 0)
        ∧ (∀ b ∈ lit "cn", b ≠ 0) ∧ (∀ b ∈ lit "sn", b ≠ 0) ∧ (∀ b ∈ lit "salt", b ≠ 0)
        ∧ (∀ b ∈ lit "wp", b ≠ 0) ∧ (∀ b ∈ lit "proof", b ≠ 0) ∧ (∀ b ∈ lit "sig", b ≠ 0))
      ∧ (6 + (lit "secret").length < 2147483648 ∧ 6 + (lit "md5abc").length < 2147483648
        ∧ 31 + (lit "nonce").length < 2147483648
        ∧ 21 + (lit "cn").length + (lit "sn").length + (lit "salt").length < 2147483648
        ∧ 8 + (lit "wp").length + (lit "proof").length < 2147483648
        ∧ 11 + (lit "sig").length < 2147483648)
      ∧ Built KindTagged (pgexporter_create_auth_password_response World.init (lit "secret"))
      ∧ Built KindTagged (pgexporter_create_auth_md5_response World.init (lit "md5abc"))
      ∧ Built KindTagged (pgexporter_create_auth_scram256_response World.init (lit "nonce"))
      ∧ Built KindTagged
          (pgexporter_create_auth_scram256_continue World.init (lit "cn") (lit "sn")
            (lit "salt"))
      ∧ Built KindTagged
          (pgexporter_create_auth_scram256_continue_response World.init (lit "wp")
            (lit "proof"))
      ∧ Built KindTagged (pgexporter_create_auth_scram256_final World.init (lit "sig")) :=
  ⟨by decide, by decide,
    C3_kind_byte_and_size World.init (lit "secret") (lit "md5abc") (lit "nonce") (lit "cn")
      (lit "sn") (lit "salt") (lit "wp") (lit "proof") (lit "sig")
      (by decide) (by decide) (by decide) (by decide) (by decide) (by decide) (by decide)
      (by decide) (by decide) (by decide) (by decide) (by decide) (by decide) (by decide)
      (by decide)⟩

/-- Number of bytes of the layout of a password response for the string `s`. -/
theorem password_layout_length (i : Int) (s : List Nat) :
    ([112] ++ be32 i ++ s ++ [0]).length = s.length + 6 := by
  simp only [List.length_append, be32_length, List.length_cons, List.length_nil]
  omega

/-- C2 as stated fails for the SSL-request message: it has 8 bytes and its size field holds
8, not 7.  It also fails for a kind-tagged message of more than 2147483647 bytes: the
password response for a NUL-free password of 4294967291 bytes has 4294967297 bytes and its
size field holds 0, not 4294967296. -/
theorem C2_counterexample_ssl_request :
    ((∃ w m hdr bytes,
        pgexporter_create_ssl_message World.init = some (w, MESSAGE_STATUS_OK, m)
          ∧ w.view m = some (hdr, bytes) ∧ hdr.kind = 0 ∧ bytes.length = 8
          ∧ int32_at bytes 0 = some 8)
      ∧ ¬ Built (SizeField 0 1) (pgexporter_create_ssl_message World.init))
    ∧ ((∀ b ∈ List.replicate 4294967291 1, b ≠ 0)
      ∧ (∃ w m hdr bytes,
          pgexporter_create_auth_password_response World.init (List.replicate 4294967291 1)
              = some (w, MESSAGE_STATUS_OK, m)
            ∧ w.view m = some (hdr, bytes) ∧ hdr.kind = 112 ∧ bytes.length = 4294967297
            ∧ int32_at bytes 1 = some 0)
      ∧ ¬ Built (SizeField 1 1)
          (pgexporter_create_auth_password_response World.init
            (List.replicate 4294967291 1))) := by
  have hs : ∀ b ∈ List.replicate 4294967291 1, b ≠ 0 := by
    intro b hb
    rw [List.eq_of_mem_replicate hb]
    decide
  have hl : ([112] ++ be32 ((5 + (List.replicate 4294967291 1).length : Nat) : Int)
      ++ List.replicate 4294967291 1 ++ [0]).length = 4294967297 := by
    rw [password_layout_length, List.length_replicate]
  have hi : int32_at ([112] ++ be32 ((5 + (List.replicate 4294967291 1).length : Nat) : Int)
      ++ List.replicate 4294967291 1 ++ [0]) 1 = some 0 := by
    have hb : be32 ((5 + 4294967291 : Nat) : Int) = be32 0 := by decide
    rw [List.length_replicate, hb, List.append_assoc, List.append_assoc]
    exact int32_at_be32_1 _ _ 0 (by decide) (by decide)
  refine ⟨⟨?_, ?_⟩, hs, ?_, ?_⟩
  · exact ⟨_, _, _, _, ssl_spec World.init, view_tail _ _ _ _ _ _ _ _ _ rfl, rfl,
      by decide, by decide⟩
  · rintro ⟨w, m, hr, hdr, bytes, hv, -, hi⟩
    rw [ssl_spec] at hr
    simp only [Option.some.injEq, Prod.mk.injEq] at hr
    obtain ⟨rfl, -, rfl⟩ := hr
    rw [view_tail _ _ _ _ _ _ _ _ _ rfl] at hv
    simp only [Option.some.injEq, Prod.mk.injEq] at hv
    obtain ⟨-, rfl⟩ := hv
    revert hi
    decide
  · exact ⟨_, _, _, _, password_spec World.init _ hs, view_tail _ _ _ _ _ _ _ _ _ rfl, rfl,
      hl, hi⟩
  · rintro ⟨w, m, hr, hdr, bytes, hv, -, hi2⟩
    rw [password_spec World.init _ hs] at hr
    simp only [Option.some.injEq, Prod.mk.injEq] at hr
    obtain ⟨rfl, -, rfl⟩ := hr
    rw [view_tail _ _ _ _ _ _ _ _ _ rfl] at hv
    simp only [Option.some.injEq, Prod.mk.injEq] at hv
    obtain ⟨-, rfl⟩ := hv
    rw [hi, hl] at hi2
    revert hi2
    decide

/-- C2, amended: every kind-tagged message of at most 2147483647 bytes that the codec
builds from NUL-free arguments (the six `create_auth_*` constructors and the writers of
terminate, connection-refused, SCRAM-SHA-256-offered and auth-success) carries at offset 1 an
int32 equal to its number of bytes minus one; the untagged SSL-request and startup messages,
under the same bound, carry at offset 0 an int32 equal to their number of bytes.  The
hypotheses `fit0` to `fit6` bound the number of bytes of each message that has a string
argument: `53 + |username| + |database|`, `6 + |password|`, `6 + |md5|`, `31 + |nounce|`,
`21 + |cn| + |sn| + |salt|`, `8 + |wp| + |p|` and `11 + |ss|`. -/
theorem C2_size_field_convention (w : World)
    (u d password md5 nounce cn sn salt wp p ss : List Nat)
    (hu : ∀ b ∈ u, b ≠ 0) (hd : ∀ b ∈ d, b ≠ 0)
    (hpassword : ∀ b ∈ password, b ≠ 0) (hmd5 : ∀ b ∈ md5, b ≠ 0)
    (hnounce : ∀ b ∈ nounce, b ≠ 0) (hcn : ∀ b ∈ cn, b ≠ 0) (hsn : ∀ b ∈ sn, b ≠ 0)
    (hsalt : ∀ b ∈ salt, b ≠ 0) (hwp : ∀ b ∈ wp, b ≠ 0) (hp : ∀ b ∈ p, b ≠ 0)
    (hss : ∀ b ∈ ss, b ≠ 0)
    (fit0 : 53 + u.length + d.length < 2147483648)
    (fit1 : 6 + password.length < 2147483648) (fit2 : 6 + md5.length < 2147483648)
    (fit3 : 31 + nounce.length < 2147483648)
    (fit4 : 21 + cn.length + sn.length + salt.length < 2147483648)
    (fit5 : 8 + wp.length + p.length < 2147483648) (fit6 : 11 + ss.length < 2147483648) :
    (Built (SizeField 0 0) (pgexporter_create_ssl_message w)
        ∧ Built (SizeField 0 0) (pgexporter_create_startup_message w u d))
      ∧ (Built (SizeField 1 1) (pgexporter_create_auth_password_response w password)
        ∧ Built (SizeField 1 1) (pgexporter_create_auth_md5_response w md5)
        ∧ Built (SizeField 1 1) (pgexporter_create_auth_scram256_response w nounce)
        ∧ Built (SizeField 1 1) (pgexporter_create_auth_scram256_continue w cn sn salt)
        ∧ Built (SizeField 1 1) (pgexporter_create_auth_scram256_continue_response w wp p)
        ∧ Built (SizeField 1 1) (pgexporter_create_auth_scram256_final w ss))
      ∧ (Handed (SizeField 1 1) (write_terminate_locals w)
        ∧ Handed (SizeField 1 1) (write_connection_refused_locals w)
        ∧ Handed (SizeField 1 1) (write_auth_scram256_locals w)
        ∧ Handed (SizeField 1 1) (write_auth_success_locals w)) := by
  refine ⟨⟨?_, ?_⟩, ⟨?_, ?_, ?_, ?_, ?_, ?_⟩, ⟨?_, ?_, ?_, ?_⟩⟩
  · have h := ssl_spec w
    simp only [List.append_assoc] at h
    refine ⟨_, _, h, ?_⟩
    refine sizeField_untagged_tail _ _ _ _ _ _ _ _ _ _ _ _ ?_ ?_ ?_
    · simp
    · rfl
    · decide
  · have h := startup_spec w u d hu hd
    simp only [List.append_assoc] at h
    refine ⟨_, _, h, ?_⟩
    refine sizeField_untagged_tail _ _ _ _ _ _ _ _ _ _ _ _ ?_ ?_ ?_
    · simp [lit]
      omega
    · rfl
    · exact_mod_cast fit0
  · have h := password_spec w password hpassword
    simp only [List.append_assoc] at h
    refine ⟨_, _, h, ?_⟩
    refine sizeField_tagged_tail _ _ _ _ _ _ _ _ _ _ _ _ _ ?_ ?_ ?_
    · simp [lit]
      omega
    · push_cast
      omega
    · exact_mod_cast fit1
  · have h := md5_spec w md5 hmd5
    simp only [List.append_assoc] at h
    refine ⟨_, _, h, ?_⟩
    refine sizeField_tagged_tail _ _ _ _ _ _ _ _ _ _ _ _ _ ?_ ?_ ?_
    · simp [lit]
      omega
    · push_cast
      omega
    · exact_mod_cast fit2
  · have h := scram256_response_spec w nounce hnounce
    simp only [List.append_assoc] at h
    refine ⟨_, _, h, ?_⟩
    refine sizeField_tagged_tail _ _ _ _ _ _ _ _ _ _ _ _ _ ?_ ?_ ?_
    · simp [lit]
      omega
    · push_cast
      omega
    · exact_mod_cast fit3
  · have h := scram256_continue_spec w cn sn salt hcn hsn hsalt
    simp only [List.append_assoc] at h
    refine ⟨_, _, h, ?_⟩
    refine sizeField_tagged_tail _ _ _ _ _ _ _ _ _ _ _ _ _ ?_ ?_ ?_
    · simp [lit]
      omega
    · push_cast
      omega
    · exact_mod_cast fit4
  · have h := scram256_continue_response_spec w wp p hwp hp
    simp only [List.append_assoc] at h
    refine ⟨_, _, h, ?_⟩
    refine sizeField_tagged_tail _ _ _ _ _ _ _ _ _ _ _ _ _ ?_ ?_ ?_
    · simp [lit]
      omega
    · push_cast
      omega
    · exact_mod_cast fit5
  · have h := scram256_final_spec w ss hss
    simp only [List.append_assoc] at h
    refine ⟨_, _, h, ?_⟩
    refine sizeField_tagged_tail _ _ _ _ _ _ _ _ _ _ _ _ _ ?_ ?_ ?_
    · simp [lit]
      omega
    · push_cast
      omega
    · exact_mod_cast fit6
  · have h := write_terminate_locals_spec w
    simp only [List.append_assoc] at h
    refine ⟨_, _, h, ?_⟩
    have e : [88] ++ be32 4 = [88] ++ (be32 4 ++ []) := by simp
    rw [e]
    refine sizeField_tagged_tail _ _ _ _ _ _ _ _ _ _ _ _ _ ?_ ?_ ?_
    · simp
    · rfl
    · decide
  · have h := write_connection_refused_locals_spec w
    simp only [List.append_assoc] at h
    refine ⟨_, _, h, ?_⟩
    refine sizeField_tagged_tail _ _ _ _ _ _ _ _ _ _ _ _ _ ?_ ?_ ?_
    · decide
    · rfl
    · decide
  · have h := write_auth_scram256_locals_spec w
    simp only [List.append_assoc] at h
    refine ⟨_, _, h, ?_⟩
    refine sizeField_tagged_tail _ _ _ _ _ _ _ _ _ _ _ _ _ ?_ ?_ ?_
    · decide
    · rfl
    · decide
  · have h := write_auth_success_locals_spec w
    simp only [List.append_assoc] at h
    refine ⟨_, _, h, ?_⟩
    refine sizeField_tagged_tail _ _ _ _ _ _ _ _ _ _ _ _ _ ?_ ?_ ?_
    · decide
    · rfl
    · decide

/-- C2 (amended) at `username = "alice"`, `database = "postgres"`, `password = "secret"`,
`md5 = "md5abc"`, `nounce = "nonce"`, `cn = "cn"`, `sn = "sn"`, `salt = "salt"`, `wp = "wp"`,
`p = "proof"`, `ss = "sig"`. -/
theorem C2_size_field_convention_witness :
    ((∀ b ∈ lit "alice", b ≠ 0) ∧ (∀ b ∈ lit "postgres", b ≠ 0)
        ∧ (∀ b ∈ lit "secret", b ≠ 0) ∧ (∀ b ∈ lit "md5abc", b ≠ 0)
        ∧ (∀ b ∈ lit "nonce", b ≠ 0) ∧ (∀ b ∈ lit "cn", b ≠ 0) ∧ (∀ b ∈ lit "sn", b ≠ 0)
        ∧ (∀ b ∈ lit "salt", b ≠ 0) ∧ (∀ b ∈ lit "wp", b ≠ 0) ∧ (∀ b ∈ lit "proof", b ≠ 0)
        ∧ (∀ b ∈ lit "sig", b ≠ 0))
      ∧ (53 + (lit "alice").length + (lit "postgres").length < 2147483648
        ∧ 6 + (lit "secret").length < 2147483648 ∧ 6 + (lit "md5abc").length < 2147483648
        ∧ 31 + (lit "nonce").length < 2147483648
        ∧ 21 + (lit "cn").length + (lit "sn").length + (lit "salt").length < 2147483648
        ∧ 8 + (lit "wp").length + (lit "proof").length < 2147483648
        ∧ 11 + (lit "sig").length < 2147483648)
      ∧ (Built (SizeField 0 0) (pgexporter_create_ssl_message World.init)
        ∧ Built (SizeField 0 0)
            (pgexporter_create_startup_message World.init (lit "alice") (lit "postgres")))
      ∧ (Built (SizeField 1 1)
            (pgexporter_create_auth_password_response World.init (lit "secret"))
        ∧ Built (SizeField 1 1) (pgexporter_create_auth_md5_response World.init (lit "md5abc"))
        ∧ Built (SizeField 1 1)
            (pgexporter_create_auth_scram256_response World.init (lit "nonce"))
        ∧ Built (SizeField 1 1)
            (pgexporter_create_auth_scram256_continue World.init (lit "cn") (lit "sn")
              (lit "salt"))
        ∧ Built (SizeField 1 1)
            (pgexporter_create_auth_scram256_continue_response World.init (lit "wp")
              (lit "proof"))
        ∧ Built (SizeField 1 1) (pgexporter_create_auth_scram256_final World.init (lit "sig")))
      ∧ (Handed (SizeField 1 1) (write_terminate_locals World.init)
        ∧ Handed (SizeField 1 1) (write_connection_refused_locals World.init)
        ∧ Handed (SizeField 1 1) (write_auth_scram256_locals World.init)
        ∧ Handed (SizeField 1 1) (write_auth_success_locals World.init)) :=
  ⟨by decide, by decide,
    C2_size_field_convention World.init (lit "alice") (lit "postgres") (lit "secret")
      (lit "md5abc") (lit "nonce") (lit "cn") (lit "sn") (lit "salt") (lit "wp") (lit "proof")
      (lit "sig")
      (by decide) (by decide) (by decide) (by decide) (by decide) (by decide) (by decide)
      (by decide) (by decide) (by decide) (by decide) (by decide) (by decide) (by decide)
      (by decide) (by decide) (by decide) (by decide)⟩

/-- C4: the message `pgexporter_write_connection_refused` hands to the transport (over
either transport) has kind `'E'` and length 46, and its 46 bytes are `'E'`, the big-endian
int32 45, `"SFATAL\0"` at offset 5, `"VFATAL\0"` at offset 12, `"C53300\0"` at offset 19
and `"Mconnection refused\0"` at offset 26, which ends the message. -/
theorem C4_connection_refused_message (w : World) (ssl : Option Ptr)
    (script : List WriteOutcome) :
    ∃ w' m hdr bytes,
      write_connection_refused_locals w = some (w', m)
        ∧ pgexporter_write_connection_refused w ssl script
            = (pgexporter_write_message w' ssl script m).bind (fun r => leave r m)
        ∧ w'.view m = some (hdr, bytes)
        ∧ hdr.kind = chr 'E' ∧ hdr.length = 46 ∧ bytes.length = 46
        ∧ bytes.take 1 = [69] ∧ (69 : Int) = chr 'E'
        ∧ int32_at bytes 1 = some 45
        ∧ (bytes.drop 5).take 7 = lit "SFATAL" ++ [0]
        ∧ (bytes.drop 12).take 7 = lit "VFATAL" ++ [0]
        ∧ (bytes.drop 19).take 7 = lit "C53300" ++ [0]
        ∧ bytes.drop 26 = lit "Mconnection refused" ++ [0]
        ∧ bytes = [69] ++ be32 45 ++ (lit "SFATAL" ++ [0]) ++ (lit "VFATAL" ++ [0])
            ++ (lit "C53300" ++ [0]) ++ (lit "Mconnection refused" ++ [0]) := by
  refine ⟨_, _, _, _, write_connection_refused_locals_spec w, ?_,
    view_tail _ _ _ _ _ _ _ _ _ rfl, rfl, rfl, ?_, ?_, ?_, ?_, ?_, ?_, ?_, ?_, ?_⟩
  · simp only [pgexporter_write_connection_refused, write_connection_refused_locals_spec,
      Option.bind_eq_bind, Option.some_bind]
  all_goals decide

/-! ## Claim C5: partial writes -/

theorem wrap_int32_id (x : Int) (h0 : -2147483648 ≤ x) (h1 : x < 2147483648) :
    wrap_int32 x = x := by
  unfold wrap_int32
  omega

theorem sum_nonneg_of_pos (ks : List Int) (h : ∀ k ∈ ks, 1 ≤ k) : 0 ≤ ks.sum := by
  induction ks with
  | nil => simp
  | cons k tl ih =>
    have h1 := h k (by simp)
    have h2 := ih (fun x hx => h x (by simp [hx]))
    simp only [List.sum_cons]
    omega

theorem nil_of_sum_le_zero (ks : List Int) (h : ∀ k ∈ ks, 1 ≤ k) (hs : ks.sum ≤ 0) :
    ks = [] := by
  cases ks with
  | nil => rfl
  | cons k tl =>
    have h1 := h k (by simp)
    have h2 := sum_nonneg_of_pos tl (fun x hx => h x (by simp [hx]))
    simp only [List.sum_cons] at hs
    omega

theorem numbytes_pos (outs : List WriteOutcome) (h : ∀ o ∈ outs, 1 ≤ o.numbytes) :
    ∀ k ∈ outs.map (fun o => o.numbytes), 1 ≤ k := by
  intro k hk
  obtain ⟨o, ho, rfl⟩ := List.mem_map.mp hk
  exact h o ho

/-- The loop of `write_message` against a transport that accepts at least one byte per call
and `L` bytes in total, for `L` in the range of `int`. -/
theorem write_message_loop_ok (L : Int) (hfit : L < 2147483648) (rest : List WriteOutcome) :
    ∀ (outs : List WriteOutcome) (w : World) (T : Int), 0 ≤ T → outs ≠ [] →
      (∀ o ∈ outs, 1 ≤ o.numbytes) → T + (outs.map (fun o => o.numbytes)).sum = L →
      ∃ w', write_message_loop L w (outs ++ rest) T T (L - T)
        = some ⟨w', MESSAGE_STATUS_OK, expected_calls L T (outs.map (fun o => o.numbytes)),
            rest⟩ := by
  intro outs
  induction outs with
  | nil => intro w T _ hne; exact absurd rfl hne
  | cons o tl ih =>
    intro w T hT _ hpos hsum
    have hk : 1 ≤ o.numbytes := hpos o (by simp)
    have htl : ∀ x ∈ tl, 1 ≤ x.numbytes := fun x hx => hpos x (by simp [hx])
    have hS := sum_nonneg_of_pos _ (numbytes_pos tl htl)
    simp only [List.map_cons, List.sum_cons] at hsum
    have hne1 : o.numbytes ≠ -1 := by omega
    by_cases h1 : o.numbytes = L
    · have htl0 : tl = [] := by
        have := nil_of_sum_le_zero _ (numbytes_pos tl htl) (by omega)
        simpa using this
      subst htl0
      have hL : ¬ L = -1 := by omega
      exact ⟨w, by simp [write_message_loop, h1, hL, expected_calls]⟩
    · by_cases h2 : T + o.numbytes = L
      · have htl0 : tl = [] := by
          have := nil_of_sum_le_zero _ (numbytes_pos tl htl) (by omega)
          simpa using this
        subst htl0
        exact ⟨w, by simp [write_message_loop, h1, h2, hne1, expected_calls]⟩
      · have htlne : tl ≠ [] := by
          intro h0
          subst h0
          simp at hsum
          omega
        obtain ⟨w', hw'⟩ := ih { w with errno := 0 } (T + o.numbytes) (by omega) htlne htl
          (by omega)
        refine ⟨w', ?_⟩
        have hwrap : wrap_int32 (T + o.numbytes) = T + o.numbytes :=
          wrap_int32_id _ (by omega) (by omega)
        have hrem : L - T - o.numbytes = L - (T + o.numbytes) := by omega
        simp [write_message_loop, h1, h2, hne1, hwrap, hrem, hw', expected_calls,
          WriteResult.after]

/-- The loop of `ssl_write_message` against such a transport. -/
theorem ssl_write_message_loop_ok (L : Int) (hfit : L < 2147483648)
    (rest : List WriteOutcome) :
    ∀ (outs : List WriteOutcome) (w : World) (kw : Bool) (T : Int), 0 ≤ T → outs ≠ [] →
      (∀ o ∈ outs, 1 ≤ o.numbytes) → T + (outs.map (fun o => o.numbytes)).sum = L →
      ∃ w', ssl_write_message_loop L w kw (outs ++ rest) T T (L - T)
        = some ⟨w', MESSAGE_STATUS_OK, expected_calls L T (outs.map (fun o => o.numbytes)),
            rest⟩ := by
  intro outs
  induction outs with
  | nil => intro w kw T _ hne; exact absurd rfl hne
  | cons o tl ih =>
    intro w kw T hT _ hpos hsum
    have hk : 1 ≤ o.numbytes := hpos o (by simp)
    have htl : ∀ x ∈ tl, 1 ≤ x.numbytes := fun x hx => hpos x (by simp [hx])
    have hS := sum_nonneg_of_pos _ (numbytes_pos tl htl)
    simp only [List.map_cons, List.sum_cons] at hsum
    have hpos1 : 0 < o.numbytes := by omega
    have hcount : wrap_int32 (L - T) = L - T := wrap_int32_id _ (by omega) (by omega)
    by_cases h1 : o.numbytes = L
    · have htl0 : tl = [] := by
        have := nil_of_sum_le_zero _ (numbytes_pos tl htl) (by omega)
        simpa using this
      subst htl0
      exact ⟨w, by simp [ssl_write_message_loop, h1, hcount, expected_calls]⟩
    · by_cases h2 : T + o.numbytes = L
      · have htl0 : tl = [] := by
          have := nil_of_sum_le_zero _ (numbytes_pos tl htl) (by omega)
          simpa using this
        subst htl0
        exact ⟨w, by simp [ssl_write_message_loop, h1, h2, hpos1, hcount, expected_calls]⟩
      · have htlne : tl ≠ [] := by
          intro h0
          subst h0
          simp at hsum
          omega
        obtain ⟨w', hw'⟩ := ih { w with errno := 0 } true (T + o.numbytes) (by omega) htlne
          htl (by omega)
        refine ⟨w', ?_⟩
        have hwrap : wrap_int32 (T + o.numbytes) = T + o.numbytes :=
          wrap_int32_id _ (by omega) (by omega)
        have hrem : L - T - o.numbytes = L - (T + o.numbytes) := by omega
        simp [ssl_write_message_loop, h1, h2, hpos1, hcount, hwrap, hrem, hw',
          expected_calls, WriteResult.after]

theorem chunk_eq (data : List Nat) (T k : Int) (hT : 0 ≤ T) (hk : 0 ≤ k)
    (h : T + k ≤ data.length) :
    chunk data T k = some ((data.drop T.toNat).take k.toNat) := by
  simp [chunk, hT, hk, h]

theorem wire_expected (L : Int) (data : List Nat) :
    ∀ (outs : List WriteOutcome) (T : Int), 0 ≤ T → (∀ o ∈ outs, 1 ≤ o.numbytes) →
      T + (outs.map (fun o => o.numbytes)).sum ≤ data.length →
      wire data (expected_calls L T (outs.map (fun o => o.numbytes))) outs
        = some ((data.drop T.toNat).take
            (Int.toNat (outs.map (fun o : WriteOutcome => o.numbytes)).sum)) := by
  intro outs
  induction outs with
  | nil => intro T _ _ _; simp [wire, expected_calls]
  | cons o tl ih =>
    intro T hT hpos hsum
    have hk : 1 ≤ o.numbytes := hpos o (by simp)
    have htl : ∀ x ∈ tl, 1 ≤ x.numbytes := fun x hx => hpos x (by simp [hx])
    have hS := sum_nonneg_of_pos _ (numbytes_pos tl htl)
    simp only [List.map_cons, List.sum_cons] at hsum ⊢
    have hpos1 : 0 < o.numbytes := by omega
    have e1 : (T + o.numbytes).toNat = T.toNat + o.numbytes.toNat := by omega
    have e2 : (o.numbytes + (tl.map (fun o => o.numbytes)).sum).toNat
        = o.numbytes.toNat + Int.toNat (tl.map (fun o : WriteOutcome => o.numbytes)).sum := by
      omega
    simp only [expected_calls, wire, hpos1, if_true,
      chunk_eq data T o.numbytes hT (by omega) (by omega),
      ih (T + o.numbytes) (by omega) htl (by omega), Option.bind_eq_bind, Option.some_bind,
      e1, e2, List.take_add, List.drop_drop]

theorem expected_calls_length (L : Int) :
    ∀ (ks : List Int) (T : Int), (expected_calls L T ks).length = ks.length := by
  intro ks
  induction ks with
  | nil => intro T; rfl
  | cons k tl ih => intro T; simp [expected_calls, ih]

theorem expected_calls_get (L : Int) :
    ∀ (ks : List Int) (T : Int) (i : Nat), i < ks.length →
      (expected_calls L T ks)[i]?
        = some ⟨T + (ks.take i).sum, L - (T + (ks.take i).sum)⟩ := by
  intro ks
  induction ks with
  | nil => intro T i hi; simp at hi
  | cons k tl ih =>
    intro T i hi
    cases i with
    | zero => simp [expected_calls]
    | succ j =>
      have hj : j < tl.length := by simpa using hi
      simp only [expected_calls, List.getElem?_cons_succ, ih (T + k) j hj, List.take_succ_cons,
        List.sum_cons]
      congr 2 <;> omega

theorem sum_take_lt (ks : List Int) (h : ∀ k ∈ ks, 1 ≤ k) (i : Nat) (hi : i < ks.length) :
    (ks.take i).sum < ks.sum := by
  have hsplit : (ks.take i).sum + (ks.drop i).sum = ks.sum := by
    rw [← List.sum_append, List.take_append_drop]
  have hd : ∀ k ∈ ks.drop i, 1 ≤ k := fun k hk => h k (List.mem_of_mem_drop hk)
  have hne : ks.drop i ≠ [] := by
    intro h0
    have := congrArg List.length h0
    simp at this
    omega
  have : ¬ (ks.drop i).sum ≤ 0 := fun hle => hne (nil_of_sum_le_zero _ hd hle)
  omega

/-- C5 as stated fails for a message longer than `INT_MAX`: with 2147483649 bytes and a
transport that accepts 1073741824, 1073741824 and 1 bytes, `write_message` makes its third
call at offset -2147483648, not at 2147483648 (the bytes accepted so far), and
`ssl_write_message` asks for -2147483647 bytes in its first call. -/
theorem C5_counterexample_int_offset :
    World.huge.view 0
        = some ({ kind := 0, length := 2147483649, max_length := 0, data := some 1 },
            List.replicate 2147483649 0)
      ∧ (write_message World.huge [⟨1073741824, 0⟩, ⟨1073741824, 0⟩, ⟨1, 0⟩] 0).map
          (fun r => (r.status, r.calls))
        = some (MESSAGE_STATUS_OK,
            [⟨0, 2147483649⟩, ⟨1073741824, 1073741825⟩, ⟨-2147483648, 1⟩])
      ∧ (-2147483648 : Int) ≠ 1073741824 + 1073741824
      ∧ (ssl_write_message World.huge [⟨1073741824, 0⟩, ⟨1073741824, 0⟩, ⟨1, 0⟩] 0).map
          (fun r => (r.status, r.calls))
        = some (MESSAGE_STATUS_OK,
            [⟨0, -2147483647⟩, ⟨1073741824, 1073741825⟩, ⟨-2147483648, 1⟩])
      ∧ (-2147483647 : Int) ≠ 2147483649 - 0 := by
  refine ⟨rfl, by decide, by decide, by decide, by decide⟩

/-- C5, amended: for a message of `L` bytes with `0 < L <= 2147483647` and a transport that
on each call accepts at least one byte and in total `L` bytes, `write_message` and
`ssl_write_message` return `MESSAGE_STATUS_OK` having consumed exactly the outcomes up to the
one that completes `L` (no proper prefix of them reaches `L`); the `i`-th call is made at
the offset equal to the sum of the bytes accepted by the earlier calls, with count `L` minus
that sum; and the chunks accepted, concatenated, are the `L` bytes of the message. -/
theorem C5_partial_writes (w : World) (ssl : Option Ptr) (msg : Ptr) (m : message_t)
    (data : List Nat) (outs rest : List WriteOutcome)
    (hview : w.view msg = some (m, data))
    (hL : 0 < m.length) (hfit : m.length ≤ 2147483647) (hdata : m.length ≤ data.length)
    (hpos : ∀ o ∈ outs, 1 ≤ o.numbytes)
    (hsum : (outs.map (fun o => o.numbytes)).sum = m.length) :
    ∃ r, pgexporter_write_message w ssl (outs ++ rest) msg = some r
      ∧ r.status = MESSAGE_STATUS_OK
      ∧ r.rest = rest
      ∧ r.calls.length = outs.length
      ∧ (∀ i, i < outs.length →
          ((outs.take i).map (fun o => o.numbytes)).sum < m.length
            ∧ r.calls[i]? = some ⟨((outs.take i).map (fun o => o.numbytes)).sum,
                m.length - ((outs.take i).map (fun o => o.numbytes)).sum⟩)
      ∧ wire data r.calls outs = some (data.take m.length.toNat) := by
  have hm : w.loadMsg msg = some m := by
    unfold World.view at hview
    cases h : w.loadMsg msg with
    | none => simp [h] at hview
    | some m' =>
      simp only [h, Option.bind_eq_bind, Option.some_bind] at hview
      cases hd : m'.data with
      | none => simp [hd] at hview
      | some d =>
        simp only [hd, Option.some_bind] at hview
        cases hb : w.loadBuf d with
        | none => simp [hb] at hview
        | some b =>
          simp only [hb, Option.some_bind, Option.some.injEq, Prod.mk.injEq] at hview
          rw [hview.1]
  have hne : outs ≠ [] := by
    intro h0
    subst h0
    simp at hsum
    omega
  have hloop : ∃ w', pgexporter_write_message w ssl (outs ++ rest) msg
      = some ⟨w', MESSAGE_STATUS_OK,
          expected_calls m.length 0 (outs.map (fun o => o.numbytes)), rest⟩ := by
    cases ssl with
    | none =>
      obtain ⟨w', hw'⟩ := write_message_loop_ok m.length (by omega) rest outs w 0 (le_refl _)
        hne hpos (by omega)
      refine ⟨w', ?_⟩
      simp only [pgexporter_write_message, write_message, hm, Option.bind_eq_bind,
        Option.some_bind]
      simpa using hw'
    | some s =>
      obtain ⟨w', hw'⟩ := ssl_write_message_loop_ok m.length (by omega) rest outs w false 0
        (le_refl _) hne hpos (by omega)
      refine ⟨w', ?_⟩
      simp only [pgexporter_write_message, ssl_write_message, hm, Option.bind_eq_bind,
        Option.some_bind]
      simpa using hw'
  obtain ⟨w', hw'⟩ := hloop
  refine ⟨_, hw', rfl, rfl, ?_, ?_, ?_⟩
  · simp [expected_calls_length]
  · intro i hi
    constructor
    · have := sum_take_lt (outs.map (fun o => o.numbytes)) (numbytes_pos outs hpos) i
        (by simpa using hi)
      rw [hsum, ← List.map_take] at this
      exact this
    · have := expected_calls_get m.length (outs.map (fun o => o.numbytes)) 0 i
        (by simpa using hi)
      simp only [zero_add, ← List.map_take] at this
      exact this
  · have := wire_expected m.length data outs 0 (le_refl _) hpos (by omega)
    simpa [hsum] using this

/-- C5 (amended) at a 5-byte message and a plain-socket transport that accepts 2, 2 and 1
bytes: three calls, at offsets 0, 2 and 4. -/
theorem C5_partial_writes_witness :
    World.sample.view 0
        = some ({ kind := 81, length := 5, max_length := 0, data := some 1 }, [81, 2, 3, 4, 5])
      ∧ (∀ o ∈ ([⟨2, 0⟩, ⟨2, 0⟩, ⟨1, 0⟩] : List WriteOutcome), 1 ≤ o.numbytes)
      ∧ ∃ r, pgexporter_write_message World.sample none
            ([⟨2, 0⟩, ⟨2, 0⟩, ⟨1, 0⟩] ++ [⟨7, 0⟩]) 0 = some r
          ∧ r.status = MESSAGE_STATUS_OK
          ∧ r.rest = [⟨7, 0⟩]
          ∧ r.calls = [⟨0, 5⟩, ⟨2, 3⟩, ⟨4, 1⟩]
          ∧ wire [81, 2, 3, 4, 5] r.calls [⟨2, 0⟩, ⟨2, 0⟩, ⟨1, 0⟩] = some [81, 2, 3, 4, 5] := by
  obtain ⟨r, h1, h2, h3, h4, h5, h6⟩ := C5_partial_writes World.sample none 0
    { kind := 81, length := 5, max_length := 0, data := some 1 } [81, 2, 3, 4, 5]
    [⟨2, 0⟩, ⟨2, 0⟩, ⟨1, 0⟩] [⟨7, 0⟩] (by decide) (by decide) (by decide) (by decide)
    (by decide) (by decide)
  refine ⟨by decide, by decide, r, h1, h2, h3, ?_, h6⟩
  have e : pgexporter_write_message World.sample none
      ([⟨2, 0⟩, ⟨2, 0⟩, ⟨1, 0⟩] ++ [⟨7, 0⟩]) 0
      = some ⟨{ World.sample with errno := 0 }, MESSAGE_STATUS_OK,
          [⟨0, 5⟩, ⟨2, 3⟩, ⟨4, 1⟩], [⟨7, 0⟩]⟩ := by decide
  rw [e] at h1
  simp only [Option.some.injEq] at h1
  rw [← h1]

/-! ## Claim C7: release of the singleton buffer -/

/-- C7: on a live singleton of capacity `n` (max_length `n`, buffer of `n` bytes), whatever
kind, length and data pointer the header holds and whatever the buffer contains,
`pgexporter_memory_free` leaves all `n` data bytes zero and the header with kind 0, length 0,
max_length `n` and the data pointer on the same buffer. -/
theorem C7_memory_free_zeroes_buffer (w : World) (pm pd : Ptr) (n : Nat)
    (h : w.live pm pd n = true) :
    ∃ w', pgexporter_memory_free w = some w'
      ∧ w'.loadBuf pd = some (List.replicate n 0)
      ∧ w'.loadMsg pm = some { kind := 0, length := 0, max_length := n, data := some pd }
      ∧ w'.message = some pm ∧ w'.data = some pd := by
  obtain ⟨w', h1, h2, h3, h4, h5, -⟩ := memory_free_live w pm pd n h
  exact ⟨w', h1, h3, h2, h4, h5⟩

/-- C7 at a singleton of capacity 8 that holds a 3-byte message and five stale bytes. -/
theorem C7_memory_free_zeroes_buffer_witness :
    World.dirty.live 0 1 8 = true
      ∧ World.dirty.view 0
          = some ({ kind := 69, length := 3, max_length := 8, data := some 1 },
              [69, 1, 2, 3, 4, 5, 6, 7])
      ∧ ∃ w', pgexporter_memory_free World.dirty = some w'
          ∧ w'.loadBuf 1 = some [0, 0, 0, 0, 0, 0, 0, 0]
          ∧ w'.loadMsg 0 = some { kind := 0, length := 0, max_length := 8, data := some 1 }
          ∧ w'.message = some 0 ∧ w'.data = some 1 :=
  ⟨by decide, by decide, C7_memory_free_zeroes_buffer World.dirty 0 1 8 (by decide)⟩

/-! ## Claim C8: copies are independent storage -/

theorem view_parts (w : World) (p : Ptr) (m : message_t) (data : List Nat)
    (hview : w.view p = some (m, data)) :
    w.loadMsg p = some m ∧ ∃ d, m.data = some d ∧ w.loadBuf d = some data := by
  unfold World.view at hview
  cases h : w.loadMsg p with
  | none => simp [h] at hview
  | some m' =>
    simp only [h, Option.bind_eq_bind, Option.some_bind] at hview
    cases hd : m'.data with
    | none => simp [hd] at hview
    | some d =>
      simp only [hd, Option.some_bind] at hview
      cases hb : w.loadBuf d with
      | none => simp [hb] at hview
      | some b =>
        simp only [hb, Option.some_bind, Option.some.injEq, Prod.mk.injEq] at hview
        obtain ⟨rfl, rfl⟩ := hview
        exact ⟨rfl, d, hd, hb⟩

theorem view_of_parts (w : World) (p d : Ptr) (m : message_t) (data : List Nat)
    (hm : w.loadMsg p = some m) (hd : m.data = some d) (hb : w.loadBuf d = some data) :
    w.view p = some (m, data) := by
  simp only [World.view, hm, hd, hb, Option.bind_eq_bind, Option.some_bind]

/-- Blocks allocated before an extension of the heap are read as before. -/
theorem load_append (h t : List (Option Obj)) (ms ds : Option Ptr) (e : Int) (rt : List Int)
    (u : message_t) (ub : Nat) (w : World) (hw : w.heap = h) (p : Ptr) (hp : p < h.length) :
    World.load ⟨h ++ t, ms, ds, e, rt, u, ub⟩ p = w.load p := by
  simp only [World.load, List.getElem?_append_left hp, hw]

theorem loadMsg_append (h t : List (Option Obj)) (ms ds : Option Ptr) (e : Int)
    (rt : List Int) (u : message_t) (ub : Nat) (w : World) (hw : w.heap = h) (p : Ptr)
    (hp : p < h.length) :
    World.loadMsg ⟨h ++ t, ms, ds, e, rt, u, ub⟩ p = w.loadMsg p := by
  simp only [World.loadMsg, load_append h t ms ds e rt u ub w hw p hp]

theorem loadBuf_append (h t : List (Option Obj)) (ms ds : Option Ptr) (e : Int)
    (rt : List Int) (u : message_t) (ub : Nat) (w : World) (hw : w.heap = h) (p : Ptr)
    (hp : p < h.length) :
    World.loadBuf ⟨h ++ t, ms, ds, e, rt, u, ub⟩ p = w.loadBuf p := by
  simp only [World.loadBuf, load_append h t ms ds e rt u ub w hw p hp]

theorem writeBytes_tail_full (h : List (Option Obj)) (x : Option Obj) (b : List Nat)
    (ms ds : Option Ptr) (e : Int) (rt : List Int) (u : message_t) (ub : Nat)
    (bs : List Nat) (hlen : bs.length = b.length) :
    World.writeBytes ⟨h ++ [x, some (Obj.buf b)], ms, ds, e, rt, u, ub⟩ (h.length + 1) 0 bs
      = some ⟨h ++ [x, some (Obj.buf bs)], ms, ds, e, rt, u, ub⟩ := by
  have h1 : 0 + bs.length ≤ b.length := by omega
  have h2 : splice b 0 bs = bs := by
    simp [splice, hlen]
  have h3 : 0 + b.length ≤ b.length := by omega
  simp only [World.writeBytes, World.loadBuf, World.load, tail2_get1, h1, if_true,
    World.storeBuf, World.put, h2, hlen, h3, tail2_set1]

theorem free_tail1 (h : List (Option Obj)) (x : Option Obj) (y : Obj)
    (ms ds : Option Ptr) (e : Int) (rt : List Int) (u : message_t) (ub : Nat) :
    World.free ⟨h ++ [x, some y], ms, ds, e, rt, u, ub⟩ (h.length + 1)
      = some ⟨h ++ [x, none], ms, ds, e, rt, u, ub⟩ := by
  simp only [World.free, World.load, tail2_get1, World.put, tail2_set1]

theorem free_tail0 (h : List (Option Obj)) (x : Obj) (y : Option Obj)
    (ms ds : Option Ptr) (e : Int) (rt : List Int) (u : message_t) (ub : Nat) :
    World.free ⟨h ++ [some x, y], ms, ds, e, rt, u, ub⟩ h.length
      = some ⟨h ++ [none, y], ms, ds, e, rt, u, ub⟩ := by
  simp only [World.free, World.load, tail2_get0, World.put, tail2_set0]

theorem copy_spec (w : World) (p d : Ptr) (m : message_t) (data : List Nat)
    (hm : w.loadMsg p = some m) (hd : m.data = some d) (hb : w.loadBuf d = some data)
    (hL : 0 ≤ m.length) (hdata : m.length ≤ data.length) :
    pgexporter_copy_message w p
      = some (⟨w.heap ++ [some (Obj.msg
                  { kind := m.kind, length := m.length, max_length := w.uninit.max_length,
                    data := some (w.heap.length + 1) }),
                some (Obj.buf (data.take m.length.toNat))],
              w.message, w.data, w.errno, w.rcvtimeo, w.uninit, w.uninit_byte⟩,
            w.heap.length) := by
  have hlt := loadBuf_lt w d data hb
  have hneg : ¬ m.length < 0 := by omega
  have hsrc : ¬ data.length < m.length.toNat := by omega
  unfold pgexporter_copy_message
  simp only [hm, hd, hneg, hsrc, if_false, malloc_pair, mallocMsg_snd, Option.bind_eq_bind,
    Option.some_bind, setData_tail, setKind_tail, setLength_tail, Option.pure_def,
    loadBuf_append w.heap _ _ _ _ _ _ _ w rfl d hlt, hb]
  rw [writeBytes_tail_full _ _ _ _ _ _ _ _ _ _ (by simp; omega)]
  rfl

theorem free_copy_spec (h : List (Option Obj)) (hc : message_t) (b : List Nat)
    (ms ds : Option Ptr) (e : Int) (rt : List Int) (u : message_t) (ub : Nat)
    (hd : hc.data = some (h.length + 1)) :
    pgexporter_free_copy_message
        ⟨h ++ [some (Obj.msg hc), some (Obj.buf b)], ms, ds, e, rt, u, ub⟩ (some h.length)
      = some ⟨h ++ [none, none], ms, ds, e, rt, u, ub⟩ := by
  simp only [pgexporter_free_copy_message, loadMsg_tail, hd, free_tail1, setData_tail,
    free_tail0, Option.bind_eq_bind, Option.some_bind]

/-- C8: for a message `m` with length > 0 (and at least that many bytes in its buffer),
`pgexporter_copy_message` returns a message in fresh blocks with the kind and length of `m`
and the first `m.length` bytes of its data, and after `pgexporter_free_copy_message` of the
copy the header of `m` (kind, length, max_length, data pointer) and every byte of its buffer
are as before. -/
theorem C8_copy_then_free_copy (w : World) (p : Ptr) (m : message_t) (data : List Nat)
    (hview : w.view p = some (m, data))
    (hL : 0 < m.length) (hdata : m.length ≤ data.length) :
    ∃ w1 c hc w2,
      pgexporter_copy_message w p = some (w1, c)
        ∧ w1.view c = some (hc, data.take m.length.toNat)
        ∧ hc.kind = m.kind ∧ hc.length = m.length
        ∧ c ≠ p ∧ hc.data ≠ m.data
        ∧ w1.view p = some (m, data)
        ∧ pgexporter_free_copy_message w1 (some c) = some w2
        ∧ w2.view p = some (m, data)
        ∧ w2.view c = none := by
  obtain ⟨hm, d, hd, hb⟩ := view_parts w p m data hview
  have hp := loadMsg_lt w p m hm
  have hdl := loadBuf_lt w d data hb
  refine ⟨_, _, _, _, copy_spec w p d m data hm hd hb (by omega) hdata,
    view_tail _ _ _ _ _ _ _ _ _ rfl, rfl, rfl, ?_, ?_, ?_,
    free_copy_spec _ _ _ _ _ _ _ _ _ rfl, ?_, ?_⟩
  · exact Nat.ne_of_gt hp
  · rw [hd]
    intro h
    simp only [Option.some.injEq] at h
    have h1 : w.heap.length + 1 < w.heap.length := by
      rw [h]
      exact hdl
    exact absurd h1 (by omega)
  · exact view_of_parts _ p d m data
      (by rw [loadMsg_append w.heap _ _ _ _ _ _ _ w rfl p hp]; exact hm) hd
      (by rw [loadBuf_append w.heap _ _ _ _ _ _ _ w rfl d hdl]; exact hb)
  · exact view_of_parts _ p d m data
      (by rw [loadMsg_append w.heap _ _ _ _ _ _ _ w rfl p hp]; exact hm) hd
      (by rw [loadBuf_append w.heap _ _ _ _ _ _ _ w rfl d hdl]; exact hb)
  · simp only [World.view, World.loadMsg, World.load, tail2_get0, Option.bind_eq_bind,
      Option.none_bind]

/-- C8 at the 2-byte message of `World.dirty`. -/
theorem C8_copy_then_free_copy_witness :
    World.dirty.view 2
        = some ({ kind := 112, length := 2, max_length := 0, data := some 3 }, [112, 9])
      ∧ ∃ w1 c hc w2,
          pgexporter_copy_message World.dirty 2 = some (w1, c)
            ∧ w1.view c = some (hc, [112, 9])
            ∧ hc.kind = 112 ∧ hc.length = 2
            ∧ c ≠ 2 ∧ hc.data ≠ some 3
            ∧ w1.view 2
                = some ({ kind := 112, length := 2, max_length := 0, data := some 3 }, [112, 9])
            ∧ pgexporter_free_copy_message w1 (some c) = some w2
            ∧ w2.view 2
                = some ({ kind := 112, length := 2, max_length := 0, data := some 3 }, [112, 9])
            ∧ w2.view c = none :=
  ⟨by decide,
    C8_copy_then_free_copy World.dirty 2
      { kind := 112, length := 2, max_length := 0, data := some 3 } [112, 9]
      (by decide) (by decide) (by decide)⟩

/-! ## Claims C6, C10: reads -/

theorem live_congr (w w' : World) (pm pd : Ptr) (n : Nat) (hh : w'.heap = w.heap)
    (hm : w'.message = w.message) (hd : w'.data = w.data) :
    w'.live pm pd n = w.live pm pd n := by
  simp only [World.live, World.loadMsg, World.loadBuf, World.load, hh, hm, hd]

theorem read_message_exit_live (w : World) (pm pd : Ptr) (n : Nat) (timeout : Int)
    (msg : Option Ptr) (rest : List ReadOutcome) (h : w.live pm pd n = true) :
    ∃ w', read_message_exit w timeout msg rest = some ⟨w', MESSAGE_STATUS_ERROR, msg, rest⟩
      ∧ w'.live pm pd n = true := by
  unfold read_message_exit
  by_cases ht : timeout > 0
  · have hl : (setsockopt w 0).live pm pd n = true := by
      rw [live_congr w (setsockopt w 0) pm pd n rfl rfl rfl]
      exact h
    obtain ⟨w', h1, -, -, -, -, -, -, h8⟩ := memory_free_live _ pm pd n hl
    exact ⟨w', by simp [ht, h1], h8⟩
  · exact ⟨w, by simp [ht], h⟩

/-- C6: `read_message` with `block = false` on a live singleton, whatever the timeout: when
the read attempt reports would-block (it returns a negative value with `errno` `EAGAIN` or
`EWOULDBLOCK`), the call returns `MESSAGE_STATUS_ERROR` having made exactly that one
attempt (the outcomes after it are not consumed). -/
theorem C6_would_block_without_blocking (w : World) (pm pd : Ptr) (n : Nat)
    (r : ReadOutcome) (rest : List ReadOutcome) (timeout : Int) (msg : Option Ptr)
    (hlive : w.live pm pd n = true)
    (hneg : r.numbytes < 0) (herr : r.err = EAGAIN ∨ r.err = EWOULDBLOCK) :
    ∃ w', read_message w (r :: rest) false timeout msg
      = some ⟨w', MESSAGE_STATUS_ERROR, msg, rest⟩ := by
  unfold read_message
  generalize hw0 : (if timeout > 0 then setsockopt w timeout else w) = w0
  have hlive0 : w0.live pm pd n = true := by
    rw [← hw0]
    split
    · rw [live_congr w (setsockopt w timeout) pm pd n rfl rfl rfl]
      exact hlive
    · exact hlive
  obtain ⟨hmsg, hdata, ⟨hdr, hm, hcap⟩, -⟩ := (live_iff w0 pm pd n).mp hlive0
  have hlive1 : ({ w0 with errno := r.err } : World).live pm pd n = true := by
    rw [live_congr w0 { w0 with errno := r.err } pm pd n rfl rfl rfl]
    exact hlive0
  obtain ⟨w2, hfree, -, -, -, -, -, -, hlive2⟩ := memory_free_live _ pm pd n hlive1
  obtain ⟨w3, hexit, -⟩ := read_message_exit_live w2 pm pd n timeout msg rest hlive2
  refine ⟨w3, ?_⟩
  have hmm : pgexporter_memory_message w0 = some pm := hmsg
  have hn1 : ¬ 0 < r.numbytes := by omega
  have hn2 : ¬ r.numbytes > 0 := by omega
  have hn3 : ¬ r.numbytes = 0 := by omega
  simp only [read_message_loop, hmm, hm, sys_read, hn1, hn2, hn3,
    hneg, if_true, if_false, Option.bind_eq_bind, Option.some_bind, hfree, Bool.false_eq_true,
    and_false, hexit]

/-- C6 at the singleton of `World.dirty`, a read that fails with `EAGAIN`, and a timeout of
5 seconds. -/
theorem C6_would_block_without_blocking_witness :
    World.dirty.live 0 1 8 = true
      ∧ ∃ w', read_message World.dirty [⟨-1, [], EAGAIN, 0⟩, ⟨3, [82, 0, 0], 0, 0⟩] false 5
            (some 7)
          = some ⟨w', MESSAGE_STATUS_ERROR, some 7, [⟨3, [82, 0, 0], 0, 0⟩]⟩ :=
  ⟨by decide,
    C6_would_block_without_blocking World.dirty 0 1 8 ⟨-1, [], EAGAIN, 0⟩
      [⟨3, [82, 0, 0], 0, 0⟩] 5 (some 7) (by decide) (by decide) (by decide)⟩

theorem splice_zero (b bs : List Nat) : splice b 0 bs = bs ++ b.drop bs.length := by
  simp [splice]

/-- The steps of a read that delivered `first :: tl` into the singleton buffer. -/
theorem delivered_state (w : World) (pm pd : Ptr) (hdr : message_t) (b : List Nat)
    (first : Nat) (tl : List Nat) (hmsg : w.message = some pm)
    (hm : w.loadMsg pm = some hdr) (hd : hdr.data = some pd) (hb : w.loadBuf pd = some b)
    (hlen : (first :: tl).length ≤ b.length) :
    ∃ w1 w2 w3, w.writeBytes pd 0 (first :: tl) = some w1
      ∧ w1.loadBuf pd = some (first :: (tl ++ b.drop (first :: tl).length))
      ∧ w1.setKind pm (signed_char first) = some w2
      ∧ w2.setLength pm ((first :: tl).length : Int) = some w3
      ∧ Delivered w3 pm hdr b (first :: tl)
      ∧ w3.errno = w.errno ∧ w3.rcvtimeo = w.rcvtimeo ∧ w3.data = w.data := by
  have hne := msg_ne_buf w pm pd hdr b hm hb
  have hne' : pd ≠ pm := Ne.symm hne
  have hlm := loadMsg_lt w pm hdr hm
  have hlb := loadBuf_lt w pd b hb
  refine ⟨w.put pd (some (Obj.buf (first :: tl ++ b.drop (first :: tl).length))),
    (w.put pd (some (Obj.buf (first :: tl ++ b.drop (first :: tl).length)))).put pm
      (some (Obj.msg { hdr with kind := signed_char first })),
    ((w.put pd (some (Obj.buf (first :: tl ++ b.drop (first :: tl).length)))).put pm
      (some (Obj.msg { hdr with kind := signed_char first }))).put pm
      (some (Obj.msg
        { kind := signed_char first, length := ((first :: tl).length : Int),
          max_length := hdr.max_length, data := hdr.data })), ?_, ?_, ?_, ?_, ?_⟩
  · simp only [writeBytes_eq w pd b 0 (first :: tl) hb (by omega), splice_zero]
  · simp only [loadBuf_put_self _ _ _ hlb, List.cons_append]
  · simp only [World.setKind, World.storeMsg, put_loadMsg_ne _ _ _ _ hne, hm]
  · simp only [World.setLength, World.storeMsg, loadMsg_put_self, put_heap_length, hlm]
  · refine ⟨⟨by simp [hmsg],
      { kind := signed_char first, length := ((first :: tl).length : Int),
        max_length := hdr.max_length, data := hdr.data }, ?_, ?_, rfl, rfl, rfl, ?_⟩,
      by simp, by simp, by simp⟩
    · exact view_of_parts _ pm pd _ _ (by simp [loadMsg_put_self, hlm]) hd
        (by simp [put_loadBuf_ne _ _ _ _ hne', loadBuf_put_self, hlb])
    · simp
    · simp

@[simp] theorem put_uninit (w : World) (p : Ptr) (x : Option Obj) :
    (w.put p x).uninit = w.uninit := rfl

@[simp] theorem put_uninit_byte (w : World) (p : Ptr) (x : Option Obj) :
    (w.put p x).uninit_byte = w.uninit_byte := rfl

theorem free_eq (w : World) (p : Ptr) (o : Obj) (h : w.load p = some o) :
    w.free p = some (w.put p none) := by
  simp only [World.free, h]

theorem put_none_load_self (w : World) (p : Ptr) : (w.put p none).load p = none := by
  rcases Nat.lt_or_ge p w.heap.length with h | h
  · simp [World.load, World.put, List.getElem?_set, h]
  · simp [World.load, World.put, List.getElem?_eq_none, h]

theorem load_congr (w w' : World) (p : Ptr) (h : w'.heap = w.heap) : w'.load p = w.load p := by
  simp only [World.load, h]

theorem released_iff (w : World) (pm pd : Ptr) (n : Nat) :
    w.released pm pd n = true ↔
      w.message = some pm ∧ w.data = some pd
        ∧ w.loadMsg pm = some { kind := 0, length := 0, max_length := n, data := some pd }
        ∧ w.loadBuf pd = some (List.replicate n 0) := by
  simp [World.released, and_assoc]

theorem destroyed_iff (w : World) :
    w.destroyed = true ↔ w.message = none ∧ w.data = none := by
  simp [World.destroyed]

/-- The effect of `pgexporter_memory_destroy` on a live singleton. -/
theorem memory_destroy_live (w : World) (pm pd : Ptr) (n : Nat) (h : w.live pm pd n = true) :
    pgexporter_memory_destroy w
      = some { (w.put pd none).put pm none with data := none, message := none } := by
  obtain ⟨hmsg, hdata, ⟨hdr, hm, -⟩, ⟨b, hb, -⟩⟩ := (live_iff w pm pd n).mp h
  have hne := msg_ne_buf w pm pd hdr b hm hb
  have h1 : w.load pd = some (Obj.buf b) := (loadBuf_load w pd b).mp hb
  have h2 : (w.put pd none).load pm = some (Obj.msg hdr) := by
    rw [put_load_ne w pd pm none hne]
    exact (loadMsg_load w pm hdr).mp hm
  simp only [pgexporter_memory_destroy, hdata, free_eq w pd _ h1, Option.bind_eq_bind,
    Option.some_bind, put_message, hmsg, free_eq _ pm _ h2]

/-- The effect of `pgexporter_memory_destroy` on a destroyed singleton: none. -/
theorem memory_destroy_destroyed (w : World) (h : w.destroyed = true) :
    pgexporter_memory_destroy w = some w := by
  obtain ⟨hmsg, hdata⟩ := (destroyed_iff w).mp h
  cases w
  simp only at hmsg hdata
  subst hmsg hdata
  rfl

/-- C16: from a live or an already destroyed singleton, `pgexporter_memory_destroy` returns
with both statics NULL (and, from a live one, with both blocks freed); a second call returns
as well, so it touches no freed or NULL block, and leaves the state as it is. -/
theorem C16_memory_destroy_idempotent (w : World) (pm pd : Ptr) (n : Nat)
    (h : w.live pm pd n = true ∨ w.destroyed = true) :
    ∃ w1, pgexporter_memory_destroy w = some w1
      ∧ w1.message = none ∧ w1.data = none
      ∧ (w.live pm pd n = true → w1.load pm = none ∧ w1.load pd = none)
      ∧ (w.destroyed = true → w1 = w)
      ∧ pgexporter_memory_destroy w1 = some w1 := by
  rcases h with h | h
  · obtain ⟨hmsg, hdata, ⟨hdr, hm, -⟩, ⟨b, hb, -⟩⟩ := (live_iff w pm pd n).mp h
    have hne := msg_ne_buf w pm pd hdr b hm hb
    have hlm := loadMsg_lt w pm hdr hm
    have hlb := loadBuf_lt w pd b hb
    refine ⟨_, memory_destroy_live w pm pd n h, rfl, rfl, ?_, ?_, ?_⟩
    · intro _
      constructor
      · exact (load_congr ((w.put pd none).put pm none) _ pm rfl).trans
          (put_none_load_self _ pm)
      · exact (load_congr ((w.put pd none).put pm none) _ pd rfl).trans
          ((put_load_ne _ pm pd none (Ne.symm hne)).trans (put_none_load_self _ pd))
    · intro hd
      obtain ⟨hm0, -⟩ := (destroyed_iff w).mp hd
      rw [hmsg] at hm0
      simp at hm0
    · exact memory_destroy_destroyed _ (by simp [World.destroyed])
  · refine ⟨w, memory_destroy_destroyed w h, ((destroyed_iff w).mp h).1,
      ((destroyed_iff w).mp h).2, ?_, fun _ => rfl, memory_destroy_destroyed w h⟩
    intro hl
    obtain ⟨hmsg, -⟩ := (live_iff w pm pd n).mp hl
    rw [((destroyed_iff w).mp h).1] at hmsg
    simp at hmsg

/-- C16 at the live singleton of `World.dirty`. -/
theorem C16_memory_destroy_idempotent_witness :
    (World.dirty.live 0 1 8 = true ∨ World.dirty.destroyed = true)
      ∧ ∃ w1, pgexporter_memory_destroy World.dirty = some w1
          ∧ w1.message = none ∧ w1.data = none
          ∧ (World.dirty.live 0 1 8 = true → w1.load 0 = none ∧ w1.load 1 = none)
          ∧ (World.dirty.destroyed = true → w1 = World.dirty)
          ∧ pgexporter_memory_destroy w1 = some w1 :=
  ⟨Or.inl (by decide), C16_memory_destroy_idempotent World.dirty 0 1 8 (Or.inl (by decide))⟩

theorem setMaxLength_tail (h : List (Option Obj)) (m : message_t) (y : Option Obj)
    (ms ds : Option Ptr) (e : Int) (rt : List Int) (u : message_t) (ub : Nat) (n : Nat) :
    World.setMaxLength ⟨h ++ [some (Obj.msg m), y], ms, ds, e, rt, u, ub⟩ h.length n
      = some ⟨h ++ [some (Obj.msg { m with max_length := n }), y], ms, ds, e, rt, u, ub⟩ := by
  simp only [World.setMaxLength, loadMsg_tail, storeMsg_tail]

/-- The state `pgexporter_memory_size` builds on top of what `pgexporter_memory_destroy`
leaves. -/
theorem memory_size_of_destroy (w w1 : World) (n : Nat)
    (hd : pgexporter_memory_destroy w = some w1) :
    pgexporter_memory_size w n
      = some ⟨w1.heap ++ [some (Obj.msg
                  { kind := 0, length := 0, max_length := n,
                    data := some (w1.heap.length + 1) }),
                some (Obj.buf (List.replicate n 0))],
              some w1.heap.length, some (w1.heap.length + 1), w1.errno, w1.rcvtimeo,
              w1.uninit, w1.uninit_byte⟩ := by
  unfold pgexporter_memory_size
  simp only [hd, Option.bind_eq_bind, Option.some_bind, World.mallocMsg, World.malloc,
    List.append_assoc, List.singleton_append, List.length_append, List.length_singleton,
    memsetMsg_tail]
  rw [memset_tail _ _ _ _ _ _ _ _ _ _ _ (by simp)]
  simp only [Option.some_bind, setKind_tail, setLength_tail, setMaxLength_tail, setData_tail,
    List.nil_append]

theorem singleton_tail (h : List (Option Obj)) (m : message_t) (b : List Nat)
    (e : Int) (rt : List Int) (u : message_t) (ub : Nat) :
    World.singleton ⟨h ++ [some (Obj.msg m), some (Obj.buf b)], some h.length,
        some (h.length + 1), e, rt, u, ub⟩
      = some (m.kind, m.length, m.max_length, b) := by
  simp only [World.singleton, loadMsg_tail, loadBuf_tail, Option.bind_eq_bind, Option.some_bind]

/-- The state `pgexporter_memory_size` leaves, from a live or a destroyed singleton. -/
theorem memory_size_spec (w : World) (pm pd : Ptr) (k n : Nat)
    (h : w.live pm pd k = true ∨ w.destroyed = true) :
    ∃ w', pgexporter_memory_size w n = some w'
      ∧ w'.released w.heap.length (w.heap.length + 1) n = true
      ∧ w'.live w.heap.length (w.heap.length + 1) n = true
      ∧ w'.singleton = some (0, 0, n, List.replicate n 0)
      ∧ w'.heap.length = w.heap.length + 2 := by
  have hd : ∃ w1, pgexporter_memory_destroy w = some w1 ∧ w1.heap.length = w.heap.length := by
    rcases h with h | h
    · exact ⟨_, memory_destroy_live w pm pd k h, by simp⟩
    · exact ⟨w, memory_destroy_destroyed w h, rfl⟩
  obtain ⟨w1, hd1, hl⟩ := hd
  refine ⟨_, memory_size_of_destroy w w1 n hd1, ?_, ?_, ?_, ?_⟩
  · rw [released_iff, ← hl]
    exact ⟨rfl, rfl, loadMsg_tail _ _ _ _ _ _ _ _ _, loadBuf_tail _ _ _ _ _ _ _ _ _⟩
  · rw [live_iff, ← hl]
    exact ⟨rfl, rfl, ⟨_, loadMsg_tail _ _ _ _ _ _ _ _ _, rfl⟩,
      ⟨_, loadBuf_tail _ _ _ _ _ _ _ _ _, by simp⟩⟩
  · exact singleton_tail _ _ _ _ _ _ _
  · simp [hl]

/-- C15: for every size `n` and every prior state of the singleton (live with any capacity
and contents, or destroyed), `pgexporter_memory_size` returns with a live singleton (at the
two fresh blocks) whose message has kind 0, length 0, max_length `n` and whose buffer is `n`
zero bytes; what the singleton holds is the same from any other prior state. -/
theorem C15_memory_size_fresh_singleton (w : World) (pm pd : Ptr) (k n : Nat)
    (h : w.live pm pd k = true ∨ w.destroyed = true) :
    (∃ w', pgexporter_memory_size w n = some w'
        ∧ w'.live w.heap.length (w.heap.length + 1) n = true
        ∧ w'.released w.heap.length (w.heap.length + 1) n = true
        ∧ w'.singleton = some (0, 0, n, List.replicate n 0))
      ∧ ∀ (v : World) (qm qd : Ptr) (j : Nat),
          v.live qm qd j = true ∨ v.destroyed = true →
          (pgexporter_memory_size v n).bind World.singleton
            = (pgexporter_memory_size w n).bind World.singleton := by
  obtain ⟨w', h1, h2, h3, h4, -⟩ := memory_size_spec w pm pd k n h
  refine ⟨⟨w', h1, h3, h2, h4⟩, ?_⟩
  intro v qm qd j hv
  obtain ⟨v', g1, -, -, g4, -⟩ := memory_size_spec v qm qd j n hv
  rw [h1, g1, Option.some_bind, Option.some_bind, h4, g4]

/-- C15 at the live singleton of `World.dirty` (capacity 8), resized to 3 bytes. -/
theorem C15_memory_size_fresh_singleton_witness :
    (World.dirty.live 0 1 8 = true ∨ World.dirty.destroyed = true)
      ∧ (∃ w', pgexporter_memory_size World.dirty 3 = some w'
          ∧ w'.live 4 5 3 = true ∧ w'.released 4 5 3 = true
          ∧ w'.singleton = some (0, 0, 3, [0, 0, 0]))
      ∧ (pgexporter_memory_size World.init 3).bind World.singleton
          = (pgexporter_memory_size World.dirty 3).bind World.singleton :=
  ⟨Or.inl (by decide),
    (C15_memory_size_fresh_singleton World.dirty 0 1 8 3 (Or.inl (by decide))).1,
    (C15_memory_size_fresh_singleton World.dirty 0 1 8 3 (Or.inl (by decide))).2
      World.init 0 0 0 (Or.inr (by decide))⟩

/-! ## Claims C17, C18, C19: byte layouts of the password and SCRAM messages -/

theorem replicate_one_ne_zero (k : Nat) : ∀ b ∈ List.replicate k 1, b ≠ 0 := by
  intro b hb
  rw [List.eq_of_mem_replicate hb]
  decide

/-- C17 as stated fails for a password of 4294967291 bytes: the message has 4294967297
bytes and the int32 at offset 1 reads 0, not `|s| + 5`. -/
theorem C17_counterexample_size_field :
    (∀ b ∈ List.replicate 4294967291 1, b ≠ 0)
      ∧ ∃ w m hdr bytes,
          pgexporter_create_auth_password_response World.init (List.replicate 4294967291 1)
              = some (w, MESSAGE_STATUS_OK, m)
            ∧ w.view m = some (hdr, bytes)
            ∧ hdr.length = 4294967297
            ∧ int32_at bytes 1 = some 0
            ∧ int32_at bytes 1 ≠ some (((List.replicate 4294967291 1).length + 5 : Nat) : Int) := by
  have hb : be32 ((5 + 4294967291 : Nat) : Int) = be32 0 := by decide
  have hi : int32_at ([112] ++ be32 ((5 + (List.replicate 4294967291 1).length : Nat) : Int)
      ++ List.replicate 4294967291 1 ++ [0]) 1 = some 0 := by
    rw [List.length_replicate, hb, List.append_assoc, List.append_assoc]
    exact int32_at_be32_1 _ _ 0 (by decide) (by decide)
  refine ⟨replicate_one_ne_zero _, _, _, _, _,
    password_spec World.init _ (replicate_one_ne_zero _), view_tail _ _ _ _ _ _ _ _ _ rfl,
    ?_, hi, ?_⟩
  · show ((6 + (List.replicate 4294967291 1).length : Nat) : Int) = 4294967297
    rw [List.length_replicate]
    rfl
  · rw [hi, List.length_replicate]
    decide

/-- C17, amended: for every NUL-free password `s` whose message fits in an int32
(`|s| + 6 <= 2147483647`), `pgexporter_create_auth_password_response` returns
`MESSAGE_STATUS_OK` and a message of kind 'p' and length `|s| + 6` whose bytes are exactly
'p' (112), the big-endian int32 `|s| + 5`, the bytes of `s` and one zero byte. -/
theorem C17_password_response_layout (w : World) (s : List Nat) (hs : ∀ b ∈ s, b ≠ 0)
    (hfit : s.length + 6 < 2147483648) :
    ∃ w' m hdr bytes,
      pgexporter_create_auth_password_response w s = some (w', MESSAGE_STATUS_OK, m)
        ∧ w'.view m = some (hdr, bytes)
        ∧ hdr.kind = chr 'p'
        ∧ hdr.length = ((s.length + 6 : Nat) : Int)
        ∧ bytes.length = s.length + 6
        ∧ bytes = [(chr 'p').toNat] ++ be32 ((s.length + 5 : Nat) : Int) ++ s ++ [0]
        ∧ int32_at bytes 1 = some ((s.length + 5 : Nat) : Int) := by
  have e5 : 5 + s.length = s.length + 5 := by omega
  have e6 : 6 + s.length = s.length + 6 := by omega
  refine ⟨_, _, _, _, password_spec w s hs, view_tail _ _ _ _ _ _ _ _ _ rfl, rfl, ?_, ?_, ?_,
    ?_⟩
  · show ((6 + s.length : Nat) : Int) = _
    rw [e6]
  · simp only [List.length_append, be32_length, List.length_cons, List.length_nil]
    omega
  · rw [e5]
    rfl
  · rw [e5, List.append_assoc, List.append_assoc]
    exact int32_at_be32_1 _ _ _ (by omega) (by omega)

/-- C17 at the password "secret": 12 bytes, size field 11. -/
theorem C17_password_response_layout_witness :
    (∀ b ∈ lit "secret", b ≠ 0) ∧ (lit "secret").length + 6 < 2147483648
      ∧ ∃ w' m hdr bytes,
          pgexporter_create_auth_password_response World.init (lit "secret")
              = some (w', MESSAGE_STATUS_OK, m)
            ∧ w'.view m = some (hdr, bytes)
            ∧ hdr.kind = chr 'p'
            ∧ hdr.length = (((lit "secret").length + 6 : Nat) : Int)
            ∧ bytes.length = (lit "secret").length + 6
            ∧ bytes = [(chr 'p').toNat] ++ be32 (((lit "secret").length + 5 : Nat) : Int)
                ++ lit "secret" ++ [0]
            ∧ int32_at bytes 1 = some (((lit "secret").length + 5 : Nat) : Int) :=
  ⟨by decide, by decide,
    C17_password_response_layout World.init (lit "secret") (by decide) (by decide)⟩

theorem lit_r_length : (lit "r=").length = 2 := by decide

theorem lit_s_length : (lit ",s=").length = 3 := by decide

theorem lit_i_length : (lit ",i=4096").length = 7 := by decide

theorem lit_scram_length : (lit "SCRAM-SHA-256").length = 13 := by decide

theorem lit_gs2_length : (lit " n,,n=,r=").length = 9 := by decide

/-- C18 as stated fails for a client nonce of 4294967276 bytes (empty server nonce and
salt): the message has 4294967297 bytes and the int32 at offset 1 reads 0, not
`length - 1`. -/
theorem C18_counterexample_size_field :
    (∀ b ∈ List.replicate 4294967276 1, b ≠ 0)
      ∧ ∃ w m hdr bytes,
          pgexporter_create_auth_scram256_continue World.init (List.replicate 4294967276 1)
              [] [] = some (w, MESSAGE_STATUS_OK, m)
            ∧ w.view m = some (hdr, bytes)
            ∧ hdr.length = 4294967297
            ∧ int32_at bytes 1 = some 0
            ∧ int32_at bytes 1 ≠ some (hdr.length - 1) := by
  have hb : be32 ((20 + 4294967276 + 0 + 0 : Nat) : Int) = be32 0 := by decide
  have hi : int32_at ([82]
      ++ be32 ((20 + (List.replicate 4294967276 1).length + ([] : List Nat).length
          + ([] : List Nat).length : Nat) : Int)
      ++ be32 11 ++ lit "r=" ++ List.replicate 4294967276 1 ++ [] ++ lit ",s=" ++ []
      ++ lit ",i=4096") 1 = some 0 := by
    rw [List.length_replicate, List.length_nil, hb]
    simp only [List.append_assoc]
    exact int32_at_be32_1 _ _ 0 (by decide) (by decide)
  have hl : ((21 + (List.replicate 4294967276 1).length + ([] : List Nat).length
      + ([] : List Nat).length : Nat) : Int) = 4294967297 := by
    rw [List.length_replicate]
    rfl
  refine ⟨replicate_one_ne_zero _, _, _, _, _,
    scram256_continue_spec World.init _ [] [] (replicate_one_ne_zero _) (by simp) (by simp),
    view_tail _ _ _ _ _ _ _ _ _ rfl, hl, hi, ?_⟩
  rw [hi]
  show some (0 : Int) ≠ some (((21 + (List.replicate 4294967276 1).length
    + ([] : List Nat).length + ([] : List Nat).length : Nat) : Int) - 1)
  rw [hl]
  decide

/-- C18, amended: for all NUL-free `cn`, `sn` and `salt` whose message fits in an int32
(`21 + |cn| + |sn| + |salt| <= 2147483647`), `pgexporter_create_auth_scram256_continue`
returns `MESSAGE_STATUS_OK` and a message of kind 'R' and length `21 + |cn| + |sn| + |salt|`
whose buffer holds exactly that many bytes: 'R' (82), the big-endian int32 `length - 1`, the
big-endian int32 11, then "r=", `cn`, `sn`, ",s=", `salt`, ",i=4096", contiguous and with
nothing after them. -/
theorem C18_scram256_continue_layout (w : World) (cn sn salt : List Nat)
    (hcn : ∀ b ∈ cn, b ≠ 0) (hsn : ∀ b ∈ sn, b ≠ 0) (hsalt : ∀ b ∈ salt, b ≠ 0)
    (hfit : 21 + cn.length + sn.length + salt.length < 2147483648) :
    ∃ w' m hdr bytes,
      pgexporter_create_auth_scram256_continue w cn sn salt = some (w', MESSAGE_STATUS_OK, m)
        ∧ w'.view m = some (hdr, bytes)
        ∧ hdr.kind = chr 'R'
        ∧ hdr.length = ((21 + cn.length + sn.length + salt.length : Nat) : Int)
        ∧ bytes.length = 21 + cn.length + sn.length + salt.length
        ∧ bytes = [(chr 'R').toNat] ++ be32 (hdr.length - 1) ++ be32 11
            ++ (lit "r=" ++ cn ++ sn ++ lit ",s=" ++ salt ++ lit ",i=4096")
        ∧ int32_at bytes 1 = some (hdr.length - 1)
        ∧ int32_at bytes 5 = some 11 := by
  have e1 : (((21 + cn.length + sn.length + salt.length : Nat) : Int) - 1)
      = ((20 + cn.length + sn.length + salt.length : Nat) : Int) := by
    push_cast
    ring
  refine ⟨_, _, _, _, scram256_continue_spec w cn sn salt hcn hsn hsalt,
    view_tail _ _ _ _ _ _ _ _ _ rfl, rfl, rfl, ?_, ?_, ?_, ?_⟩
  · simp only [List.length_append, be32_length, List.length_cons, List.length_nil,
      lit_r_length, lit_s_length, lit_i_length]
    omega
  · simp only [e1, List.append_assoc]
    rfl
  · simp only [e1, List.append_assoc]
    exact int32_at_be32_1 _ _ _ (by omega) (by omega)
  · simp only [List.append_assoc]
    exact int32_at_be32 ([82] ++ be32 _) _ 11 (by decide) (by decide)

/-- C18 at the nonces "cn", "sn" and the salt "salt": 29 bytes, size field 28. -/
theorem C18_scram256_continue_layout_witness :
    ((∀ b ∈ lit "cn", b ≠ 0) ∧ (∀ b ∈ lit "sn", b ≠ 0) ∧ (∀ b ∈ lit "salt", b ≠ 0))
      ∧ 21 + (lit "cn").length + (lit "sn").length + (lit "salt").length < 2147483648
      ∧ ∃ w' m hdr bytes,
          pgexporter_create_auth_scram256_continue World.init (lit "cn") (lit "sn")
              (lit "salt") = some (w', MESSAGE_STATUS_OK, m)
            ∧ w'.view m = some (hdr, bytes)
            ∧ hdr.kind = chr 'R'
            ∧ hdr.length
                = ((21 + (lit "cn").length + (lit "sn").length + (lit "salt").length : Nat)
                    : Int)
            ∧ bytes.length = 21 + (lit "cn").length + (lit "sn").length + (lit "salt").length
            ∧ bytes = [(chr 'R').toNat] ++ be32 (hdr.length - 1) ++ be32 11
                ++ (lit "r=" ++ lit "cn" ++ lit "sn" ++ lit ",s=" ++ lit "salt"
                  ++ lit ",i=4096")
            ∧ int32_at bytes 1 = some (hdr.length - 1)
            ∧ int32_at bytes 5 = some 11 :=
  ⟨⟨by decide, by decide, by decide⟩, by decide,
    C18_scram256_continue_layout World.init (lit "cn") (lit "sn") (lit "salt") (by decide)
      (by decide) (by decide) (by decide)⟩

/-- C19 as stated fails for the nonce "abc": the message has 34 bytes, not the 31 bytes of
the stated fields, because three zero bytes separate the terminator of "SCRAM-SHA-256"
(byte 18) from " n,,n=,r=" (bytes 22..30); byte 19 is 0, not the blank. -/
theorem C19_counterexample_gap :
    (∀ b ∈ lit "abc", b ≠ 0)
      ∧ ∃ w m hdr bytes,
          pgexporter_create_auth_scram256_response World.init (lit "abc")
              = some (w, MESSAGE_STATUS_OK, m)
            ∧ w.view m = some (hdr, bytes)
            ∧ hdr.length = 34 ∧ bytes.length = 34
            ∧ bytes ≠ [(chr 'p').toNat] ++ be32 (hdr.length - 1)
                ++ (lit "SCRAM-SHA-256" ++ [0]) ++ lit " n,,n=,r=" ++ lit "abc"
            ∧ bytes.drop 18 = [0, 0, 0, 0] ++ lit " n,,n=,r=" ++ lit "abc" := by
  refine ⟨by decide, _, _, _, _, scram256_response_spec World.init _ (by decide),
    view_tail _ _ _ _ _ _ _ _ _ rfl, by decide, by decide, by decide, by decide⟩

/-- C19, amended: for every NUL-free nonce `n` whose message fits in an int32
(`31 + |n| <= 2147483647`), `pgexporter_create_auth_scram256_response` returns
`MESSAGE_STATUS_OK` and a message of kind 'p' and length `31 + |n|` whose bytes are exactly,
each field immediately following the previous one: 'p' (112), the big-endian int32
`length - 1`, the NUL-terminated string "SCRAM-SHA-256", three more zero bytes, the nine
bytes " n,,n=,r=" (at offset 22) and the bytes of `n` (at offset 31). -/
theorem C19_scram256_response_layout (w : World) (n : List Nat) (hn : ∀ b ∈ n, b ≠ 0)
    (hfit : 31 + n.length < 2147483648) :
    ∃ w' m hdr bytes,
      pgexporter_create_auth_scram256_response w n = some (w', MESSAGE_STATUS_OK, m)
        ∧ w'.view m = some (hdr, bytes)
        ∧ hdr.kind = chr 'p'
        ∧ hdr.length = ((31 + n.length : Nat) : Int)
        ∧ bytes.length = 31 + n.length
        ∧ bytes = [(chr 'p').toNat] ++ be32 (hdr.length - 1) ++ (lit "SCRAM-SHA-256" ++ [0])
            ++ [0, 0, 0] ++ lit " n,,n=,r=" ++ n
        ∧ int32_at bytes 1 = some (hdr.length - 1)
        ∧ bytes.drop 22 = lit " n,,n=,r=" ++ n
        ∧ bytes.drop 31 = n := by
  have e1 : (((31 + n.length : Nat) : Int) - 1) = ((30 + n.length : Nat) : Int) := by
    push_cast
    ring
  have hb : ∀ i : Int, ∃ a b c d, be32 i = [a, b, c, d] := fun i => ⟨_, _, _, _, rfl⟩
  refine ⟨_, _, _, _, scram256_response_spec w n hn, view_tail _ _ _ _ _ _ _ _ _ rfl, rfl,
    rfl, ?_, ?_, ?_, ?_, ?_⟩
  · simp only [List.length_append, be32_length, List.length_cons, List.length_nil,
      lit_scram_length, lit_gs2_length]
  · simp only [e1, List.append_assoc]
    rfl
  · simp only [e1, List.append_assoc]
    exact int32_at_be32_1 _ _ _ (by omega) (by omega)
  · obtain ⟨a, b, c, d, h⟩ := hb ((30 + n.length : Nat) : Int)
    rw [h]
    rfl
  · obtain ⟨a, b, c, d, h⟩ := hb ((30 + n.length : Nat) : Int)
    rw [h]
    rfl

/-- C19 at the nonce "abc": 34 bytes, size field 33. -/
theorem C19_scram256_response_layout_witness :
    (∀ b ∈ lit "abc", b ≠ 0) ∧ 31 + (lit "abc").length < 2147483648
      ∧ ∃ w' m hdr bytes,
          pgexporter_create_auth_scram256_response World.init (lit "abc")
              = some (w', MESSAGE_STATUS_OK, m)
            ∧ w'.view m = some (hdr, bytes)
            ∧ hdr.kind = chr 'p'
            ∧ hdr.length = ((31 + (lit "abc").length : Nat) : Int)
            ∧ bytes.length = 31 + (lit "abc").length
            ∧ bytes = [(chr 'p').toNat] ++ be32 (hdr.length - 1)
                ++ (lit "SCRAM-SHA-256" ++ [0]) ++ [0, 0, 0] ++ lit " n,,n=,r=" ++ lit "abc"
            ∧ int32_at bytes 1 = some (hdr.length - 1)
            ∧ bytes.drop 22 = lit " n,,n=,r=" ++ lit "abc"
            ∧ bytes.drop 31 = lit "abc" :=
  ⟨by decide, by decide,
    C19_scram256_response_layout World.init (lit "abc") (by decide) (by decide)⟩

/-! ## Failed and retried reads -/

theorem frame_refl (pm pd : Ptr) (w : World) : Frame pm pd w w :=
  ⟨rfl, rfl, rfl, fun _ _ _ => rfl⟩

theorem frame_trans (pm pd : Ptr) (a b c : World) (h1 : Frame pm pd a b)
    (h2 : Frame pm pd b c) : Frame pm pd a c :=
  ⟨h2.1.trans h1.1, h2.2.1.trans h1.2.1, h2.2.2.1.trans h1.2.2.1,
    fun q hq1 hq2 => (h2.2.2.2 q hq1 hq2).trans (h1.2.2.2 q hq1 hq2)⟩

theorem frame_of_heap (pm pd : Ptr) (w w' : World) (hh : w'.heap = w.heap)
    (hm : w'.message = w.message) (hd : w'.data = w.data) : Frame pm pd w w' :=
  ⟨by rw [hh], hm, hd, fun q _ _ => load_congr w w' q hh⟩

theorem frame_put (pm pd : Ptr) (w : World) (p : Ptr) (x : Option Obj)
    (hp : p = pm ∨ p = pd) : Frame pm pd w (w.put p x) := by
  refine ⟨put_heap_length w p x, rfl, rfl, ?_⟩
  intro q hq1 hq2
  refine put_load_ne w p q x ?_
  rcases hp with rfl | rfl
  · exact hq1
  · exact hq2

theorem released_live (w : World) (pm pd : Ptr) (n : Nat) (h : w.released pm pd n = true) :
    w.live pm pd n = true := by
  obtain ⟨h1, h2, h3, h4⟩ := (released_iff w pm pd n).mp h
  exact (live_iff w pm pd n).mpr ⟨h1, h2, ⟨_, h3, rfl⟩, ⟨_, h4, by simp⟩⟩

theorem ready_iff (w : World) (pm pd : Ptr) (n : Nat) :
    w.ready pm pd n = true ↔
      w.live pm pd n = true ∧ ∃ hdr, w.loadMsg pm = some hdr ∧ hdr.data = some pd := by
  unfold World.ready
  cases hm : w.loadMsg pm <;> simp

theorem released_ready (w : World) (pm pd : Ptr) (n : Nat) (h : w.released pm pd n = true) :
    w.ready pm pd n = true := by
  obtain ⟨h1, h2, h3, h4⟩ := (released_iff w pm pd n).mp h
  exact (ready_iff w pm pd n).mpr ⟨released_live w pm pd n h, _, h3, rfl⟩

theorem released_congr (w w' : World) (pm pd : Ptr) (n : Nat) (hh : w'.heap = w.heap)
    (hm : w'.message = w.message) (hd : w'.data = w.data) :
    w'.released pm pd n = w.released pm pd n := by
  simp only [World.released, World.loadMsg, World.loadBuf, World.load, hh, hm, hd]

theorem ready_congr (w w' : World) (pm pd : Ptr) (n : Nat) (hh : w'.heap = w.heap)
    (hm : w'.message = w.message) (hd : w'.data = w.data) :
    w'.ready pm pd n = w.ready pm pd n := by
  simp only [World.ready, World.live, World.loadMsg, World.loadBuf, World.load, hh, hm, hd]

/-- The effect of `pgexporter_memory_free` on a live singleton, with what it leaves alone. -/
theorem memory_free_spec (w : World) (pm pd : Ptr) (n : Nat) (h : w.live pm pd n = true) :
    ∃ w', pgexporter_memory_free w = some w'
      ∧ w'.released pm pd n = true
      ∧ w'.errno = w.errno ∧ w'.rcvtimeo = w.rcvtimeo
      ∧ Frame pm pd w w' := by
  obtain ⟨hmsg, hdata, ⟨hdr, hm, hcap⟩, ⟨b, hb, hbl⟩⟩ := (live_iff w pm pd n).mp h
  have hne := msg_ne_buf w pm pd hdr b hm hb
  have hne' : pd ≠ pm := Ne.symm hne
  have hlm := loadMsg_lt w pm hdr hm
  have hlb := loadBuf_lt w pd b hb
  unfold pgexporter_memory_free
  simp only [hmsg, hdata, hm, World.memsetMsg, storeMsg_eq w pm hdr _ hm, Option.bind_eq_bind,
    Option.some_bind, put_data]
  rw [memset_eq _ pd b _ 0 (by rw [put_loadBuf_ne _ _ _ _ hne']; exact hb) (by omega)]
  simp only [Option.some_bind, World.setKind, World.setLength, World.setMaxLength,
    World.setData, World.storeMsg, put_loadMsg_ne _ _ _ _ hne, loadMsg_put_self, hlm,
    put_heap_length, put_data, hdata, hcap]
  refine ⟨_, rfl, ?_, by simp, by simp, ?_⟩
  · simp [released_iff, loadMsg_put_self, loadBuf_put_self, put_loadBuf_ne _ _ _ _ hne',
      put_loadMsg_ne _ _ _ _ hne, hlm, hlb, hmsg, hdata]
  · refine frame_trans pm pd _ _ _ (frame_trans pm pd _ _ _ (frame_trans pm pd _ _ _
      (frame_trans pm pd _ _ _ (frame_trans pm pd _ _ _ (frame_put pm pd w pm _ (Or.inl rfl))
        (frame_put pm pd _ pd _ (Or.inr rfl))) (frame_put pm pd _ pm _ (Or.inl rfl)))
      (frame_put pm pd _ pm _ (Or.inl rfl))) (frame_put pm pd _ pm _ (Or.inl rfl)))
      (frame_put pm pd _ pm _ (Or.inl rfl))

theorem read_message_exit_released (w : World) (pm pd : Ptr) (n : Nat) (timeout : Int)
    (msg : Option Ptr) (rest : List ReadOutcome) (h : w.released pm pd n = true) :
    ∃ w', read_message_exit w timeout msg rest = some ⟨w', MESSAGE_STATUS_ERROR, msg, rest⟩
      ∧ w'.released pm pd n = true ∧ Frame pm pd w w' := by
  unfold read_message_exit
  by_cases ht : timeout > 0
  · have hl : (setsockopt w 0).live pm pd n = true := by
      rw [live_congr w (setsockopt w 0) pm pd n rfl rfl rfl]
      exact released_live w pm pd n h
    obtain ⟨w', h1, h2, -, -, h5⟩ := memory_free_spec _ pm pd n hl
    exact ⟨w', by simp [ht, h1], h2,
      frame_trans pm pd _ _ _ (frame_of_heap pm pd w (setsockopt w 0) rfl rfl rfl) h5⟩
  · exact ⟨w, by simp [ht], h, frame_refl pm pd w⟩

/-- One attempt of `read_message` that delivers nothing, from a live singleton: the buffer
is released, and the attempt is retried or the call returns. -/
theorem read_message_loop_fail (w : World) (pm pd : Ptr) (n : Nat) (block : Bool)
    (timeout : Int) (r : ReadOutcome) (rest : List ReadOutcome) (msg : Option Ptr)
    (h : w.live pm pd n = true) (hle : r.numbytes ≤ 0) :
    ∃ w1, w1.released pm pd n = true ∧ Frame pm pd w w1 ∧ w1.rcvtimeo = w.rcvtimeo
      ∧ w1.errno = (if r.numbytes < 0 then r.err else w.errno)
      ∧ read_message_loop block timeout w (r :: rest) msg
          = if (w1.errno = EAGAIN ∨ w1.errno = EWOULDBLOCK) ∧ block = true then
              read_message_loop block timeout { w1 with errno := 0 } rest msg
            else if r.numbytes = 0 then
              some ⟨clear_rcvtimeo w1 timeout, MESSAGE_STATUS_ZERO, msg, rest⟩
            else read_message_exit w1 timeout msg rest := by
  obtain ⟨hmsg, hdata, ⟨hdr, hm, hcap⟩, -⟩ := (live_iff w pm pd n).mp h
  have hmm : pgexporter_memory_message w = some pm := hmsg
  have hn1 : ¬ 0 < r.numbytes := by omega
  have hn2 : ¬ r.numbytes > 0 := by omega
  by_cases h0 : r.numbytes = 0
  · obtain ⟨w1, hfree, hrel, he, hrt, hfr⟩ := memory_free_spec w pm pd n h
    have hn3 : ¬ r.numbytes < 0 := by omega
    refine ⟨w1, hrel, hfr, hrt, by rw [if_neg hn3]; exact he, ?_⟩
    simp only [read_message_loop, hmm, hm, sys_read, h0, lt_self_iff_false, gt_iff_lt,
      if_true, if_false, Option.bind_eq_bind, Option.some_bind, hfree]
  · have hneg : r.numbytes < 0 := by omega
    have hlive1 : ({ w with errno := r.err } : World).live pm pd n = true := by
      rw [live_congr w { w with errno := r.err } pm pd n rfl rfl rfl]
      exact h
    obtain ⟨w1, hfree, hrel, he, hrt, hfr⟩ := memory_free_spec _ pm pd n hlive1
    refine ⟨w1, hrel,
      frame_trans pm pd _ _ _ (frame_of_heap pm pd w { w with errno := r.err } rfl rfl rfl) hfr,
      hrt, by rw [if_pos hneg]; exact he, ?_⟩
    simp only [read_message_loop, hmm, hm, sys_read, hn1, hn2, h0, hneg, if_true, if_false,
      Option.bind_eq_bind, Option.some_bind, hfree]

/-- One failed attempt of `ssl_read_message`, from a live singleton: the buffer is released
and the error code decides between a return and a retry. -/
theorem ssl_read_message_loop_fail (w : World) (pm pd : Ptr) (n : Nat) (timeout : Int)
    (start_time : Int) (keep_read : Bool) (r : ReadOutcome) (rest : List ReadOutcome)
    (msg : Option Ptr) (h : w.live pm pd n = true) (hle : r.numbytes ≤ 0) :
    ∃ w1, w1.released pm pd n = true ∧ Frame pm pd w w1 ∧ w1.rcvtimeo = w.rcvtimeo
      ∧ w1.errno = w.errno
      ∧ ssl_read_message_loop timeout start_time w keep_read (r :: rest) msg
          = if r.err = SSL_ERROR_ZERO_RETURN then
              if timeout > 0 ∧ r.now - start_time ≥ timeout then
                some ⟨w1, MESSAGE_STATUS_ZERO, msg, rest⟩
              else ssl_read_message_loop timeout start_time w1 true rest msg
            else if r.err = SSL_ERROR_WANT_READ ∨ r.err = SSL_ERROR_WANT_WRITE
                ∨ r.err = SSL_ERROR_WANT_CONNECT ∨ r.err = SSL_ERROR_WANT_ACCEPT
                ∨ r.err = SSL_ERROR_WANT_X509_LOOKUP ∨ r.err = SSL_ERROR_WANT_ASYNC
                ∨ r.err = SSL_ERROR_WANT_ASYNC_JOB ∨ r.err = SSL_ERROR_WANT_CLIENT_HELLO_CB then
              ssl_read_message_loop timeout start_time w1 true rest msg
            else if r.err = SSL_ERROR_SYSCALL then
              some ⟨{ w1 with errno := 0 }, MESSAGE_STATUS_ERROR, msg, rest⟩
            else if r.err = SSL_ERROR_SSL then
              some ⟨w1, MESSAGE_STATUS_ERROR, msg, rest⟩
            else if keep_read = true then
              ssl_read_message_loop timeout start_time w1 keep_read rest msg
            else some ⟨w1, MESSAGE_STATUS_ERROR, msg, rest⟩ := by
  obtain ⟨hmsg, hdata, ⟨hdr, hm, hcap⟩, -⟩ := (live_iff w pm pd n).mp h
  have hmm : pgexporter_memory_message w = some pm := hmsg
  have hn1 : ¬ 0 < r.numbytes := by omega
  have hn2 : ¬ r.numbytes > 0 := by omega
  obtain ⟨w1, hfree, hrel, he, hrt, hfr⟩ := memory_free_spec w pm pd n h
  refine ⟨w1, hrel, hfr, hrt, he, ?_⟩
  simp only [ssl_read_message_loop, hmm, hm, SSL_read, hn1, hn2, if_false,
    Option.bind_eq_bind, Option.some_bind, hfree]

theorem sys_read_numbytes (w : World) (r : ReadOutcome) (buf : Option Ptr) (count : Nat)
    (w1 : World) (nb : Int) (h : sys_read w r buf count = some (w1, nb)) :
    nb = r.numbytes := by
  unfold sys_read at h
  split_ifs at h
  · cases buf with
    | none => simp at h
    | some p =>
      simp only [Option.map_eq_some', Prod.mk.injEq] at h
      obtain ⟨_, _, _, h⟩ := h
      exact h.symm
  · simp only [Option.some.injEq, Prod.mk.injEq] at h
    exact h.2.symm
  · simp only [Option.some.injEq, Prod.mk.injEq] at h
    exact h.2.symm

theorem SSL_read_numbytes (w : World) (r : ReadOutcome) (buf : Option Ptr) (num : Int)
    (w1 : World) (nb : Int) (h : SSL_read w r buf num = some (w1, nb)) :
    nb = r.numbytes := by
  unfold SSL_read at h
  split_ifs at h
  · cases buf with
    | none => simp at h
    | some p =>
      simp only [Option.map_eq_some', Prod.mk.injEq] at h
      obtain ⟨_, _, _, h⟩ := h
      exact h.symm
  · simp only [Option.some.injEq, Prod.mk.injEq] at h
    exact h.2.symm

theorem read_message_exit_status (w : World) (timeout : Int) (msg : Option Ptr)
    (rest : List ReadOutcome) (res : ReadResult)
    (h : read_message_exit w timeout msg rest = some res) :
    res.status = MESSAGE_STATUS_ERROR ∧ res.msg = msg ∧ res.rest = rest := by
  unfold read_message_exit at h
  split_ifs at h
  · simp only [Option.bind_eq_bind, Option.bind_eq_some, Option.some.injEq] at h
    obtain ⟨_, _, rfl⟩ := h
    exact ⟨rfl, rfl, rfl⟩
  · simp only [Option.some.injEq] at h
    subst h
    exact ⟨rfl, rfl, rfl⟩

/-- The status `read_message` returns is decided by its last read attempt: OK for a
positive count, ZERO for a zero count, ERROR for a negative count. -/
theorem read_message_loop_last (block : Bool) (timeout : Int) :
    ∀ (script : List ReadOutcome) (w : World) (msg : Option Ptr) (res : ReadResult),
      read_message_loop block timeout w script msg = some res →
      ∃ pre last, script = pre ++ last :: res.rest
        ∧ (res.status = MESSAGE_STATUS_OK ↔ 0 < last.numbytes)
        ∧ (res.status = MESSAGE_STATUS_ZERO ↔ last.numbytes = 0)
        ∧ (res.status = MESSAGE_STATUS_ERROR ↔ last.numbytes < 0) := by
  intro script
  induction script with
  | nil =>
    intro w msg res h
    simp [read_message_loop] at h
  | cons r rest ih =>
    intro w msg res h
    simp only [read_message_loop, Option.bind_eq_bind, Option.bind_eq_some] at h
    obtain ⟨m, -, hdr, -, ⟨w1, nb⟩, hs, h⟩ := h
    have hnb := sys_read_numbytes _ _ _ _ _ _ hs
    subst hnb
    simp only at h
    split_ifs at h with h1 h2
    · simp only [Option.bind_eq_some, Option.some.injEq] at h
      obtain ⟨_, _, _, _, _, _, _, _, _, _, rfl⟩ := h
      refine ⟨[], r, rfl, ?_, ?_, ?_⟩
      · simp only [true_iff]
        exact h1
      · simp
        omega
      · simp
        omega
    · simp only [Option.bind_eq_some] at h
      obtain ⟨w2, -, h⟩ := h
      split_ifs at h
      · obtain ⟨pre, last, hp, hl⟩ := ih _ _ _ h
        exact ⟨r :: pre, last, by rw [hp]; rfl, hl⟩
      · simp only [Option.some.injEq] at h
        subst h
        refine ⟨[], r, rfl, ?_, ?_, ?_⟩
        · simp
          omega
        · simp [h2]
        · simp
          omega
    · simp only [Option.bind_eq_some] at h
      obtain ⟨w2, -, h⟩ := h
      split_ifs at h
      · obtain ⟨pre, last, hp, hl⟩ := ih _ _ _ h
        exact ⟨r :: pre, last, by rw [hp]; rfl, hl⟩
      · obtain ⟨e1, -, e3⟩ := read_message_exit_status _ _ _ _ _ h
        refine ⟨[], r, by rw [e3]; rfl, ?_, ?_, ?_⟩
        · simp [e1]
          omega
        · simp [e1]
          omega
        · simp [e1]
          omega

/-- One attempt of the loop of `read_message` that delivers nothing: with `e` the `errno`
after the attempt, the attempt is retried when `e` is would-block and `block` is set, and
otherwise the call returns ZERO for a zero count and ERROR for a negative one. -/
theorem read_message_attempt (w : World) (pm pd : Ptr) (n : Nat) (block : Bool)
    (timeout : Int) (r : ReadOutcome) (rest : List ReadOutcome) (msg : Option Ptr) (e : Int)
    (hlive : w.live pm pd n = true) (hle : r.numbytes ≤ 0)
    (he : e = if r.numbytes < 0 then r.err else w.errno) :
    ((e = EAGAIN ∨ e = EWOULDBLOCK) ∧ block = true →
        ∃ w1, w1.released pm pd n = true ∧ w1.errno = 0
          ∧ read_message_loop block timeout w (r :: rest) msg
              = read_message_loop block timeout w1 rest msg)
      ∧ (¬ ((e = EAGAIN ∨ e = EWOULDBLOCK) ∧ block = true) →
        ∃ w', w'.released pm pd n = true
          ∧ read_message_loop block timeout w (r :: rest) msg
              = some ⟨w', if r.numbytes = 0 then MESSAGE_STATUS_ZERO
                  else MESSAGE_STATUS_ERROR, msg, rest⟩) := by
  obtain ⟨w1, hrel, -, -, herr, heq⟩ :=
    read_message_loop_fail w pm pd n block timeout r rest msg hlive hle
  rw [← he] at herr
  rw [herr] at heq
  constructor
  · intro hc
    refine ⟨{ w1 with errno := 0 }, ?_, rfl, ?_⟩
    · rw [released_congr w1 { w1 with errno := 0 } pm pd n rfl rfl rfl]
      exact hrel
    · rw [heq, if_pos hc]
  · intro hc
    rw [heq, if_neg hc]
    by_cases h0 : r.numbytes = 0
    · refine ⟨clear_rcvtimeo w1 timeout, ?_, ?_⟩
      · unfold clear_rcvtimeo
        split
        · rw [released_congr w1 (setsockopt w1 0) pm pd n rfl rfl rfl]
          exact hrel
        · exact hrel
      · rw [if_pos h0, if_pos h0]
    · obtain ⟨w', hx, hr', -⟩ := read_message_exit_released w1 pm pd n timeout msg rest hrel
      exact ⟨w', hr', by rw [if_neg h0, if_neg h0, hx]⟩

/-- C11: in `read_message` on a live singleton, an attempt that returns 0 bytes makes the
call return `MESSAGE_STATUS_ZERO` and one that returns a negative count makes it return
`MESSAGE_STATUS_ERROR`, unless `errno` after the attempt (`e`: the error of a negative read,
the value left in `errno` for a zero read) is `EAGAIN`/`EWOULDBLOCK` and `block` is true, in
which case the next attempt is made instead, with `errno` cleared.  This holds for the first
attempt of the call and for every later attempt of its loop; and whenever the call returns,
ZERO goes with a zero count of its last attempt and ERROR with a negative one. -/
theorem C11_zero_and_negative_reads (w : World) (pm pd : Ptr) (n : Nat) (block : Bool)
    (timeout : Int) (r : ReadOutcome) (rest : List ReadOutcome) (msg : Option Ptr) (e : Int)
    (hlive : w.live pm pd n = true) (hle : r.numbytes ≤ 0)
    (he : e = if r.numbytes < 0 then r.err else w.errno) :
    ((e = EAGAIN ∨ e = EWOULDBLOCK) ∧ block = true →
        (∃ w1, w1.released pm pd n = true ∧ w1.errno = 0
          ∧ read_message w (r :: rest) block timeout msg
              = read_message_loop block timeout w1 rest msg)
        ∧ ∃ w1, w1.released pm pd n = true ∧ w1.errno = 0
          ∧ read_message_loop block timeout w (r :: rest) msg
              = read_message_loop block timeout w1 rest msg)
      ∧ (¬ ((e = EAGAIN ∨ e = EWOULDBLOCK) ∧ block = true) →
        (∃ w', read_message w (r :: rest) block timeout msg
            = some ⟨w', if r.numbytes = 0 then MESSAGE_STATUS_ZERO
                else MESSAGE_STATUS_ERROR, msg, rest⟩)
        ∧ ∃ w', read_message_loop block timeout w (r :: rest) msg
            = some ⟨w', if r.numbytes = 0 then MESSAGE_STATUS_ZERO
                else MESSAGE_STATUS_ERROR, msg, rest⟩)
      ∧ ∀ (script : List ReadOutcome) (res : ReadResult),
          read_message w script block timeout msg = some res →
          ∃ pre last, script = pre ++ last :: res.rest
            ∧ (res.status = MESSAGE_STATUS_ZERO ↔ last.numbytes = 0)
            ∧ (res.status = MESSAGE_STATUS_ERROR ↔ last.numbytes < 0) := by
  have hlive0 : (if timeout > 0 then setsockopt w timeout else w).live pm pd n = true := by
    split
    · rw [live_congr w (setsockopt w timeout) pm pd n rfl rfl rfl]
      exact hlive
    · exact hlive
  have he0 : e = if r.numbytes < 0 then r.err
      else (if timeout > 0 then setsockopt w timeout else w).errno := by
    rw [he]
    split_ifs <;> rfl
  have hA := read_message_attempt w pm pd n block timeout r rest msg e hlive hle he
  have hB := read_message_attempt _ pm pd n block timeout r rest msg e hlive0 hle he0
  refine ⟨fun hc => ⟨?_, hA.1 hc⟩, fun hc => ⟨?_, ?_⟩, ?_⟩
  · obtain ⟨w1, h1, h2, h3⟩ := hB.1 hc
    exact ⟨w1, h1, h2, h3⟩
  · obtain ⟨w', -, h3⟩ := hB.2 hc
    exact ⟨w', h3⟩
  · obtain ⟨w', -, h3⟩ := hA.2 hc
    exact ⟨w', h3⟩
  · intro script res h
    obtain ⟨pre, last, h1, -, h2, h3⟩ := read_message_loop_last block timeout script _ msg res h
    exact ⟨pre, last, h1, h2, h3⟩

/-- C11 at the singleton of `World.dirty` (whose `errno` is `EAGAIN`) with `block = true`: a
read of 0 bytes is retried; a read of -1 with `errno` 104 ends the call with an error. -/
theorem C11_zero_and_negative_reads_witness :
    World.dirty.live 0 1 8 = true
      ∧ ((⟨0, [], 0, 0⟩ : ReadOutcome).numbytes ≤ 0
        ∧ (11 : Int) = (if (⟨0, [], 0, 0⟩ : ReadOutcome).numbytes < 0
            then (⟨0, [], 0, 0⟩ : ReadOutcome).err else World.dirty.errno)
        ∧ ((11 = EAGAIN ∨ 11 = EWOULDBLOCK) ∧ true = true)
        ∧ ∃ w1, w1.released 0 1 8 = true ∧ w1.errno = 0
            ∧ read_message World.dirty [⟨0, [], 0, 0⟩, ⟨-1, [], 104, 0⟩] true 0 none
                = read_message_loop true 0 w1 [⟨-1, [], 104, 0⟩] none)
      ∧ ((⟨-1, [], 104, 0⟩ : ReadOutcome).numbytes ≤ 0
        ∧ (104 : Int) = (if (⟨-1, [], 104, 0⟩ : ReadOutcome).numbytes < 0
            then (⟨-1, [], 104, 0⟩ : ReadOutcome).err else World.dirty.errno)
        ∧ ¬ ((104 = EAGAIN ∨ 104 = EWOULDBLOCK) ∧ true = true)
        ∧ ∃ w', read_message World.dirty [⟨-1, [], 104, 0⟩] true 0 none
            = some ⟨w', if (⟨-1, [], 104, 0⟩ : ReadOutcome).numbytes = 0
                then MESSAGE_STATUS_ZERO else MESSAGE_STATUS_ERROR, none, []⟩) :=
  ⟨by decide,
    ⟨by decide, by decide, by decide,
      ((C11_zero_and_negative_reads World.dirty 0 1 8 true 0 ⟨0, [], 0, 0⟩
        [⟨-1, [], 104, 0⟩] none 11 (by decide) (by decide) (by decide)).1 (by decide)).1⟩,
    ⟨by decide, by decide, by decide,
      ((C11_zero_and_negative_reads World.dirty 0 1 8 true 0 ⟨-1, [], 104, 0⟩
        [] none 104 (by decide) (by decide) (by decide)).2.1 (by decide)).1⟩⟩

/-- The status `ssl_read_message` returns is decided by its last read attempt: OK for a
positive count; ZERO for a failed read with `SSL_ERROR_ZERO_RETURN` once the timeout has
elapsed; and no call returns at a failed read with a `WANT_*` code. -/
theorem ssl_read_message_loop_last (timeout start_time : Int) :
    ∀ (script : List ReadOutcome) (w : World) (keep_read : Bool) (msg : Option Ptr)
      (res : ReadResult),
      ssl_read_message_loop timeout start_time w keep_read script msg = some res →
      ∃ pre last, script = pre ++ last :: res.rest
        ∧ (res.status = MESSAGE_STATUS_OK ↔ 0 < last.numbytes)
        ∧ (res.status = MESSAGE_STATUS_ZERO ↔
            last.numbytes ≤ 0 ∧ last.err = SSL_ERROR_ZERO_RETURN ∧ timeout > 0
              ∧ last.now - start_time ≥ timeout)
        ∧ (last.numbytes ≤ 0 →
            last.err ≠ SSL_ERROR_WANT_READ ∧ last.err ≠ SSL_ERROR_WANT_WRITE
              ∧ last.err ≠ SSL_ERROR_WANT_CONNECT ∧ last.err ≠ SSL_ERROR_WANT_ACCEPT
              ∧ last.err ≠ SSL_ERROR_WANT_X509_LOOKUP) := by
  intro script
  induction script with
  | nil =>
    intro w keep_read msg res h
    simp [ssl_read_message_loop] at h
  | cons r rest ih =>
    intro w keep_read msg res h
    simp only [ssl_read_message_loop, Option.bind_eq_bind, Option.bind_eq_some] at h
    obtain ⟨m, -, hdr, -, ⟨w1, nb⟩, hs, h⟩ := h
    have hnb := SSL_read_numbytes _ _ _ _ _ _ hs
    subst hnb
    simp only at h
    by_cases h1 : r.numbytes > 0
    · rw [if_pos h1] at h
      simp only [Option.bind_eq_some, Option.some.injEq] at h
      obtain ⟨_, _, _, _, _, _, _, _, _, _, rfl⟩ := h
      refine ⟨[], r, rfl, ?_, ?_, ?_⟩
      · simp
        exact h1
      · simp
        intro hh
        omega
      · intro hh
        omega
    · rw [if_neg h1] at h
      simp only [Option.bind_eq_some] at h
      obtain ⟨w2, -, h⟩ := h
      have hle : r.numbytes ≤ 0 := by omega
      have hnp : ¬ 0 < r.numbytes := by omega
      split_ifs at h with c1 c2 c3 c4 c5 c6
      · simp only [Option.some.injEq] at h
        subst h
        refine ⟨[], r, rfl, ?_, ?_, ?_⟩
        · simp [hnp]
        · simp [hle, c1, c2.1, c2.2]
        · intro _
          rw [c1]
          decide
      · obtain ⟨pre, last, hp, hl⟩ := ih _ _ _ _ h
        exact ⟨r :: pre, last, by rw [hp]; rfl, hl⟩
      · obtain ⟨pre, last, hp, hl⟩ := ih _ _ _ _ h
        exact ⟨r :: pre, last, by rw [hp]; rfl, hl⟩
      · simp only [Option.some.injEq] at h
        subst h
        refine ⟨[], r, rfl, ?_, ?_, ?_⟩
        · simp [hnp]
        · simp [c1]
        · intro _
          rw [c4]
          decide
      · simp only [Option.some.injEq] at h
        subst h
        refine ⟨[], r, rfl, ?_, ?_, ?_⟩
        · simp [hnp]
        · simp [c1]
        · intro _
          rw [c5]
          decide
      · obtain ⟨pre, last, hp, hl⟩ := ih _ _ _ _ h
        exact ⟨r :: pre, last, by rw [hp]; rfl, hl⟩
      · simp only [Option.some.injEq] at h
        subst h
        refine ⟨[], r, rfl, ?_, ?_, ?_⟩
        · simp [hnp]
        · simp [c1]
        · intro _
          simp only [not_or] at c3
          exact ⟨c3.1, c3.2.1, c3.2.2.1, c3.2.2.2.1, c3.2.2.2.2.1⟩

/-- C13: in `ssl_read_message` with `timeout > 0` on a live singleton, a failed read
(`SSL_read` returns a value `<= 0`) in any iteration of the loop is classified by its error
code: `SSL_ERROR_ZERO_RETURN` makes the call return `MESSAGE_STATUS_ZERO` when the time
elapsed since the start is `>= timeout` and is followed by another attempt otherwise;
`WANT_READ`, `WANT_WRITE`, `WANT_CONNECT`, `WANT_ACCEPT` and `WANT_X509_LOOKUP` are followed
by another attempt; `SSL_ERROR_SYSCALL` and `SSL_ERROR_SSL` make the call return
`MESSAGE_STATUS_ERROR` with the later outcomes untouched.  Whenever the call returns, it
returns ZERO exactly for a last attempt that failed with `ZERO_RETURN` after the timeout,
and its last attempt is no failed read with one of the five `WANT_*` codes. -/
theorem C13_ssl_read_error_codes (w : World) (pm pd : Ptr) (n : Nat) (timeout : Int)
    (start_time : Int) (keep_read : Bool) (r : ReadOutcome) (rest : List ReadOutcome)
    (msg : Option Ptr)
    (hlive : w.live pm pd n = true) (ht : timeout > 0) (hfail : r.numbytes ≤ 0) :
    (∃ w1, w1.released pm pd n = true
      ∧ (r.err = SSL_ERROR_ZERO_RETURN →
          (r.now - start_time ≥ timeout →
            ssl_read_message_loop timeout start_time w keep_read (r :: rest) msg
              = some ⟨w1, MESSAGE_STATUS_ZERO, msg, rest⟩)
          ∧ (r.now - start_time < timeout →
            ssl_read_message_loop timeout start_time w keep_read (r :: rest) msg
              = ssl_read_message_loop timeout start_time w1 true rest msg))
      ∧ (r.err = SSL_ERROR_WANT_READ ∨ r.err = SSL_ERROR_WANT_WRITE
          ∨ r.err = SSL_ERROR_WANT_CONNECT ∨ r.err = SSL_ERROR_WANT_ACCEPT
          ∨ r.err = SSL_ERROR_WANT_X509_LOOKUP →
          ssl_read_message_loop timeout start_time w keep_read (r :: rest) msg
            = ssl_read_message_loop timeout start_time w1 true rest msg)
      ∧ (r.err = SSL_ERROR_SYSCALL ∨ r.err = SSL_ERROR_SSL →
          ∃ w', ssl_read_message_loop timeout start_time w keep_read (r :: rest) msg
            = some ⟨w', MESSAGE_STATUS_ERROR, msg, rest⟩))
      ∧ (∀ script, ssl_read_message w script timeout start_time msg
          = ssl_read_message_loop timeout start_time w false script msg)
      ∧ ∀ (script : List ReadOutcome) (res : ReadResult),
          ssl_read_message w script timeout start_time msg = some res →
          ∃ pre last, script = pre ++ last :: res.rest
            ∧ (res.status = MESSAGE_STATUS_ZERO ↔
                last.numbytes ≤ 0 ∧ last.err = SSL_ERROR_ZERO_RETURN
                  ∧ last.now - start_time ≥ timeout)
            ∧ (last.numbytes ≤ 0 →
                last.err ≠ SSL_ERROR_WANT_READ ∧ last.err ≠ SSL_ERROR_WANT_WRITE
                  ∧ last.err ≠ SSL_ERROR_WANT_CONNECT ∧ last.err ≠ SSL_ERROR_WANT_ACCEPT
                  ∧ last.err ≠ SSL_ERROR_WANT_X509_LOOKUP) := by
  obtain ⟨w1, hrel, -, -, -, heq⟩ :=
    ssl_read_message_loop_fail w pm pd n timeout start_time keep_read r rest msg hlive hfail
  refine ⟨⟨w1, hrel, ?_, ?_, ?_⟩, fun _ => rfl, ?_⟩
  · intro hz
    constructor
    · intro hel
      rw [heq, if_pos hz, if_pos ⟨ht, hel⟩]
    · intro hel
      have hn : ¬ (timeout > 0 ∧ r.now - start_time ≥ timeout) := by
        intro hc
        omega
      rw [heq, if_pos hz, if_neg hn]
  · intro hwant
    have hz : ¬ r.err = SSL_ERROR_ZERO_RETURN := by
      intro hc
      rw [hc] at hwant
      revert hwant
      decide
    have hw : r.err = SSL_ERROR_WANT_READ ∨ r.err = SSL_ERROR_WANT_WRITE
        ∨ r.err = SSL_ERROR_WANT_CONNECT ∨ r.err = SSL_ERROR_WANT_ACCEPT
        ∨ r.err = SSL_ERROR_WANT_X509_LOOKUP ∨ r.err = SSL_ERROR_WANT_ASYNC
        ∨ r.err = SSL_ERROR_WANT_ASYNC_JOB ∨ r.err = SSL_ERROR_WANT_CLIENT_HELLO_CB := by
      rcases hwant with h | h | h | h | h <;> simp [h]
    rw [heq, if_neg hz, if_pos hw]
  · intro herr
    rcases herr with h | h
    · refine ⟨{ w1 with errno := 0 }, ?_⟩
      rw [heq, h]
      rfl
    · refine ⟨w1, ?_⟩
      rw [heq, h]
      rfl
  · intro script res h
    obtain ⟨pre, last, h1, -, h2, h3⟩ :=
      ssl_read_message_loop_last timeout start_time script w false msg res h
    refine ⟨pre, last, h1, ?_, h3⟩
    rw [h2]
    constructor
    · rintro ⟨a, b, -, c⟩
      exact ⟨a, b, c⟩
    · rintro ⟨a, b, c⟩
      exact ⟨a, b, ht, c⟩

/-- C13 at the singleton of `World.dirty`, a timeout of 5 seconds and a start at time 100:
a read that fails with `SSL_ERROR_ZERO_RETURN` at time 105 ends the call with ZERO. -/
theorem C13_ssl_read_error_codes_witness :
    World.dirty.live 0 1 8 = true ∧ (5 : Int) > 0
      ∧ (⟨0, [], SSL_ERROR_ZERO_RETURN, 105⟩ : ReadOutcome).numbytes ≤ 0
      ∧ ∃ w1, w1.released 0 1 8 = true
          ∧ ssl_read_message_loop 5 100 World.dirty false
              [⟨0, [], SSL_ERROR_ZERO_RETURN, 105⟩, ⟨-1, [], SSL_ERROR_SSL, 106⟩] none
            = some ⟨w1, MESSAGE_STATUS_ZERO, none, [⟨-1, [], SSL_ERROR_SSL, 106⟩]⟩ := by
  obtain ⟨⟨w1, h1, h2, -⟩, -⟩ := C13_ssl_read_error_codes World.dirty 0 1 8 5 100 false
    ⟨0, [], SSL_ERROR_ZERO_RETURN, 105⟩ [⟨-1, [], SSL_ERROR_SSL, 106⟩] none (by decide)
    (by decide) (by decide)
  exact ⟨by decide, by decide, by decide, w1, h1, (h2 rfl).1 (by decide)⟩

/-! ## Claim C12: what a read leaves behind -/

theorem storeMsg_put (w : World) (p : Ptr) (m : message_t) (w' : World)
    (h : w.storeMsg p m = some w') : w' = w.put p (some (Obj.msg m)) := by
  unfold World.storeMsg at h
  split at h
  · simp only [Option.some.injEq] at h
    exact h.symm
  · simp at h

theorem writeBytes_put (w : World) (p : Ptr) (off : Nat) (bs : List Nat) (w' : World)
    (h : w.writeBytes p off bs = some w') : ∃ o, w' = w.put p (some o) := by
  unfold World.writeBytes at h
  split at h
  · split_ifs at h
    unfold World.storeBuf at h
    split at h
    · split_ifs at h
      simp only [Option.some.injEq] at h
      exact ⟨_, h.symm⟩
    · simp at h
  · simp at h

theorem setKind_put (w : World) (p : Ptr) (k : Int) (w' : World)
    (h : w.setKind p k = some w') : ∃ o, w' = w.put p (some o) := by
  unfold World.setKind at h
  split at h
  · exact ⟨_, storeMsg_put _ _ _ _ h⟩
  · simp at h

theorem setLength_put (w : World) (p : Ptr) (k : Int) (w' : World)
    (h : w.setLength p k = some w') : ∃ o, w' = w.put p (some o) := by
  unfold World.setLength at h
  split at h
  · exact ⟨_, storeMsg_put _ _ _ _ h⟩
  · simp at h

theorem clear_rcvtimeo_frame (pm pd : Ptr) (w : World) (timeout : Int) :
    (clear_rcvtimeo w timeout).heap = w.heap ∧ (clear_rcvtimeo w timeout).message = w.message
      ∧ (clear_rcvtimeo w timeout).data = w.data := by
  unfold clear_rcvtimeo
  split <;> exact ⟨rfl, rfl, rfl⟩

/-- The state after the three steps of a successful read (bytes stored in the buffer, kind
and length assigned) is ready again and differs from the one before only in the singleton. -/
theorem delivered_ready (w : World) (pm pd : Ptr) (n : Nat) (hdr : message_t) (b : List Nat)
    (first : Nat) (tl : List Nat) (hmsg : w.message = some pm) (hdata : w.data = some pd)
    (hm : w.loadMsg pm = some hdr) (hd : hdr.data = some pd) (hb : w.loadBuf pd = some b)
    (hcap : hdr.max_length = n) (hbl : b.length = n)
    (hlen : (first :: tl).length ≤ b.length) :
    ∃ w1 w2 w3, w.writeBytes pd 0 (first :: tl) = some w1
      ∧ w1.loadBuf pd = some (first :: (tl ++ b.drop (first :: tl).length))
      ∧ w1.setKind pm (signed_char first) = some w2
      ∧ w2.setLength pm ((first :: tl).length : Int) = some w3
      ∧ w3.ready pm pd n = true ∧ Frame pm pd w w3
      ∧ w3.loadMsg pm
          = some { kind := signed_char first, length := ((first :: tl).length : Int),
                   max_length := n, data := some pd } := by
  obtain ⟨w1, w2, w3, h1, h2, h3, h4, h5, -, -, h8⟩ :=
    delivered_state w pm pd hdr b first tl hmsg hm hd hb hlen
  obtain ⟨o1, e1⟩ := writeBytes_put _ _ _ _ _ h1
  obtain ⟨o2, e2⟩ := setKind_put _ _ _ _ h3
  obtain ⟨o3, e3⟩ := setLength_put _ _ _ _ h4
  have hf : Frame pm pd w w3 := by
    rw [e3, e2, e1]
    exact frame_trans pm pd _ _ _ (frame_trans pm pd _ _ _
      (frame_put pm pd w pd _ (Or.inr rfl)) (frame_put pm pd _ pm _ (Or.inl rfl)))
      (frame_put pm pd _ pm _ (Or.inl rfl))
  obtain ⟨h51, hdr', hv, hk, hl, hmx, hdd, -⟩ := h5
  obtain ⟨hm3, pd', hd3, hb3⟩ := view_parts _ _ _ _ hv
  have hpd : pd' = pd := by
    rw [hdd, hd] at hd3
    simp only [Option.some.injEq] at hd3
    exact hd3.symm
  subst hpd
  have hhdr : hdr'
      = { kind := signed_char first, length := ((first :: tl).length : Int),
          max_length := n, data := some pd' } := by
    cases hdr'
    simp only [List.head?_cons, Option.map_some', Option.some.injEq] at hk
    simp only at hk hl hmx hdd
    subst hk hl hmx hdd
    rw [hcap, hd]
  refine ⟨w1, w2, w3, h1, h2, h3, h4, ?_, hf, ?_⟩
  · rw [ready_iff, live_iff]
    refine ⟨⟨h51, by rw [h8]; exact hdata, ⟨hdr', hm3, by rw [hmx]; exact hcap⟩,
      ⟨_, hb3, ?_⟩⟩, hdr', hm3, hd3⟩
    simp only [List.length_append, List.length_drop]
    omega
  · rw [hm3, hhdr]

/-- A successful attempt of `read_message` on a ready singleton. -/
theorem read_message_loop_pos (w : World) (pm pd : Ptr) (n : Nat) (block : Bool)
    (timeout : Int) (r : ReadOutcome) (rest : List ReadOutcome) (msg : Option Ptr)
    (res : ReadResult) (hready : w.ready pm pd n = true) (hpos : 0 < r.numbytes)
    (h : read_message_loop block timeout w (r :: rest) msg = some res) :
    res.status = MESSAGE_STATUS_OK ∧ res.msg = some pm ∧ res.rest = rest
      ∧ res.world.ready pm pd n = true ∧ Frame pm pd w res.world
      ∧ ∃ hdr, res.world.loadMsg pm = some hdr ∧ hdr.length = r.numbytes
          ∧ r.numbytes ≤ n ∧ hdr.max_length = n := by
  obtain ⟨hlive, hdr, hm, hd⟩ := (ready_iff w pm pd n).mp hready
  obtain ⟨hmsg, hdata, ⟨hdr0, hm0, hcap⟩, ⟨b, hb, hbl⟩⟩ := (live_iff w pm pd n).mp hlive
  rw [hm] at hm0
  simp only [Option.some.injEq] at hm0
  subst hm0
  have hmm : pgexporter_memory_message w = some pm := hmsg
  obtain ⟨nb, bytes, err, now⟩ := r
  simp only at hpos
  simp only [read_message_loop, hmm, hm, hd, sys_read, Option.bind_eq_bind,
    Option.some_bind] at h
  rw [if_pos hpos] at h
  by_cases hc : ((bytes.length : Int) = nb ∧ nb ≤ (hdr.max_length : Int))
  · rw [if_pos hc] at h
    obtain ⟨hc1, hc2⟩ := hc
    subst hc1
    cases bytes with
    | nil => simp at hpos
    | cons first tl =>
      have hlen : (first :: tl).length ≤ b.length := by omega
      obtain ⟨w1, w2, w3, h1, h2, h3, h4, h5, h6, h7⟩ :=
        delivered_ready w pm pd n hdr b first tl hmsg hdata hm hd hb hcap hbl hlen
      have hgt : ((first :: tl).length : Int) > 0 := hpos
      rw [h1] at h
      simp only [Option.map_some', Option.some_bind] at h
      rw [if_pos hgt, h2] at h
      simp only [Option.some_bind, List.head?_cons, h3, h4, Option.some.injEq] at h
      subst h
      obtain ⟨c1, c2, c3⟩ := clear_rcvtimeo_frame pm pd w3 timeout
      refine ⟨rfl, rfl, rfl, ?_, ?_,
        { kind := signed_char first, length := ((first :: tl).length : Int),
          max_length := n, data := some pd }, ?_, rfl, ?_, rfl⟩
      · rw [ready_congr w3 _ pm pd n c1 c2 c3]
        exact h5
      · exact frame_trans pm pd _ _ _ h6 (frame_of_heap pm pd w3 _ c1 c2 c3)
      · show World.loadMsg (clear_rcvtimeo w3 timeout) pm = _
        simp only [World.loadMsg, World.load, c1] at h7 ⊢
        exact h7
      · show ((first :: tl).length : Int) ≤ (n : Int)
        omega
  · rw [if_neg hc] at h
    simp at h

theorem read_message_loop_pos_status (w : World) (block : Bool) (timeout : Int)
    (r : ReadOutcome) (rest : List ReadOutcome) (msg : Option Ptr) (res : ReadResult)
    (hpos : 0 < r.numbytes)
    (h : read_message_loop block timeout w (r :: rest) msg = some res) :
    res.status = MESSAGE_STATUS_OK := by
  simp only [read_message_loop, Option.bind_eq_bind, Option.bind_eq_some] at h
  obtain ⟨m, -, hdr, -, ⟨w1, nb⟩, hs, h⟩ := h
  have hnb := sys_read_numbytes _ _ _ _ _ _ hs
  subst hnb
  simp only at h
  rw [if_pos hpos] at h
  simp only [Option.bind_eq_some, Option.some.injEq] at h
  obtain ⟨_, _, _, _, _, _, _, _, _, _, rfl⟩ := h
  rfl

theorem ssl_read_message_loop_pos_status (w : World) (timeout start_time : Int)
    (keep_read : Bool) (r : ReadOutcome) (rest : List ReadOutcome) (msg : Option Ptr)
    (res : ReadResult) (hpos : 0 < r.numbytes)
    (h : ssl_read_message_loop timeout start_time w keep_read (r :: rest) msg = some res) :
    res.status = MESSAGE_STATUS_OK := by
  simp only [ssl_read_message_loop, Option.bind_eq_bind, Option.bind_eq_some] at h
  obtain ⟨m, -, hdr, -, ⟨w1, nb⟩, hs, h⟩ := h
  have hnb := SSL_read_numbytes _ _ _ _ _ _ hs
  subst hnb
  simp only at h
  rw [if_pos hpos] at h
  simp only [Option.bind_eq_some, Option.some.injEq] at h
  obtain ⟨_, _, _, _, _, _, _, _, _, _, rfl⟩ := h
  rfl

theorem wrap_int32_le (x : Nat) : wrap_int32 (x : Int) ≤ (x : Int) := by
  unfold wrap_int32
  omega

/-- A successful attempt of `ssl_read_message` on a ready singleton. -/
theorem ssl_read_message_loop_pos (w : World) (pm pd : Ptr) (n : Nat)
    (timeout start_time : Int) (keep_read : Bool) (r : ReadOutcome)
    (rest : List ReadOutcome) (msg : Option Ptr)
    (res : ReadResult) (hready : w.ready pm pd n = true) (hpos : 0 < r.numbytes)
    (h : ssl_read_message_loop timeout start_time w keep_read (r :: rest) msg = some res) :
    res.status = MESSAGE_STATUS_OK ∧ res.msg = some pm ∧ res.rest = rest
      ∧ res.world.ready pm pd n = true ∧ Frame pm pd w res.world
      ∧ ∃ hdr, res.world.loadMsg pm = some hdr ∧ hdr.length = r.numbytes
          ∧ r.numbytes ≤ n ∧ hdr.max_length = n := by
  obtain ⟨hlive, hdr, hm, hd⟩ := (ready_iff w pm pd n).mp hready
  obtain ⟨hmsg, hdata, ⟨hdr0, hm0, hcap⟩, ⟨b, hb, hbl⟩⟩ := (live_iff w pm pd n).mp hlive
  rw [hm] at hm0
  simp only [Option.some.injEq] at hm0
  subst hm0
  have hmm : pgexporter_memory_message w = some pm := hmsg
  obtain ⟨nb, bytes, err, now⟩ := r
  simp only at hpos
  simp only [ssl_read_message_loop, hmm, hm, hd, SSL_read, Option.bind_eq_bind,
    Option.some_bind] at h
  rw [if_pos hpos] at h
  by_cases hc : ((bytes.length : Int) = nb ∧ nb ≤ wrap_int32 (hdr.max_length : Int))
  · rw [if_pos hc] at h
    obtain ⟨hc1, hc2⟩ := hc
    have hc3 := wrap_int32_le hdr.max_length
    subst hc1
    cases bytes with
    | nil => simp at hpos
    | cons first tl =>
      have hlen : (first :: tl).length ≤ b.length := by omega
      obtain ⟨w1, w2, w3, h1, h2, h3, h4, h5, h6, h7⟩ :=
        delivered_ready w pm pd n hdr b first tl hmsg hdata hm hd hb hcap hbl hlen
      have hgt : ((first :: tl).length : Int) > 0 := hpos
      rw [h1] at h
      simp only [Option.map_some', Option.some_bind] at h
      rw [if_pos hgt, h2] at h
      simp only [Option.some_bind, List.head?_cons, h3, h4, Option.some.injEq] at h
      subst h
      refine ⟨rfl, rfl, rfl, h5, h6,
        { kind := signed_char first, length := ((first :: tl).length : Int),
          max_length := n, data := some pd }, h7, rfl, ?_, rfl⟩
      show ((first :: tl).length : Int) ≤ (n : Int)
      omega
  · rw [if_neg hc] at h
    simp at h

/-- What `read_message` leaves behind, from a live singleton: after a return that is not OK
the singleton is released and the caller's `*msg` is as before; from a ready singleton, it
is ready afterwards, no other block has changed, and after an OK `*msg` is the singleton
message, whose length is positive and at most its max_length. -/
theorem read_message_loop_inv (pm pd : Ptr) (n : Nat) (block : Bool) (timeout : Int) :
    ∀ (script : List ReadOutcome) (w : World) (msg : Option Ptr) (res : ReadResult),
      w.live pm pd n = true →
      read_message_loop block timeout w script msg = some res →
      (res.status ≠ MESSAGE_STATUS_OK →
          res.world.released pm pd n = true ∧ res.msg = msg ∧ Frame pm pd w res.world)
        ∧ (w.ready pm pd n = true →
            res.world.ready pm pd n = true ∧ Frame pm pd w res.world
              ∧ (res.status = MESSAGE_STATUS_OK →
                  res.msg = some pm
                    ∧ ∃ hdr, res.world.loadMsg pm = some hdr ∧ 0 < hdr.length
                        ∧ hdr.length ≤ n ∧ hdr.max_length = n)) := by
  intro script
  induction script with
  | nil =>
    intro w msg res _ h
    simp [read_message_loop] at h
  | cons r rest ih =>
    intro w msg res hlive h
    by_cases hpos : 0 < r.numbytes
    · have hst := read_message_loop_pos_status w block timeout r rest msg res hpos h
      refine ⟨fun hne => absurd hst hne, fun hready => ?_⟩
      obtain ⟨-, a2, -, a4, a5, hdr, a6, a7, a8, a9⟩ :=
        read_message_loop_pos w pm pd n block timeout r rest msg res hready hpos h
      exact ⟨a4, a5, fun _ => ⟨a2, hdr, a6, by omega, by omega, a9⟩⟩
    · obtain ⟨w1, hrel, hfr, -, -, heq⟩ :=
        read_message_loop_fail w pm pd n block timeout r rest msg hlive (by omega)
      rw [heq] at h
      have fin : ∀ w' : World, w'.released pm pd n = true → Frame pm pd w w' →
          ∀ st, st ≠ MESSAGE_STATUS_OK → res = ⟨w', st, msg, rest⟩ →
          (res.status ≠ MESSAGE_STATUS_OK →
              res.world.released pm pd n = true ∧ res.msg = msg ∧ Frame pm pd w res.world)
            ∧ (w.ready pm pd n = true →
                res.world.ready pm pd n = true ∧ Frame pm pd w res.world
                  ∧ (res.status = MESSAGE_STATUS_OK →
                      res.msg = some pm
                        ∧ ∃ hdr, res.world.loadMsg pm = some hdr ∧ 0 < hdr.length
                            ∧ hdr.length ≤ n ∧ hdr.max_length = n)) := by
        intro w' hr hf st hst hres
        subst hres
        exact ⟨fun _ => ⟨hr, rfl, hf⟩,
          fun _ => ⟨released_ready w' pm pd n hr, hf, fun hc => absurd hc hst⟩⟩
      split_ifs at h with c1 c2
      · have hrel' : ({ w1 with errno := 0 } : World).released pm pd n = true := by
          rw [released_congr w1 { w1 with errno := 0 } pm pd n rfl rfl rfl]
          exact hrel
        have hfr' : Frame pm pd w { w1 with errno := 0 } :=
          frame_trans pm pd _ _ _ hfr (frame_of_heap pm pd w1 _ rfl rfl rfl)
        obtain ⟨i1, i2⟩ := ih _ msg res (released_live _ pm pd n hrel') h
        obtain ⟨j1, j2, j3⟩ := i2 (released_ready _ pm pd n hrel')
        refine ⟨fun hne => ?_, fun _ => ⟨j1, frame_trans pm pd _ _ _ hfr' j2, j3⟩⟩
        obtain ⟨k1, k2, k3⟩ := i1 hne
        exact ⟨k1, k2, frame_trans pm pd _ _ _ hfr' k3⟩
      · simp only [Option.some.injEq] at h
        obtain ⟨c1, c2, c3⟩ := clear_rcvtimeo_frame pm pd w1 timeout
        refine fin (clear_rcvtimeo w1 timeout) ?_ ?_ MESSAGE_STATUS_ZERO (by decide) h.symm
        · rw [released_congr w1 _ pm pd n c1 c2 c3]
          exact hrel
        · exact frame_trans pm pd _ _ _ hfr (frame_of_heap pm pd w1 _ c1 c2 c3)
      · obtain ⟨w', hx, hr', hf'⟩ :=
          read_message_exit_released w1 pm pd n timeout msg rest hrel
        rw [hx] at h
        simp only [Option.some.injEq] at h
        exact fin w' hr' (frame_trans pm pd _ _ _ hfr hf') MESSAGE_STATUS_ERROR (by decide)
          h.symm

/-- What `ssl_read_message` leaves behind: as `read_message_loop_inv`. -/
theorem ssl_read_message_loop_inv (pm pd : Ptr) (n : Nat) (timeout start_time : Int) :
    ∀ (script : List ReadOutcome) (w : World) (keep_read : Bool) (msg : Option Ptr)
      (res : ReadResult),
      w.live pm pd n = true →
      ssl_read_message_loop timeout start_time w keep_read script msg = some res →
      (res.status ≠ MESSAGE_STATUS_OK →
          res.world.released pm pd n = true ∧ res.msg = msg ∧ Frame pm pd w res.world)
        ∧ (w.ready pm pd n = true →
            res.world.ready pm pd n = true ∧ Frame pm pd w res.world
              ∧ (res.status = MESSAGE_STATUS_OK →
                  res.msg = some pm
                    ∧ ∃ hdr, res.world.loadMsg pm = some hdr ∧ 0 < hdr.length
                        ∧ hdr.length ≤ n ∧ hdr.max_length = n)) := by
  intro script
  induction script with
  | nil =>
    intro w keep_read msg res _ h
    simp [ssl_read_message_loop] at h
  | cons r rest ih =>
    intro w keep_read msg res hlive h
    by_cases hpos : 0 < r.numbytes
    · have hst :=
        ssl_read_message_loop_pos_status w timeout start_time keep_read r rest msg res hpos h
      refine ⟨fun hne => absurd hst hne, fun hready => ?_⟩
      obtain ⟨-, a2, -, a4, a5, hdr, a6, a7, a8, a9⟩ :=
        ssl_read_message_loop_pos w pm pd n timeout start_time keep_read r rest msg res
          hready hpos h
      exact ⟨a4, a5, fun _ => ⟨a2, hdr, a6, by omega, by omega, a9⟩⟩
    · obtain ⟨w1, hrel, hfr, -, -, heq⟩ :=
        ssl_read_message_loop_fail w pm pd n timeout start_time keep_read r rest msg hlive
          (by omega)
      rw [heq] at h
      have fin : ∀ w' : World, w'.released pm pd n = true → Frame pm pd w w' →
          ∀ st, st ≠ MESSAGE_STATUS_OK → res = ⟨w', st, msg, rest⟩ →
          (res.status ≠ MESSAGE_STATUS_OK →
              res.world.released pm pd n = true ∧ res.msg = msg ∧ Frame pm pd w res.world)
            ∧ (w.ready pm pd n = true →
                res.world.ready pm pd n = true ∧ Frame pm pd w res.world
                  ∧ (res.status = MESSAGE_STATUS_OK →
                      res.msg = some pm
                        ∧ ∃ hdr, res.world.loadMsg pm = some hdr ∧ 0 < hdr.length
                            ∧ hdr.length ≤ n ∧ hdr.max_length = n)) := by
        intro w' hr hf st hst hres
        subst hres
        exact ⟨fun _ => ⟨hr, rfl, hf⟩,
          fun _ => ⟨released_ready w' pm pd n hr, hf, fun hc => absurd hc hst⟩⟩
      have retry : ∀ k : Bool,
          ssl_read_message_loop timeout start_time w1 k rest msg = some res →
          (res.status ≠ MESSAGE_STATUS_OK →
              res.world.released pm pd n = true ∧ res.msg = msg ∧ Frame pm pd w res.world)
            ∧ (w.ready pm pd n = true →
                res.world.ready pm pd n = true ∧ Frame pm pd w res.world
                  ∧ (res.status = MESSAGE_STATUS_OK →
                      res.msg = some pm
                        ∧ ∃ hdr, res.world.loadMsg pm = some hdr ∧ 0 < hdr.length
                            ∧ hdr.length ≤ n ∧ hdr.max_length = n)) := by
        intro k hk
        obtain ⟨i1, i2⟩ := ih w1 k msg res (released_live _ pm pd n hrel) hk
        obtain ⟨j1, j2, j3⟩ := i2 (released_ready _ pm pd n hrel)
        refine ⟨fun hne => ?_, fun _ => ⟨j1, frame_trans pm pd _ _ _ hfr j2, j3⟩⟩
        obtain ⟨k1, k2, k3⟩ := i1 hne
        exact ⟨k1, k2, frame_trans pm pd _ _ _ hfr k3⟩
      split_ifs at h with c1 c2 c3 c4 c5 c6
      · simp only [Option.some.injEq] at h
        exact fin w1 hrel hfr MESSAGE_STATUS_ZERO (by decide) h.symm
      · exact retry _ h
      · exact retry _ h
      · simp only [Option.some.injEq] at h
        refine fin { w1 with errno := 0 } ?_ ?_ MESSAGE_STATUS_ERROR (by decide) h.symm
        · rw [released_congr w1 { w1 with errno := 0 } pm pd n rfl rfl rfl]
          exact hrel
        · exact frame_trans pm pd _ _ _ hfr (frame_of_heap pm pd w1 _ rfl rfl rfl)
      · simp only [Option.some.injEq] at h
        exact fin w1 hrel hfr MESSAGE_STATUS_ERROR (by decide) h.symm
      · exact retry _ h
      · simp only [Option.some.injEq] at h
        exact fin w1 hrel hfr MESSAGE_STATUS_ERROR (by decide) h.symm

/-- C12: whenever `read_message` or `ssl_read_message`, called on a live singleton of
capacity `n`, returns a status other than `MESSAGE_STATUS_OK`, the singleton is in the
released state (kind 0, length 0, max_length `n`, `n` zero bytes) and the caller's `*msg` is
what it was before the call; and the calls do return such a status: `read_message` at a
negative read whose error is not would-block, `ssl_read_message` at a failed read with
`SSL_ERROR_SSL`. -/
theorem C12_failed_read_releases_buffer (w : World) (pm pd : Ptr) (n : Nat)
    (hlive : w.live pm pd n = true) :
    (∀ script block timeout msg res,
        read_message w script block timeout msg = some res →
        res.status ≠ MESSAGE_STATUS_OK →
        res.world.released pm pd n = true ∧ res.msg = msg)
      ∧ (∀ script timeout start_time msg res,
          ssl_read_message w script timeout start_time msg = some res →
          res.status ≠ MESSAGE_STATUS_OK →
          res.world.released pm pd n = true ∧ res.msg = msg)
      ∧ (∀ (r : ReadOutcome) rest block timeout msg,
          r.numbytes < 0 → r.err ≠ EAGAIN → r.err ≠ EWOULDBLOCK →
          ∃ w', read_message w (r :: rest) block timeout msg
            = some ⟨w', MESSAGE_STATUS_ERROR, msg, rest⟩)
      ∧ (∀ (r : ReadOutcome) rest timeout start_time msg,
          r.numbytes ≤ 0 → r.err = SSL_ERROR_SSL →
          ∃ w', ssl_read_message w (r :: rest) timeout start_time msg
            = some ⟨w', MESSAGE_STATUS_ERROR, msg, rest⟩) := by
  have hlive0 : ∀ timeout : Int,
      (if timeout > 0 then setsockopt w timeout else w).live pm pd n = true := by
    intro timeout
    split
    · rw [live_congr w (setsockopt w timeout) pm pd n rfl rfl rfl]
      exact hlive
    · exact hlive
  refine ⟨?_, ?_, ?_, ?_⟩
  · intro script block timeout msg res h hne
    obtain ⟨k1, k2, -⟩ :=
      (read_message_loop_inv pm pd n block timeout script _ msg res (hlive0 timeout) h).1 hne
    exact ⟨k1, k2⟩
  · intro script timeout start_time msg res h hne
    obtain ⟨k1, k2, -⟩ :=
      (ssl_read_message_loop_inv pm pd n timeout start_time script w false msg res hlive
        h).1 hne
    exact ⟨k1, k2⟩
  · intro r rest block timeout msg hneg he1 he2
    obtain ⟨w1, hrel, -, -, herr, heq⟩ :=
      read_message_loop_fail _ pm pd n block timeout r rest msg (hlive0 timeout)
        (le_of_lt hneg)
    rw [if_pos hneg] at herr
    have hc : ¬ ((w1.errno = EAGAIN ∨ w1.errno = EWOULDBLOCK) ∧ block = true) := by
      rw [herr]
      rintro ⟨h | h, -⟩
      · exact he1 h
      · exact he2 h
    have h0 : ¬ r.numbytes = 0 := by omega
    obtain ⟨w', hx, -, -⟩ := read_message_exit_released w1 pm pd n timeout msg rest hrel
    refine ⟨w', ?_⟩
    unfold read_message
    rw [heq, if_neg hc, if_neg h0, hx]
  · intro r rest timeout start_time msg hle he
    obtain ⟨w1, -, -, -, -, heq⟩ :=
      ssl_read_message_loop_fail w pm pd n timeout start_time false r rest msg hlive hle
    refine ⟨w1, ?_⟩
    unfold ssl_read_message
    rw [heq, he]
    rfl

/-- C12 at the singleton of `World.dirty`: a read that fails with `ECONNRESET` (104), and a
TLS read that fails with `SSL_ERROR_SSL`, leave the 8-byte buffer released. -/
theorem C12_failed_read_releases_buffer_witness :
    World.dirty.live 0 1 8 = true
      ∧ (∃ res, read_message World.dirty [⟨-1, [], 104, 0⟩] true 0 (some 7) = some res
          ∧ res.status ≠ MESSAGE_STATUS_OK
          ∧ res.world.released 0 1 8 = true ∧ res.msg = some 7)
      ∧ ∃ res, ssl_read_message World.dirty [⟨-1, [], SSL_ERROR_SSL, 0⟩] 0 0 (some 7)
            = some res
          ∧ res.status ≠ MESSAGE_STATUS_OK
          ∧ res.world.released 0 1 8 = true ∧ res.msg = some 7 := by
  have h := C12_failed_read_releases_buffer World.dirty 0 1 8 (by decide)
  obtain ⟨w1, h1⟩ := h.2.2.1 ⟨-1, [], 104, 0⟩ [] true 0 (some 7) (by decide) (by decide)
    (by decide)
  obtain ⟨w2, h2⟩ := h.2.2.2 ⟨-1, [], SSL_ERROR_SSL, 0⟩ [] 0 0 (some 7) (by decide) rfl
  exact ⟨by decide,
    ⟨_, h1, by simp, h.1 _ true 0 (some 7) _ h1 (by simp)⟩,
    ⟨_, h2, by simp, h.2.1 _ 0 0 (some 7) _ h2 (by simp)⟩⟩

/-! ## Claim C14: the connection probe -/

theorem byte_Q : ((chr 'Q') % 256).toNat = 81 := by decide

theorem connection_isvalid_locals_spec (w : World) :
    connection_isvalid_locals w
      = some (⟨w.heap ++ [some (Obj.msg
                  { kind := chr 'Q', length := 15, max_length := 0,
                    data := some (w.heap.length + 1) }),
                some (Obj.buf ([81] ++ be32 14 ++ lit "SELECT 1;" ++ [0]))],
              w.message, w.data, w.errno, w.rcvtimeo, w.uninit, w.uninit_byte⟩,
            w.heap.length) := by
  unfold connection_isvalid_locals
  simp only [pgexporter_write_int32, pgexporter_write_string, pgexporter_write_byte, byte_Q,
    malloc_pair, Option.bind_eq_bind, Option.some_bind, memsetMsg_tail, mallocMsg_snd,
    take_strlen (lit "SELECT 1;") (by decide)]
  rw [memset_tail _ _ _ _ _ _ _ _ _ _ _ (by simp)]
  simp only [Option.some_bind]
  rw [writeBytes_tail _ _ _ _ _ _ _ _ _ _ _ _ 0 14
    (by first | omega | (simp [lit] <;> omega)) (by first | omega | (simp [lit] <;> omega))]
  simp only [Option.some_bind]
  rw [writeBytes_tail _ _ _ _ _ _ _ _ _ _ _ _ 0 10
    (by first | omega | (simp [lit] <;> omega)) (by first | omega | (simp [lit] <;> omega))]
  simp only [Option.some_bind]
  rw [writeBytes_tail _ _ _ _ _ _ _ _ _ _ _ _ 0 1
    (by first | omega | (simp [lit] <;> omega)) (by first | omega | (simp [lit] <;> omega))]
  simp only [Option.some_bind, setKind_tail, setLength_tail, setData_tail]
  simp

theorem write_message_loop_world (L : Int) :
    ∀ (ws : List WriteOutcome) (w : World) (o t rem : Int) (r : WriteResult),
      write_message_loop L w ws o t rem = some r →
      r.world.heap = w.heap ∧ r.world.message = w.message ∧ r.world.data = w.data := by
  intro ws
  induction ws with
  | nil =>
    intro w o t rem r h
    simp [write_message_loop] at h
  | cons x rest ih =>
    intro w o t rem r h
    have hw : ∀ c : Prop, ∀ _ : Decidable c,
        (if c then ({ w with errno := x.err } : World) else w).heap = w.heap
          ∧ (if c then ({ w with errno := x.err } : World) else w).message = w.message
          ∧ (if c then ({ w with errno := x.err } : World) else w).data = w.data := by
      intro c _
      split <;> exact ⟨rfl, rfl, rfl⟩
    simp only [write_message_loop] at h
    split_ifs at h
    all_goals first
      | (simp only [Option.some.injEq] at h
         subst h
         first
           | exact ⟨rfl, rfl, rfl⟩
           | exact hw _ _)
      | (simp only [Option.map_eq_some'] at h
         obtain ⟨r', hr', rfl⟩ := h
         obtain ⟨a, b, c⟩ := ih _ _ _ _ _ hr'
         exact ⟨a, b, c⟩)

theorem released_put_ne (w : World) (pm pd : Ptr) (n : Nat) (q : Ptr) (x : Option Obj)
    (h1 : q ≠ pm) (h2 : q ≠ pd) : (w.put q x).released pm pd n = w.released pm pd n := by
  simp only [World.released, put_loadMsg_ne _ _ _ _ (Ne.symm h1),
    put_loadBuf_ne _ _ _ _ (Ne.symm h2), put_message, put_data]

/-- The locals of a function go out of scope: the singleton is not touched. -/
theorem leave_locals_spec (v : World) (msg d pm pd : Ptr) (n : Nat) (m : message_t) (o : Obj)
    (hm : v.loadMsg msg = some m) (hd : m.data = some d) (ho : v.load d = some o)
    (hne : d ≠ msg) (h1 : msg ≠ pm) (h2 : msg ≠ pd) (h3 : d ≠ pm) (h4 : d ≠ pd) :
    ∃ v', leave_locals v msg = some v' ∧ v'.released pm pd n = v.released pm pd n := by
  have hl : (v.put d none).load msg = some (Obj.msg m) := by
    rw [put_load_ne v d msg none (Ne.symm hne)]
    exact (loadMsg_load v msg m).mp hm
  refine ⟨(v.put d none).put msg none, ?_, ?_⟩
  · simp only [leave_locals, hm, hd, free_eq v d o ho, free_eq _ msg _ hl,
      Option.bind_eq_bind, Option.some_bind]
  · rw [released_put_ne _ pm pd n msg none h1 h2, released_put_ne _ pm pd n d none h3 h4]

theorem ready_append (w : World) (pm pd : Ptr) (n : Nat) (t : List (Option Obj))
    (h : w.ready pm pd n = true) :
    World.ready ⟨w.heap ++ t, w.message, w.data, w.errno, w.rcvtimeo, w.uninit,
      w.uninit_byte⟩ pm pd n = true := by
  obtain ⟨hlive, hdr, hm, hd⟩ := (ready_iff w pm pd n).mp h
  obtain ⟨hmsg, hdata, -, ⟨b, hb, hbl⟩⟩ := (live_iff w pm pd n).mp hlive
  have hlm := loadMsg_lt w pm hdr hm
  have hlb := loadBuf_lt w pd b hb
  simp only [World.ready, World.live, loadMsg_append _ _ _ _ _ _ _ _ w rfl pm hlm,
    loadBuf_append _ _ _ _ _ _ _ _ w rfl pd hlb] at h ⊢
  exact h

/-- C14: on a ready singleton, `pgexporter_connection_isvalid` hands `write_message` a
message of kind 'Q' and length 15 whose bytes are 'Q' (81), the big-endian int32 14,
"SELECT 1;" and one zero byte; it returns false when the write does not return
`MESSAGE_STATUS_OK` and when the blocking read that follows does not; when both do, the
reply is the singleton message, the value returned is true exactly when the reply's kind is
not 'E', and the singleton is in the released state at the return.  So the value returned is
true if and only if the write is OK, the read is OK and the reply's kind is not 'E'. -/
theorem C14_connection_isvalid (w : World) (pm pd : Ptr) (n : Nat)
    (wscript : List WriteOutcome) (rscript : List ReadOutcome)
    (hready : w.ready pm pd n = true) :
    ∃ w1 msg valid bytes,
      connection_isvalid_locals w = some (w1, msg)
        ∧ w1.view msg
            = some ({ kind := chr 'Q', length := 15, max_length := 0, data := some valid },
                bytes)
        ∧ bytes = [(chr 'Q').toNat] ++ be32 14 ++ lit "SELECT 1;" ++ [0]
        ∧ bytes.length = 15
        ∧ (∀ r, write_message w1 wscript msg = some r → r.status ≠ MESSAGE_STATUS_OK →
            ∃ w', pgexporter_connection_isvalid w wscript rscript
              = some ⟨w', false, r.calls, r.rest, rscript⟩)
        ∧ (∀ r rr, write_message w1 wscript msg = some r → r.status = MESSAGE_STATUS_OK →
            read_message r.world rscript true 0 none = some rr →
            (rr.status ≠ MESSAGE_STATUS_OK →
              ∃ w', pgexporter_connection_isvalid w wscript rscript
                = some ⟨w', false, r.calls, r.rest, rr.rest⟩)
            ∧ (rr.status = MESSAGE_STATUS_OK →
              ∃ w' reply, rr.msg = some pm ∧ rr.world.loadMsg pm = some reply
                ∧ pgexporter_connection_isvalid w wscript rscript
                    = some ⟨w', decide (reply.kind ≠ chr 'E'), r.calls, r.rest, rr.rest⟩
                ∧ w'.released pm pd n = true))
        ∧ (∀ res, pgexporter_connection_isvalid w wscript rscript = some res →
            (res.valid = true ↔
              ∃ r rr reply, write_message w1 wscript msg = some r
                ∧ r.status = MESSAGE_STATUS_OK
                ∧ read_message r.world rscript true 0 none = some rr
                ∧ rr.status = MESSAGE_STATUS_OK
                ∧ rr.msg = some pm ∧ rr.world.loadMsg pm = some reply
                ∧ reply.kind ≠ chr 'E')) := by
  have hspec := connection_isvalid_locals_spec w
  obtain ⟨hlive, hdr0, hm0, hd0⟩ := (ready_iff w pm pd n).mp hready
  obtain ⟨-, -, -, ⟨b0, hb0, -⟩⟩ := (live_iff w pm pd n).mp hlive
  have hlm : pm < w.heap.length := loadMsg_lt w pm hdr0 hm0
  have hlb : pd < w.heap.length := loadBuf_lt w pd b0 hb0
  have n1 : w.heap.length ≠ pm := Nat.ne_of_gt hlm
  have n2 : w.heap.length ≠ pd := Nat.ne_of_gt hlb
  have n3 : w.heap.length + 1 ≠ pm := Nat.ne_of_gt (Nat.lt_succ_of_lt hlm)
  have n4 : w.heap.length + 1 ≠ pd := Nat.ne_of_gt (Nat.lt_succ_of_lt hlb)
  generalize hw1 : (⟨w.heap ++ [some (Obj.msg
      { kind := chr 'Q', length := 15, max_length := 0, data := some (w.heap.length + 1) }),
      some (Obj.buf ([81] ++ be32 14 ++ lit "SELECT 1;" ++ [0]))],
      w.message, w.data, w.errno, w.rcvtimeo, w.uninit, w.uninit_byte⟩ : World) = w1
      at hspec
  have hrd1 : w1.ready pm pd n = true := by
    rw [← hw1]
    exact ready_append w pm pd n _ hready
  have hmsg1 : w1.loadMsg w.heap.length
      = some { kind := chr 'Q', length := 15, max_length := 0,
               data := some (w.heap.length + 1) } := by
    rw [← hw1]
    exact loadMsg_tail _ _ _ _ _ _ _ _ _
  have hbuf1 : w1.load (w.heap.length + 1)
      = some (Obj.buf ([81] ++ be32 14 ++ lit "SELECT 1;" ++ [0])) := by
    rw [← hw1]
    exact (loadBuf_load _ _ _).mp (loadBuf_tail _ _ _ _ _ _ _ _ _)
  have hview1 : w1.view w.heap.length
      = some ({ kind := chr 'Q', length := 15, max_length := 0,
                data := some (w.heap.length + 1) },
          [81] ++ be32 14 ++ lit "SELECT 1;" ++ [0]) := by
    rw [← hw1]
    exact view_tail _ _ _ _ _ _ _ _ _ rfl
  -- the state after the write
  have hwrite : ∀ r, write_message w1 wscript w.heap.length = some r →
      r.world.ready pm pd n = true
        ∧ ∀ v, Frame pm pd r.world v →
            ∃ v', leave_locals v w.heap.length = some v'
              ∧ v'.released pm pd n = v.released pm pd n := by
    intro r hr
    simp only [write_message, hmsg1, Option.bind_eq_bind, Option.some_bind] at hr
    obtain ⟨e1, e2, e3⟩ := write_message_loop_world _ _ _ _ _ _ _ hr
    refine ⟨by rw [ready_congr w1 r.world pm pd n e1 e2 e3]; exact hrd1, ?_⟩
    intro v hv
    have l1 : v.load w.heap.length = w1.load w.heap.length :=
      (hv.2.2.2 _ n1 n2).trans (load_congr w1 r.world _ e1)
    have l2 : v.load (w.heap.length + 1) = w1.load (w.heap.length + 1) :=
      (hv.2.2.2 _ n3 n4).trans (load_congr w1 r.world _ e1)
    exact leave_locals_spec v w.heap.length (w.heap.length + 1) pm pd n _ _
      ((loadMsg_load _ _ _).mpr (l1.trans ((loadMsg_load _ _ _).mp hmsg1))) rfl
      (l2.trans hbuf1) (Nat.succ_ne_self _) n1 n2 n3 n4
  have hA : ∀ r, write_message w1 wscript w.heap.length = some r →
      r.status ≠ MESSAGE_STATUS_OK →
      ∃ w', pgexporter_connection_isvalid w wscript rscript
        = some ⟨w', false, r.calls, r.rest, rscript⟩ := by
    intro r hr hne
    obtain ⟨-, hfin⟩ := hwrite r hr
    obtain ⟨v', hv', -⟩ := hfin r.world (frame_refl pm pd _)
    refine ⟨v', ?_⟩
    simp only [pgexporter_connection_isvalid, hspec, Option.bind_eq_bind, Option.some_bind,
      hr, if_pos hne, connection_isvalid_error, hv']
  have hB : ∀ r rr, write_message w1 wscript w.heap.length = some r →
      r.status = MESSAGE_STATUS_OK →
      read_message r.world rscript true 0 none = some rr →
      (rr.status ≠ MESSAGE_STATUS_OK →
        ∃ w', pgexporter_connection_isvalid w wscript rscript
          = some ⟨w', false, r.calls, r.rest, rr.rest⟩)
      ∧ (rr.status = MESSAGE_STATUS_OK →
        ∃ w' reply, rr.msg = some pm ∧ rr.world.loadMsg pm = some reply
          ∧ pgexporter_connection_isvalid w wscript rscript
              = some ⟨w', decide (reply.kind ≠ chr 'E'), r.calls, r.rest, rr.rest⟩
          ∧ w'.released pm pd n = true) := by
    intro r rr hr hok hrr
    obtain ⟨hrd, hfin⟩ := hwrite r hr
    have hnn : ¬ r.status ≠ MESSAGE_STATUS_OK := fun h => h hok
    have hloop : read_message_loop true 0 r.world rscript none = some rr := by
      simpa [read_message] using hrr
    obtain ⟨i1, i2⟩ := read_message_loop_inv pm pd n true 0 rscript r.world none rr
      ((ready_iff _ pm pd n).mp hrd).1 hloop
    obtain ⟨j1, j2, j3⟩ := i2 hrd
    constructor
    · intro hne
      obtain ⟨-, k2, -⟩ := i1 hne
      obtain ⟨v', hv', -⟩ := hfin rr.world j2
      refine ⟨v', ?_⟩
      simp only [pgexporter_connection_isvalid, hspec, Option.bind_eq_bind, Option.some_bind,
        hr, if_neg hnn, hrr, if_pos hne, connection_isvalid_error, k2, hv']
    · intro hok2
      obtain ⟨k1, reply, k2, -⟩ := j3 hok2
      obtain ⟨v, hv1, hv2, -, -, hv5⟩ :=
        memory_free_spec rr.world pm pd n ((ready_iff _ pm pd n).mp j1).1
      obtain ⟨v', hv', hrel'⟩ := hfin v (frame_trans pm pd _ _ _ j2 hv5)
      have hnn2 : ¬ rr.status ≠ MESSAGE_STATUS_OK := fun h => h hok2
      refine ⟨v', reply, k1, k2, ?_, by rw [hrel']; exact hv2⟩
      by_cases hk : reply.kind = chr 'E'
      · simp only [pgexporter_connection_isvalid, hspec, Option.bind_eq_bind,
          Option.some_bind, hr, if_neg hnn, hrr, if_neg hnn2, k1, k2, if_pos hk,
          connection_isvalid_error, pgexporter_free_message, hv1, hv']
        simp [hk]
      · simp only [pgexporter_connection_isvalid, hspec, Option.bind_eq_bind,
          Option.some_bind, hr, if_neg hnn, hrr, if_neg hnn2, k1, k2, if_neg hk,
          pgexporter_free_message, hv1, hv']
        simp [hk]
  refine ⟨w1, w.heap.length, w.heap.length + 1, _, hspec, hview1, rfl, by decide, hA, hB, ?_⟩
  intro res hres
  have hx := hres
  simp only [pgexporter_connection_isvalid, hspec, Option.bind_eq_bind, Option.some_bind,
    Option.bind_eq_some] at hx
  obtain ⟨r, hr, hx⟩ := hx
  by_cases hok : r.status = MESSAGE_STATUS_OK
  · have hnn : ¬ r.status ≠ MESSAGE_STATUS_OK := fun h => h hok
    rw [if_neg hnn] at hx
    simp only [Option.bind_eq_some] at hx
    obtain ⟨rr, hrr, -⟩ := hx
    obtain ⟨b1, b2⟩ := hB r rr hr hok hrr
    by_cases hok2 : rr.status = MESSAGE_STATUS_OK
    · obtain ⟨w', reply, c1, c2, c3, -⟩ := b2 hok2
      rw [c3] at hres
      simp only [Option.some.injEq] at hres
      subst hres
      constructor
      · intro hv
        exact ⟨r, rr, reply, hr, hok, hrr, hok2, c1, c2, by simpa using hv⟩
      · rintro ⟨r', rr', reply', d1, -, d3, -, -, d6, d7⟩
        rw [hr] at d1
        simp only [Option.some.injEq] at d1
        subst d1
        rw [hrr] at d3
        simp only [Option.some.injEq] at d3
        subst d3
        rw [c2] at d6
        simp only [Option.some.injEq] at d6
        subst d6
        simpa using d7
    · obtain ⟨w', c3⟩ := b1 hok2
      rw [c3] at hres
      simp only [Option.some.injEq] at hres
      subst hres
      constructor
      · intro hv
        simp at hv
      · rintro ⟨r', rr', reply', d1, -, d3, d4, -⟩
        rw [hr] at d1
        simp only [Option.some.injEq] at d1
        subst d1
        rw [hrr] at d3
        simp only [Option.some.injEq] at d3
        subst d3
        exact absurd d4 hok2
  · obtain ⟨w', c3⟩ := hA r hr hok
    rw [c3] at hres
    simp only [Option.some.injEq] at hres
    subst hres
    constructor
    · intro hv
      simp at hv
    · rintro ⟨r', rr', reply', d1, d2, -⟩
      rw [hr] at d1
      simp only [Option.some.injEq] at d1
      subst d1
      exact absurd d2 hok

/-- C14 at the singleton of `World.dirty`: a write accepted at once and a reply of three
bytes of kind 'T' make the probe return true with the singleton released. -/
theorem C14_connection_isvalid_witness :
    World.dirty.ready 0 1 8 = true
      ∧ (∃ w1 msg valid bytes,
          connection_isvalid_locals World.dirty = some (w1, msg)
            ∧ w1.view msg
                = some ({ kind := chr 'Q', length := 15, max_length := 0, data := some valid },
                    bytes)
            ∧ bytes = [(chr 'Q').toNat] ++ be32 14 ++ lit "SELECT 1;" ++ [0]
            ∧ bytes.length = 15)
      ∧ (pgexporter_connection_isvalid World.dirty [⟨15, 0⟩] [⟨3, [84, 0, 0], 0, 0⟩]).map
          (fun res => (res.valid, res.world.released 0 1 8, res.calls))
          = some (true, true, [⟨0, 15⟩]) := by
  obtain ⟨w1, msg, valid, bytes, h1, h2, h3, h4, -⟩ :=
    C14_connection_isvalid World.dirty 0 1 8 [⟨15, 0⟩] [⟨3, [84, 0, 0], 0, 0⟩] (by decide)
  exact ⟨by decide, ⟨w1, msg, valid, bytes, h1, h2, h3, h4⟩, by decide⟩

/-! ## Claim C20: length and max_length -/

theorem byte_N : ((chr 'N') % 256).toNat = 78 := by decide

theorem byte_S : ((chr 'S') % 256).toNat = 83 := by decide

theorem write_empty_locals_spec (w : World) :
    write_empty_locals w
      = some (⟨w.heap ++ [some (Obj.msg
                  { kind := 0, length := 1, max_length := 0,
                    data := some (w.heap.length + 1) }),
                some (Obj.buf [0])],
              w.message, w.data, w.errno, w.rcvtimeo, w.uninit, w.uninit_byte⟩,
            w.heap.length) := by
  unfold write_empty_locals
  simp only [malloc_pair, Option.bind_eq_bind, Option.some_bind, memsetMsg_tail,
    mallocMsg_snd]
  rw [memset_tail _ _ _ _ _ _ _ _ _ _ _ (by simp)]
  simp only [Option.some_bind, setKind_tail, setLength_tail, setData_tail]
  simp

theorem write_notice_locals_spec (w : World) :
    write_notice_locals w
      = some (⟨w.heap ++ [some (Obj.msg
                  { kind := chr 'N', length := 1, max_length := 0,
                    data := some (w.heap.length + 1) }),
                some (Obj.buf [78])],
              w.message, w.data, w.errno, w.rcvtimeo, w.uninit, w.uninit_byte⟩,
            w.heap.length) := by
  unfold write_notice_locals
  simp only [byte_N, malloc_pair, Option.bind_eq_bind, Option.some_bind, memsetMsg_tail,
    mallocMsg_snd]
  rw [memset_tail _ _ _ _ _ _ _ _ _ _ _ (by simp)]
  simp only [Option.some_bind]
  rw [writeBytes_tail_full _ _ _ _ _ _ _ _ _ _ (by simp)]
  simp only [Option.some_bind, setKind_tail, setLength_tail, setData_tail]

theorem write_tls_locals_spec (w : World) :
    write_tls_locals w
      = some (⟨w.heap ++ [some (Obj.msg
                  { kind := chr 'S', length := 1, max_length := 0,
                    data := some (w.heap.length + 1) }),
                some (Obj.buf [83])],
              w.message, w.data, w.errno, w.rcvtimeo, w.uninit, w.uninit_byte⟩,
            w.heap.length) := by
  unfold write_tls_locals
  simp only [byte_S, malloc_pair, Option.bind_eq_bind, Option.some_bind, memsetMsg_tail,
    mallocMsg_snd]
  rw [memset_tail _ _ _ _ _ _ _ _ _ _ _ (by simp)]
  simp only [Option.some_bind]
  rw [writeBytes_tail_full _ _ _ _ _ _ _ _ _ _ (by simp)]
  simp only [Option.some_bind, setKind_tail, setLength_tail, setData_tail]

theorem write_connection_refused_old_locals_spec (w : World) :
    write_connection_refused_old_locals w
      = some (⟨w.heap ++ [some (Obj.msg
                  { kind := chr 'E', length := 20, max_length := 0,
                    data := some (w.heap.length + 1) }),
                some (Obj.buf ([69] ++ lit "connection refused" ++ [0]))],
              w.message, w.data, w.errno, w.rcvtimeo, w.uninit, w.uninit_byte⟩,
            w.heap.length) := by
  unfold write_connection_refused_old_locals
  simp only [pgexporter_write_string, pgexporter_write_byte, byte_E,
    malloc_pair, Option.bind_eq_bind, Option.some_bind, memsetMsg_tail, mallocMsg_snd,
    take_strlen (lit "connection refused") (by decide)]
  rw [memset_tail _ _ _ _ _ _ _ _ _ _ _ (by simp)]
  simp only [Option.some_bind]
  rw [writeBytes_tail _ _ _ _ _ _ _ _ _ _ _ _ 0 19
    (by first | omega | (simp [lit] <;> omega)) (by first | omega | (simp [lit] <;> omega))]
  simp only [Option.some_bind]
  rw [writeBytes_tail _ _ _ _ _ _ _ _ _ _ _ _ 0 1
    (by first | omega | (simp [lit] <;> omega)) (by first | omega | (simp [lit] <;> omega))]
  simp only [Option.some_bind, setKind_tail, setLength_tail, setData_tail]
  simp

theorem bounded_of_released (w : World) (pm pd : Ptr) (n : Nat)
    (h : w.released pm pd n = true) : Bounded w := by
  obtain ⟨-, -, h3, -⟩ := (released_iff w pm pd n).mp h
  exact Or.inr ⟨pm, pd, n, _, released_ready w pm pd n h, h3, by simp⟩

theorem read_message_loop_null (block : Bool) (timeout : Int) (w : World)
    (script : List ReadOutcome) (msg : Option Ptr) (h : w.message = none) :
    read_message_loop block timeout w script msg = none := by
  cases script with
  | nil => simp [read_message_loop]
  | cons r rest => simp [read_message_loop, pgexporter_memory_message, h]

theorem ssl_read_message_loop_null (timeout start_time : Int) (w : World) (keep_read : Bool)
    (script : List ReadOutcome) (msg : Option Ptr) (h : w.message = none) :
    ssl_read_message_loop timeout start_time w keep_read script msg = none := by
  cases script with
  | nil => simp [ssl_read_message_loop]
  | cons r rest => simp [ssl_read_message_loop, pgexporter_memory_message, h]

/-- What a read leaves is bounded, for both transports. -/
theorem bounded_of_read (pm pd : Ptr) (n : Nat) (w : World) (res : ReadResult)
    (hinv : (res.status ≠ MESSAGE_STATUS_OK →
          res.world.released pm pd n = true ∧ res.msg = none ∧ Frame pm pd w res.world)
        ∧ (w.ready pm pd n = true →
            res.world.ready pm pd n = true ∧ Frame pm pd w res.world
              ∧ (res.status = MESSAGE_STATUS_OK →
                  res.msg = some pm
                    ∧ ∃ hdr, res.world.loadMsg pm = some hdr ∧ 0 < hdr.length
                        ∧ hdr.length ≤ n ∧ hdr.max_length = n)))
    (hready : w.ready pm pd n = true) : Bounded res.world := by
  obtain ⟨i1, i2⟩ := hinv
  by_cases hok : res.status = MESSAGE_STATUS_OK
  · obtain ⟨j1, -, j3⟩ := i2 hready
    obtain ⟨-, hdr, k1, -, k3, k4⟩ := j3 hok
    exact Or.inr ⟨pm, pd, n, hdr, j1, k1, by rw [k4]; exact k3⟩
  · exact bounded_of_released _ pm pd n (i1 hok).1

/-- Every operation on the singleton keeps it bounded. -/
theorem run_ops_bounded : ∀ (ops : List MemOp) (w w' : World),
    Bounded w → run_ops w ops = some w' → Bounded w' := by
  intro ops
  induction ops with
  | nil =>
    intro w w' hb h
    simp only [run_ops, Option.some.injEq] at h
    subst h
    exact hb
  | cons op ops ih =>
    intro w w' hb h
    cases op with
    | size k =>
      simp only [run_ops, Option.bind_eq_some] at h
      obtain ⟨w1, h1, h2⟩ := h
      refine ih w1 w' ?_ h2
      have hs : ∃ pm pd j, w.live pm pd j = true ∨ w.destroyed = true := by
        rcases hb with hb | ⟨pm, pd, j, -, hr, -⟩
        · exact ⟨0, 0, 0, Or.inr hb⟩
        · exact ⟨pm, pd, j, Or.inl ((ready_iff w pm pd j).mp hr).1⟩
      obtain ⟨pm, pd, j, hs⟩ := hs
      obtain ⟨w2, g1, g2, -⟩ := memory_size_spec w pm pd j k hs
      rw [g1] at h1
      simp only [Option.some.injEq] at h1
      subst h1
      exact bounded_of_released _ _ _ _ g2
    | free =>
      simp only [run_ops, Option.bind_eq_some] at h
      obtain ⟨w1, h1, h2⟩ := h
      refine ih w1 w' ?_ h2
      rcases hb with hb | ⟨pm, pd, j, -, hr, -⟩
      · obtain ⟨hm, -⟩ := (destroyed_iff w).mp hb
        simp [pgexporter_memory_free, hm] at h1
      · obtain ⟨w2, g1, g2, -⟩ := memory_free_spec w pm pd j ((ready_iff w pm pd j).mp hr).1
        rw [g1] at h1
        simp only [Option.some.injEq] at h1
        subst h1
        exact bounded_of_released _ _ _ _ g2
    | read script block timeout =>
      simp only [run_ops, Option.bind_eq_some] at h
      obtain ⟨res, h1, h2⟩ := h
      refine ih res.world w' ?_ h2
      unfold read_message at h1
      rcases hb with hb | ⟨pm, pd, j, -, hr, -⟩
      · obtain ⟨hm, -⟩ := (destroyed_iff w).mp hb
        rw [read_message_loop_null block timeout _ script none
          (by split <;> exact hm)] at h1
        simp at h1
      · have hr0 : (if timeout > 0 then setsockopt w timeout else w).ready pm pd j = true := by
          split
          · rw [ready_congr w (setsockopt w timeout) pm pd j rfl rfl rfl]
            exact hr
          · exact hr
        exact bounded_of_read pm pd j _ res
          (read_message_loop_inv pm pd j block timeout script _ none res
            ((ready_iff _ pm pd j).mp hr0).1 h1) hr0
    | ssl_read script timeout start_time =>
      simp only [run_ops, Option.bind_eq_some] at h
      obtain ⟨res, h1, h2⟩ := h
      refine ih res.world w' ?_ h2
      unfold ssl_read_message at h1
      rcases hb with hb | ⟨pm, pd, j, -, hr, -⟩
      · obtain ⟨hm, -⟩ := (destroyed_iff w).mp hb
        rw [ssl_read_message_loop_null timeout start_time w false script none hm] at h1
        simp at h1
      · exact bounded_of_read pm pd j _ res
          (ssl_read_message_loop_inv pm pd j timeout start_time script w false none res
            ((ready_iff _ pm pd j).mp hr).1 h1) hr

theorem unsized_tail (h : List (Option Obj)) (kd L : Int) (b : List Nat)
    (ms ds : Option Ptr) (e : Int) (rt : List Int) (u : message_t) (ub : Nat) :
    Unsized L ⟨h ++ [some (Obj.msg
        { kind := kd, length := L, max_length := 0, data := some (h.length + 1) }),
        some (Obj.buf b)], ms, ds, e, rt, u, ub⟩ h.length :=
  ⟨_, loadMsg_tail _ _ _ _ _ _ _ _ _, rfl, rfl⟩

theorem singleton_of_ready (w : World) (pm pd : Ptr) (n : Nat) (hdr : message_t)
    (hr : w.ready pm pd n = true) (hm : w.loadMsg pm = some hdr) :
    ∃ b, w.singleton = some (hdr.kind, hdr.length, hdr.max_length, b) := by
  obtain ⟨hlive, -⟩ := (ready_iff w pm pd n).mp hr
  obtain ⟨hmsg, hdata, -, ⟨b, hb, -⟩⟩ := (live_iff w pm pd n).mp hlive
  exact ⟨b, by simp only [World.singleton, hmsg, hdata, hm, hb, Option.bind_eq_bind,
    Option.some_bind]⟩

/-- C20 as stated fails for the message of `pgexporter_write_terminate`: it is handed to the
transport (which accepts it) with length 5 and max_length 0. -/
theorem C20_counterexample_write_terminate :
    ∃ w m hdr, write_terminate_locals World.init = some (w, m)
      ∧ pgexporter_write_terminate World.init none [⟨5, 0⟩]
          = (pgexporter_write_message w none [⟨5, 0⟩] m).bind (fun r => leave r m)
      ∧ (pgexporter_write_message w none [⟨5, 0⟩] m).map (fun r => r.status)
          = some MESSAGE_STATUS_OK
      ∧ w.loadMsg m = some hdr ∧ hdr.length = 5 ∧ hdr.max_length = 0
      ∧ ¬ (hdr.length ≤ (hdr.max_length : Int)) := by
  refine ⟨_, _, _, write_terminate_locals_spec World.init, ?_, by decide,
    loadMsg_tail _ _ _ _ _ _ _ _ _, rfl, rfl, by decide⟩
  simp only [pgexporter_write_terminate, write_terminate_locals_spec, Option.bind_eq_bind,
    Option.some_bind]

/-- C20, amended: the singleton message satisfies `length <= max_length` after every
sequence of `pgexporter_memory_size`, `pgexporter_memory_free` and reads (through either
transport, successful or not) that starts from a destroyed singleton or from a ready one
that satisfies it.  The messages that the writers (empty, notice, tls, terminate,
connection_refused, connection_refused_old, auth_scram256, auth_success) and
`pgexporter_connection_isvalid` hand to the transport have max_length 0 and length 1, 1, 1,
5, 46, 20, 24, 9 and 15: the inequality does not hold for them. -/
theorem C20_length_within_capacity (w w' : World) (ops : List MemOp)
    (hb : Bounded w) (hrun : run_ops w ops = some w') :
    Bounded w'
      ∧ (w'.destroyed = true
          ∨ ∃ kind length max_length bytes,
              w'.singleton = some (kind, length, max_length, bytes)
                ∧ length ≤ (max_length : Int))
      ∧ ∀ v : World,
          Handed (Unsized 1) (write_empty_locals v)
            ∧ Handed (Unsized 1) (write_notice_locals v)
            ∧ Handed (Unsized 1) (write_tls_locals v)
            ∧ Handed (Unsized 5) (write_terminate_locals v)
            ∧ Handed (Unsized 46) (write_connection_refused_locals v)
            ∧ Handed (Unsized 20) (write_connection_refused_old_locals v)
            ∧ Handed (Unsized 24) (write_auth_scram256_locals v)
            ∧ Handed (Unsized 9) (write_auth_success_locals v)
            ∧ Handed (Unsized 15) (connection_isvalid_locals v) := by
  have hb' := run_ops_bounded ops w w' hb hrun
  refine ⟨hb', ?_, ?_⟩
  · rcases hb' with h | ⟨pm, pd, n, hdr, hr, hm, hle⟩
    · exact Or.inl h
    · obtain ⟨b, hs⟩ := singleton_of_ready w' pm pd n hdr hr hm
      exact Or.inr ⟨_, _, _, b, hs, hle⟩
  · intro v
    exact ⟨⟨_, _, write_empty_locals_spec v, unsized_tail _ _ _ _ _ _ _ _ _ _⟩,
      ⟨_, _, write_notice_locals_spec v, unsized_tail _ _ _ _ _ _ _ _ _ _⟩,
      ⟨_, _, write_tls_locals_spec v, unsized_tail _ _ _ _ _ _ _ _ _ _⟩,
      ⟨_, _, write_terminate_locals_spec v, unsized_tail _ _ _ _ _ _ _ _ _ _⟩,
      ⟨_, _, write_connection_refused_locals_spec v, unsized_tail _ _ _ _ _ _ _ _ _ _⟩,
      ⟨_, _, write_connection_refused_old_locals_spec v, unsized_tail _ _ _ _ _ _ _ _ _ _⟩,
      ⟨_, _, write_auth_scram256_locals_spec v, unsized_tail _ _ _ _ _ _ _ _ _ _⟩,
      ⟨_, _, write_auth_success_locals_spec v, unsized_tail _ _ _ _ _ _ _ _ _ _⟩,
      ⟨_, _, connection_isvalid_locals_spec v, unsized_tail _ _ _ _ _ _ _ _ _ _⟩⟩

/-- C20 at a sequence that starts from nothing: size 8, a read of three bytes, a release, a
failed TLS read, size 4, and a read of four bytes after a retry. -/
theorem C20_length_within_capacity_witness :
    Bounded World.init
      ∧ ∃ w', run_ops World.init
            [MemOp.size 8, MemOp.read [⟨3, [82, 0, 8], 0, 0⟩] true 0, MemOp.free,
              MemOp.ssl_read [⟨0, [], SSL_ERROR_SSL, 0⟩] 0 0, MemOp.size 4,
              MemOp.read [⟨-1, [], 11, 0⟩, ⟨4, [1, 2, 3, 4], 0, 0⟩] true 5] = some w'
          ∧ Bounded w'
          ∧ w'.singleton = some (1, 4, 4, [1, 2, 3, 4]) := by
  have hs : (run_ops World.init
      [MemOp.size 8, MemOp.read [⟨3, [82, 0, 8], 0, 0⟩] true 0, MemOp.free,
        MemOp.ssl_read [⟨0, [], SSL_ERROR_SSL, 0⟩] 0 0, MemOp.size 4,
        MemOp.read [⟨-1, [], 11, 0⟩, ⟨4, [1, 2, 3, 4], 0, 0⟩] true 5]).bind World.singleton
      = some (1, 4, 4, [1, 2, 3, 4]) := by decide
  obtain ⟨w', h1, h2⟩ := Option.bind_eq_some.mp hs
  exact ⟨Or.inl (by decide), w', h1,
    (C20_length_within_capacity World.init w' _ (Or.inl (by decide)) h1).1, h2⟩

/-! ## Claim C23: management identifiers -/

/-- C23: the seven management identifiers of `management.h` are pairwise distinct, they are
the values 1..7 (so each fits in the signed byte of a management frame and is read back from
it unchanged), and `MANAGEMENT_ISALIVE` is 5. -/
theorem C23_management_identifiers :
    List.Nodup [MANAGEMENT_TRANSFER_CONNECTION, MANAGEMENT_STOP, MANAGEMENT_STATUS,
        MANAGEMENT_DETAILS, MANAGEMENT_ISALIVE, MANAGEMENT_RESET, MANAGEMENT_RELOAD]
      ∧ (∀ id ∈ [MANAGEMENT_TRANSFER_CONNECTION, MANAGEMENT_STOP, MANAGEMENT_STATUS,
            MANAGEMENT_DETAILS, MANAGEMENT_ISALIVE, MANAGEMENT_RESET, MANAGEMENT_RELOAD],
          1 ≤ id ∧ id ≤ 7 ∧ -128 ≤ id ∧ id ≤ 127 ∧ signed_char (id % 256).toNat = id)
      ∧ [MANAGEMENT_TRANSFER_CONNECTION, MANAGEMENT_STOP, MANAGEMENT_STATUS,
          MANAGEMENT_DETAILS, MANAGEMENT_ISALIVE, MANAGEMENT_RESET, MANAGEMENT_RELOAD]
          = [1, 2, 3, 4, 5, 6, 7]
      ∧ MANAGEMENT_ISALIVE = 5 := by
  decide

/-! ## Claim C30: the MD5 and the cleartext password responses -/

/-- C30: `pgexporter_create_auth_md5_response` and
`pgexporter_create_auth_password_response` are the same function of the state and the
string: same status, same message (kind, length, data bytes), same resulting state; and for
a NUL-free string of `k` bytes both return `MESSAGE_STATUS_OK` with a message of kind 'p',
length `6 + k` and the same `6 + k` bytes. -/
theorem C30_md5_equals_password_response (w : World) (s : List Nat) :
    pgexporter_create_auth_md5_response w s = pgexporter_create_auth_password_response w s
      ∧ ((∀ b ∈ s, b ≠ 0) →
          ∃ w' m hdr bytes,
            pgexporter_create_auth_md5_response w s = some (w', MESSAGE_STATUS_OK, m)
              ∧ pgexporter_create_auth_password_response w s
                  = some (w', MESSAGE_STATUS_OK, m)
              ∧ w'.view m = some (hdr, bytes)
              ∧ hdr.kind = chr 'p' ∧ hdr.length = ((6 + s.length : Nat) : Int)
              ∧ bytes.length = 6 + s.length) := by
  have h : 1 + 4 + strlen s + 1 = 6 + strlen s := by omega
  constructor
  · unfold pgexporter_create_auth_md5_response pgexporter_create_auth_password_response
    simp only [h]
  · intro hs
    refine ⟨_, _, _, _, md5_spec w s hs, password_spec w s hs,
      view_tail _ _ _ _ _ _ _ _ _ rfl, rfl, rfl, ?_⟩
    simp only [List.length_append, be32_length, List.length_cons, List.length_nil]
    omega

/-- C30 at the string "md5abc". -/
theorem C30_md5_equals_password_response_witness :
    (∀ b ∈ lit "md5abc", b ≠ 0)
      ∧ pgexporter_create_auth_md5_response World.init (lit "md5abc")
          = pgexporter_create_auth_password_response World.init (lit "md5abc")
      ∧ ∃ w' m hdr bytes,
          pgexporter_create_auth_md5_response World.init (lit "md5abc")
              = some (w', MESSAGE_STATUS_OK, m)
            ∧ pgexporter_create_auth_password_response World.init (lit "md5abc")
                = some (w', MESSAGE_STATUS_OK, m)
            ∧ w'.view m = some (hdr, bytes)
            ∧ hdr.kind = chr 'p' ∧ hdr.length = ((6 + (lit "md5abc").length : Nat) : Int)
            ∧ bytes.length = 6 + (lit "md5abc").length :=
  ⟨by decide, (C30_md5_equals_password_response World.init (lit "md5abc")).1,
    (C30_md5_equals_password_response World.init (lit "md5abc")).2 (by decide)⟩

/-! ## Claim C27: the SASL length field of the SCRAM client-first response -/

/-- C27: for every NUL-free nonce `n`, the message built by
`pgexporter_create_auth_scram256_response` has length `31 + |n|` (and that many bytes), with
"SCRAM-SHA-256" at offsets 5..17, zero bytes at offsets 18..21, " n,,n=,r=" at offsets
22..30 and `n` from offset 31; the four bytes at offsets 19..22 decode as the big-endian
int32 32 whatever the nonce, and the text "n,,n=,r=" ++ n that follows at offset 23 has 32
bytes if and only if `|n| = 24`. -/
theorem C27_scram256_response_sasl_length (w : World) (n : List Nat)
    (hn : ∀ b ∈ n, b ≠ 0) :
    ∃ w' m hdr bytes,
      pgexporter_create_auth_scram256_response w n = some (w', MESSAGE_STATUS_OK, m)
        ∧ w'.view m = some (hdr, bytes)
        ∧ hdr.length = ((31 + n.length : Nat) : Int)
        ∧ bytes.length = 31 + n.length
        ∧ (bytes.drop 5).take 13 = lit "SCRAM-SHA-256"
        ∧ (bytes.drop 18).take 4 = [0, 0, 0, 0]
        ∧ (bytes.drop 22).take 9 = lit " n,,n=,r="
        ∧ bytes.drop 31 = n
        ∧ int32_at bytes 19 = some 32
        ∧ bytes.drop 23 = lit "n,,n=,r=" ++ n
        ∧ ((((bytes.drop 23).length : Nat) : Int) = 32 ↔ n.length = 24) := by
  have hb : ∀ i : Int, ∃ a b c d, be32 i = [a, b, c, d] := fun i => ⟨_, _, _, _, rfl⟩
  obtain ⟨a, b, c, d, h⟩ := hb ((30 + n.length : Nat) : Int)
  refine ⟨_, _, _, _, scram256_response_spec w n hn, view_tail _ _ _ _ _ _ _ _ _ rfl, rfl,
    ?_, ?_, ?_, ?_, ?_, ?_, ?_, ?_⟩
  · simp only [List.length_append, be32_length, List.length_cons, List.length_nil,
      lit_scram_length, lit_gs2_length]
  · rw [h]
    rfl
  · rw [h]
    rfl
  · rw [h]
    rfl
  · rw [h]
    rfl
  · rw [h]
    rfl
  · rw [h]
    rfl
  · rw [h]
    have e : List.drop 23 ([112] ++ [a, b, c, d] ++ lit "SCRAM-SHA-256" ++ [0, 0, 0, 0]
        ++ lit " n,,n=,r=" ++ n) = lit "n,,n=,r=" ++ n := rfl
    rw [e, List.length_append]
    have e8 : (lit "n,,n=,r=").length = 8 := by decide
    rw [e8]
    omega

/-- C27 at the nonce "abc": the field at offsets 19..22 reads 32 although 11 bytes follow
it. -/
theorem C27_scram256_response_sasl_length_witness :
    (∀ b ∈ lit "abc", b ≠ 0)
      ∧ ∃ w' m hdr bytes,
          pgexporter_create_auth_scram256_response World.init (lit "abc")
              = some (w', MESSAGE_STATUS_OK, m)
            ∧ w'.view m = some (hdr, bytes)
            ∧ hdr.length = ((31 + (lit "abc").length : Nat) : Int)
            ∧ bytes.length = 31 + (lit "abc").length
            ∧ (bytes.drop 5).take 13 = lit "SCRAM-SHA-256"
            ∧ (bytes.drop 18).take 4 = [0, 0, 0, 0]
            ∧ (bytes.drop 22).take 9 = lit " n,,n=,r="
            ∧ bytes.drop 31 = lit "abc"
            ∧ int32_at bytes 19 = some 32
            ∧ bytes.drop 23 = lit "n,,n=,r=" ++ lit "abc"
            ∧ ((((bytes.drop 23).length : Nat) : Int) = 32 ↔ (lit "abc").length = 24) :=
  ⟨by decide, C27_scram256_response_sasl_length World.init (lit "abc") (by decide)⟩

/-! ## Claim C25: the messages of the fixed-content writers -/

theorem carries_tail (h : List (Option Obj)) (kd L : Int) (mx : Nat) (b : List Nat)
    (ms ds : Option Ptr) (e : Int) (rt : List Int) (u : message_t) (ub : Nat) :
    Carries kd L b ⟨h ++ [some (Obj.msg
        { kind := kd, length := L, max_length := mx, data := some (h.length + 1) }),
        some (Obj.buf b)], ms, ds, e, rt, u, ub⟩ h.length :=
  ⟨_, view_tail _ _ _ _ _ _ _ _ _ rfl, rfl, rfl⟩

/-- C25: the fixed-content writers hand the transport exactly these messages (kind, length,
bytes): `pgexporter_write_empty` (0, 1, one zero byte); `pgexporter_write_notice` ('N', 1,
'N'); `pgexporter_write_tls` ('S', 1, 'S'); `pgexporter_write_terminate` ('X', 5, 'X' and
the big-endian 4); `pgexporter_write_auth_success` ('R', 9, 'R', big-endian 8, big-endian
0); `pgexporter_write_auth_scram256` ('R', 24, 'R', big-endian 23, big-endian 10,
"SCRAM-SHA-256" and two zero bytes); `pgexporter_write_connection_refused_old` ('E', 20,
'E', the 18 characters of "connection refused" and one zero byte).  Each writer is the write
of that message through the transport selected by `ssl`, after which its locals go out of
scope. -/
theorem C25_fixed_writer_messages (w : World) (ssl : Option Ptr)
    (script : List WriteOutcome) :
    (Handed (Carries 0 1 [0]) (write_empty_locals w)
        ∧ Handed (Carries (chr 'N') 1 [(chr 'N').toNat]) (write_notice_locals w)
        ∧ Handed (Carries (chr 'S') 1 [(chr 'S').toNat]) (write_tls_locals w)
        ∧ Handed (Carries (chr 'X') 5 ([(chr 'X').toNat] ++ be32 4))
            (write_terminate_locals w)
        ∧ Handed (Carries (chr 'R') 9 ([(chr 'R').toNat] ++ be32 8 ++ be32 0))
            (write_auth_success_locals w)
        ∧ Handed (Carries (chr 'R') 24
            ([(chr 'R').toNat] ++ be32 23 ++ be32 10 ++ lit "SCRAM-SHA-256" ++ [0, 0]))
            (write_auth_scram256_locals w)
        ∧ Handed (Carries (chr 'E') 20
            ([(chr 'E').toNat] ++ lit "connection refused" ++ [0]))
            (write_connection_refused_old_locals w))
      ∧ (pgexporter_write_empty w ssl script
            = (write_empty_locals w).bind (fun p =>
                (pgexporter_write_message p.1 ssl script p.2).bind (fun r => leave r p.2))
        ∧ pgexporter_write_notice w ssl script
            = (write_notice_locals w).bind (fun p =>
                (pgexporter_write_message p.1 ssl script p.2).bind (fun r => leave r p.2))
        ∧ pgexporter_write_tls w ssl script
            = (write_tls_locals w).bind (fun p =>
                (pgexporter_write_message p.1 ssl script p.2).bind (fun r => leave r p.2))
        ∧ pgexporter_write_terminate w ssl script
            = (write_terminate_locals w).bind (fun p =>
                (pgexporter_write_message p.1 ssl script p.2).bind (fun r => leave r p.2))
        ∧ pgexporter_write_auth_success w ssl script
            = (write_auth_success_locals w).bind (fun p =>
                (pgexporter_write_message p.1 ssl script p.2).bind (fun r => leave r p.2))
        ∧ pgexporter_write_auth_scram256 w ssl script
            = (write_auth_scram256_locals w).bind (fun p =>
                (pgexporter_write_message p.1 ssl script p.2).bind (fun r => leave r p.2))
        ∧ pgexporter_write_connection_refused_old w ssl script
            = (write_connection_refused_old_locals w).bind (fun p =>
                (pgexporter_write_message p.1 ssl script p.2).bind (fun r => leave r p.2)))
      ∧ ([(chr 'N').toNat, (chr 'S').toNat, (chr 'X').toNat, (chr 'R').toNat,
            (chr 'E').toNat] = [78, 83, 88, 82, 69]
          ∧ be32 4 = [0, 0, 0, 4] ∧ be32 8 = [0, 0, 0, 8] ∧ be32 0 = [0, 0, 0, 0]
          ∧ be32 23 = [0, 0, 0, 23] ∧ be32 10 = [0, 0, 0, 10]
          ∧ (lit "SCRAM-SHA-256").length = 13 ∧ (lit "connection refused").length = 18) := by
  refine ⟨⟨⟨_, _, write_empty_locals_spec w, carries_tail _ _ _ _ _ _ _ _ _ _ _⟩,
      ⟨_, _, write_notice_locals_spec w, carries_tail _ _ _ _ _ _ _ _ _ _ _⟩,
      ⟨_, _, write_tls_locals_spec w, carries_tail _ _ _ _ _ _ _ _ _ _ _⟩,
      ⟨_, _, write_terminate_locals_spec w, carries_tail _ _ _ _ _ _ _ _ _ _ _⟩,
      ⟨_, _, write_auth_success_locals_spec w, carries_tail _ _ _ _ _ _ _ _ _ _ _⟩,
      ⟨_, _, write_auth_scram256_locals_spec w, carries_tail _ _ _ _ _ _ _ _ _ _ _⟩,
      ⟨_, _, write_connection_refused_old_locals_spec w,
        carries_tail _ _ _ _ _ _ _ _ _ _ _⟩⟩, ?_, by decide⟩
  refine ⟨?_, ?_, ?_, ?_, ?_, ?_, ?_⟩
  · simp only [pgexporter_write_empty, write_empty_locals_spec, Option.bind_eq_bind,
      Option.some_bind]
  · simp only [pgexporter_write_notice, write_notice_locals_spec, Option.bind_eq_bind,
      Option.some_bind]
  · simp only [pgexporter_write_tls, write_tls_locals_spec, Option.bind_eq_bind,
      Option.some_bind]
  · simp only [pgexporter_write_terminate, write_terminate_locals_spec, Option.bind_eq_bind,
      Option.some_bind]
  · simp only [pgexporter_write_auth_success, write_auth_success_locals_spec,
      Option.bind_eq_bind, Option.some_bind]
  · simp only [pgexporter_write_auth_scram256, write_auth_scram256_locals_spec,
      Option.bind_eq_bind, Option.some_bind]
  · simp only [pgexporter_write_connection_refused_old,
      write_connection_refused_old_locals_spec, Option.bind_eq_bind, Option.some_bind]

/-! ## Claim C21: `pgexporter_free_message` -/

/-- C21 as stated fails when the argument is the singleton message: the message passed is
modified (at `World.dirty` its kind 69, length 3 and bytes become 0, 0 and zero bytes). -/
theorem C21_counterexample_singleton_argument :
    World.dirty.message = some 0
      ∧ World.dirty.view 0
          = some ({ kind := 69, length := 3, max_length := 8, data := some 1 },
              [69, 1, 2, 3, 4, 5, 6, 7])
      ∧ (pgexporter_free_message World.dirty (some 0)).bind (fun w => w.view 0)
          = some ({ kind := 0, length := 0, max_length := 8, data := some 1 },
              [0, 0, 0, 0, 0, 0, 0, 0]) := by
  decide

/-- C21, amended: on a live singleton, for every argument `msg`,
`pgexporter_free_message(msg)` returns and has exactly the effect of
`pgexporter_memory_free()`, whatever the argument: the singleton is in the released state,
and every block other than the singleton's header and buffer is as before (neither modified
nor freed), so a message other than the singleton message (an independent copy, a
heap-constructed message) reads as before, header and data; the singleton message itself is
reset with the buffer. -/
theorem C21_free_message_is_memory_free (w : World) (pm pd : Ptr) (n : Nat)
    (msg : Option Ptr) (hlive : w.live pm pd n = true) :
    ∃ w', pgexporter_free_message w msg = some w'
      ∧ pgexporter_memory_free w = some w'
      ∧ (∀ msg', pgexporter_free_message w msg' = some w')
      ∧ w'.released pm pd n = true
      ∧ w'.heap.length = w.heap.length
      ∧ (∀ q, q ≠ pm → q ≠ pd → w'.load q = w.load q)
      ∧ (∀ q hdr bytes, w.view q = some (hdr, bytes) → q ≠ pm → hdr.data ≠ some pd →
          w'.view q = some (hdr, bytes)) := by
  obtain ⟨w', h1, h2, -, -, h5⟩ := memory_free_spec w pm pd n hlive
  obtain ⟨-, -, ⟨hdr0, hm0, -⟩, ⟨b0, hb0, -⟩⟩ := (live_iff w pm pd n).mp hlive
  refine ⟨w', h1, h1, fun _ => h1, h2, h5.1, h5.2.2.2, ?_⟩
  intro q hdr bytes hv hq hd
  obtain ⟨hm, d, hdd, hb⟩ := view_parts w q hdr bytes hv
  have n1 : q ≠ pd := msg_ne_buf w q pd hdr b0 hm hb0
  have n2 : d ≠ pm := Ne.symm (msg_ne_buf w pm d hdr0 bytes hm0 hb)
  have n3 : d ≠ pd := by
    intro hc
    apply hd
    rw [hdd, hc]
  refine view_of_parts w' q d hdr bytes ?_ hdd ?_
  · rw [loadMsg_load, h5.2.2.2 q hq n1]
    exact (loadMsg_load w q hdr).mp hm
  · rw [loadBuf_load, h5.2.2.2 d n2 n3]
    exact (loadBuf_load w d bytes).mp hb

/-- C21 at the singleton of `World.dirty`, with the unrelated message at block 2 as
argument: it reads as before. -/
theorem C21_free_message_is_memory_free_witness :
    World.dirty.live 0 1 8 = true
      ∧ ∃ w', pgexporter_free_message World.dirty (some 2) = some w'
          ∧ pgexporter_memory_free World.dirty = some w'
          ∧ w'.released 0 1 8 = true
          ∧ w'.view 2
              = some ({ kind := 112, length := 2, max_length := 0, data := some 3 },
                  [112, 9]) := by
  obtain ⟨w', h1, h2, -, h4, -, -, h7⟩ :=
    C21_free_message_is_memory_free World.dirty 0 1 8 (some 2) (by decide)
  exact ⟨by decide, w', h1, h2, h4, h7 2 _ _ (by decide) (by decide) (by decide)⟩

/-! ## Claim C24: errors of `write` -/

theorem write_message_loop_first_call (L : Int) (w : World) (r : WriteOutcome)
    (rest : List WriteOutcome) (o t rem : Int) (res : WriteResult)
    (h : write_message_loop L w (r :: rest) o t rem = some res) :
    res.calls.head? = some ⟨o, rem⟩ := by
  simp only [write_message_loop] at h
  split_ifs at h
  all_goals first
    | (simp only [Option.some.injEq] at h
       subst h
       rfl)
    | (simp only [Option.map_eq_some'] at h
       obtain ⟨r', -, rfl⟩ := h
       rfl)

/-- C24: in the loop of `write_message` for a message of length `L` (other than -1), at any
offset, total sent and remaining count (so after any partial writes): a write that returns
-1 with `errno` `EAGAIN` is followed by another call of `write` with the same offset and
count (total and remaining are unchanged too), and a write that returns -1 with any other
`errno` makes the call return `MESSAGE_STATUS_ERROR` with that call as its last and the later
outcomes untouched. -/
theorem C24_write_errno_handling (L : Int) (w : World) (r : WriteOutcome)
    (rest : List WriteOutcome) (offset totalbytes remaining : Int)
    (hL : L ≠ -1) (hfail : r.numbytes = -1) :
    (r.err = EAGAIN →
        write_message_loop L w (r :: rest) offset totalbytes remaining
            = (write_message_loop L { w with errno := 0 } rest offset totalbytes
                remaining).map (WriteResult.after ⟨offset, remaining⟩)
          ∧ ∀ res, write_message_loop L w (r :: rest) offset totalbytes remaining = some res →
              rest ≠ [] ∧ res.calls.take 2 = [⟨offset, remaining⟩, ⟨offset, remaining⟩])
      ∧ (r.err ≠ EAGAIN →
          write_message_loop L w (r :: rest) offset totalbytes remaining
            = some ⟨{ w with errno := r.err }, MESSAGE_STATUS_ERROR, [⟨offset, remaining⟩],
                rest⟩) := by
  have h1 : ¬ (-1 : Int) = L := fun h => hL h.symm
  have heq : r.err = EAGAIN →
      write_message_loop L w (r :: rest) offset totalbytes remaining
        = (write_message_loop L { w with errno := 0 } rest offset totalbytes
            remaining).map (WriteResult.after ⟨offset, remaining⟩) := by
    intro he
    simp only [write_message_loop, hfail, if_true, h1, if_false, ne_eq, not_true_eq_false, he]
  refine ⟨fun he => ⟨heq he, ?_⟩, ?_⟩
  · intro res hres
    rw [heq he] at hres
    simp only [Option.map_eq_some'] at hres
    obtain ⟨r', hr', rfl⟩ := hres
    cases rest with
    | nil => simp [write_message_loop] at hr'
    | cons r2 rest2 =>
      refine ⟨by simp, ?_⟩
      have hc := write_message_loop_first_call L _ r2 rest2 _ _ _ r' hr'
      cases hcs : r'.calls with
      | nil => simp [hcs] at hc
      | cons c cs =>
        simp only [hcs, List.head?_cons, Option.some.injEq] at hc
        subst hc
        simp [WriteResult.after, hcs]
  · intro he
    simp only [write_message_loop, hfail, if_true, h1, if_false, ne_eq, not_true_eq_false, he]

/-- C24 at a 5-byte message of which 2 bytes are sent: a write that fails with `EAGAIN` is
repeated at offset 2 for 3 bytes; one that fails with `EPIPE` (32) ends the call. -/
theorem C24_write_errno_handling_witness :
    (5 : Int) ≠ -1 ∧ (⟨-1, EAGAIN⟩ : WriteOutcome).numbytes = -1
      ∧ (⟨-1, 32⟩ : WriteOutcome).numbytes = -1
      ∧ write_message_loop 5 World.sample [⟨-1, EAGAIN⟩, ⟨3, 0⟩] 2 2 3
          = (write_message_loop 5 { World.sample with errno := 0 } [⟨3, 0⟩] 2 2 3).map
              (WriteResult.after ⟨2, 3⟩)
      ∧ write_message_loop 5 World.sample [⟨-1, 32⟩, ⟨3, 0⟩] 2 2 3
          = some ⟨{ World.sample with errno := 32 }, MESSAGE_STATUS_ERROR, [⟨2, 3⟩],
              [⟨3, 0⟩]⟩ :=
  ⟨by decide, rfl, rfl,
    ((C24_write_errno_handling 5 World.sample ⟨-1, EAGAIN⟩ [⟨3, 0⟩] 2 2 3 (by decide)
      rfl).1 rfl).1,
    (C24_write_errno_handling 5 World.sample ⟨-1, 32⟩ [⟨3, 0⟩] 2 2 3 (by decide) rfl).2
      (by decide)⟩

/-! ## Claim C26: the receive timeout of `read_message` -/

theorem setMaxLength_put (w : World) (p : Ptr) (k : Nat) (w' : World)
    (h : w.setMaxLength p k = some w') : ∃ o, w' = w.put p (some o) := by
  unfold World.setMaxLength at h
  split at h
  · exact ⟨_, storeMsg_put _ _ _ _ h⟩
  · simp at h

theorem setData_put (w : World) (p : Ptr) (d : Option Ptr) (w' : World)
    (h : w.setData p d = some w') : ∃ o, w' = w.put p (some o) := by
  unfold World.setData at h
  split at h
  · exact ⟨_, storeMsg_put _ _ _ _ h⟩
  · simp at h

theorem memory_free_rcvtimeo (w w' : World) (h : pgexporter_memory_free w = some w') :
    w'.rcvtimeo = w.rcvtimeo := by
  simp only [pgexporter_memory_free, Option.bind_eq_bind, Option.bind_eq_some,
    Option.some.injEq] at h
  obtain ⟨message, -, hdr, -, w1, h1, data, -, w2, h2, w3, h3, w4, h4, w5, h5, w6, h6, rfl⟩ := h
  have e1 := storeMsg_put _ _ _ _ h1
  obtain ⟨o2, e2⟩ := writeBytes_put _ _ _ _ _ h2
  obtain ⟨o3, e3⟩ := setKind_put _ _ _ _ h3
  obtain ⟨o4, e4⟩ := setLength_put _ _ _ _ h4
  obtain ⟨o5, e5⟩ := setMaxLength_put _ _ _ _ h5
  obtain ⟨o6, e6⟩ := setData_put _ _ _ _ h6
  rw [e6, e5, e4, e3, e2, e1]
  rfl

theorem sys_read_rcvtimeo (w : World) (r : ReadOutcome) (buf : Option Ptr) (count : Nat)
    (w1 : World) (nb : Int) (h : sys_read w r buf count = some (w1, nb)) :
    w1.rcvtimeo = w.rcvtimeo := by
  unfold sys_read at h
  split_ifs at h
  · cases buf with
    | none => simp at h
    | some p =>
      simp only [Option.map_eq_some', Prod.mk.injEq] at h
      obtain ⟨w2, hw, rfl, -⟩ := h
      obtain ⟨o, e⟩ := writeBytes_put _ _ _ _ _ hw
      rw [e]
      rfl
  · simp only [Option.some.injEq, Prod.mk.injEq] at h
    rw [← h.1]
  · simp only [Option.some.injEq, Prod.mk.injEq] at h
    rw [← h.1]

theorem clear_rcvtimeo_log (w : World) (timeout : Int) :
    (clear_rcvtimeo w timeout).rcvtimeo
      = w.rcvtimeo ++ (if timeout > 0 then [0] else []) := by
  unfold clear_rcvtimeo
  split
  · rfl
  · simp

/-- The loop of `read_message` calls `setsockopt` once, with a timeout of 0, before each of
its returns when `timeout > 0`, and never otherwise. -/
theorem read_message_loop_rcvtimeo (block : Bool) (timeout : Int) :
    ∀ (script : List ReadOutcome) (w : World) (msg : Option Ptr) (res : ReadResult),
      read_message_loop block timeout w script msg = some res →
      res.world.rcvtimeo = w.rcvtimeo ++ (if timeout > 0 then [0] else []) := by
  intro script
  induction script with
  | nil =>
    intro w msg res h
    simp [read_message_loop] at h
  | cons r rest ih =>
    intro w msg res h
    simp only [read_message_loop, Option.bind_eq_bind, Option.bind_eq_some] at h
    obtain ⟨m, -, hdr, -, ⟨w1, nb⟩, hs, h⟩ := h
    have hr1 := sys_read_rcvtimeo _ _ _ _ _ _ hs
    simp only at h
    split_ifs at h with c1 c2
    · simp only [Option.bind_eq_some, Option.some.injEq] at h
      obtain ⟨d, -, b, -, first, -, w2, h2, w3, h3, rfl⟩ := h
      obtain ⟨o2, e2⟩ := setKind_put _ _ _ _ h2
      obtain ⟨o3, e3⟩ := setLength_put _ _ _ _ h3
      rw [clear_rcvtimeo_log, e3, e2, ← hr1]
      rfl
    · simp only [Option.bind_eq_some] at h
      obtain ⟨w2, hf, h⟩ := h
      have hr2 := memory_free_rcvtimeo _ _ hf
      split_ifs at h
      · rw [ih _ _ _ h, ← hr1, ← hr2]
      · simp only [Option.some.injEq] at h
        subst h
        rw [clear_rcvtimeo_log, hr2, hr1]
    · simp only [Option.bind_eq_some] at h
      obtain ⟨w2, hf, h⟩ := h
      have hr2 := memory_free_rcvtimeo _ _ hf
      split_ifs at h
      · rw [ih _ _ _ h, ← hr1, ← hr2]
      · unfold read_message_exit at h
        split_ifs at h with ht
        · simp only [Option.bind_eq_bind, Option.bind_eq_some, Option.some.injEq] at h
          obtain ⟨w3, hf3, rfl⟩ := h
          have hr3 := memory_free_rcvtimeo _ _ hf3
          simp only [hr3, setsockopt, hr2, hr1, if_pos ht]
        · simp only [Option.some.injEq] at h
          subst h
          simp only [hr2, hr1, if_neg ht, List.append_nil]

/-- C26: whenever `read_message` returns (with any status), the calls of `setsockopt` on
the socket's receive timeout it has made are: with `timeout > 0`, one with `timeout` seconds
and then one with 0, the first of them before the loop of read attempts starts; with
`timeout <= 0`, none. -/
theorem C26_receive_timeout_set_and_cleared (w : World) (script : List ReadOutcome)
    (block : Bool) (timeout : Int) (msg : Option Ptr) (res : ReadResult)
    (h : read_message w script block timeout msg = some res) :
    (timeout > 0 →
        res.world.rcvtimeo = w.rcvtimeo ++ [timeout, 0]
          ∧ (setsockopt w timeout).rcvtimeo = w.rcvtimeo ++ [timeout]
          ∧ read_message w script block timeout msg
              = read_message_loop block timeout (setsockopt w timeout) script msg)
      ∧ (timeout ≤ 0 →
          res.world.rcvtimeo = w.rcvtimeo
            ∧ read_message w script block timeout msg
                = read_message_loop block timeout w script msg) := by
  constructor
  · intro ht
    have he : read_message w script block timeout msg
        = read_message_loop block timeout (setsockopt w timeout) script msg := by
      simp only [read_message, if_pos ht]
    refine ⟨?_, rfl, he⟩
    rw [he] at h
    rw [read_message_loop_rcvtimeo block timeout script _ msg res h, if_pos ht]
    simp [setsockopt]
  · intro ht
    have hn : ¬ timeout > 0 := by omega
    have he : read_message w script block timeout msg
        = read_message_loop block timeout w script msg := by
      simp only [read_message, if_neg hn]
    refine ⟨?_, he⟩
    rw [he] at h
    rw [read_message_loop_rcvtimeo block timeout script _ msg res h, if_neg hn]
    simp

/-- C26 at the singleton of `World.dirty` with a timeout of 5 seconds: a read of three
bytes (OK), a read of 0 bytes with `block = false` (ZERO) and a read that fails with
`ECONNRESET` (ERROR) each leave the log of receive timeouts `[5, 0]`. -/
theorem C26_receive_timeout_set_and_cleared_witness :
    (∃ res, read_message World.dirty [⟨3, [82, 0, 8], 0, 0⟩] true 5 none = some res
        ∧ res.status = MESSAGE_STATUS_OK ∧ res.world.rcvtimeo = World.dirty.rcvtimeo ++ [5, 0])
      ∧ (∃ res, read_message World.dirty [⟨0, [], 0, 0⟩] false 5 none = some res
        ∧ res.status = MESSAGE_STATUS_ZERO
        ∧ res.world.rcvtimeo = World.dirty.rcvtimeo ++ [5, 0])
      ∧ (∃ res, read_message World.dirty [⟨-1, [], 104, 0⟩] true 5 none = some res
        ∧ res.status = MESSAGE_STATUS_ERROR
        ∧ res.world.rcvtimeo = World.dirty.rcvtimeo ++ [5, 0])
      ∧ ∃ res, read_message World.dirty [⟨-1, [], 104, 0⟩] true 0 none = some res
        ∧ res.status = MESSAGE_STATUS_ERROR ∧ res.world.rcvtimeo = World.dirty.rcvtimeo := by
  have k : ∀ (script : List ReadOutcome) (block : Bool) (timeout : Int) (st : Status),
      (read_message World.dirty script block timeout none).map (fun r => r.status) = some st →
      ∃ res, read_message World.dirty script block timeout none = some res
        ∧ res.status = st := by
    intro script block timeout st hs
    obtain ⟨res, h1, h2⟩ := Option.map_eq_some'.mp hs
    exact ⟨res, h1, h2⟩
  obtain ⟨r1, a1, b1⟩ := k [⟨3, [82, 0, 8], 0, 0⟩] true 5 MESSAGE_STATUS_OK (by decide)
  obtain ⟨r2, a2, b2⟩ := k [⟨0, [], 0, 0⟩] false 5 MESSAGE_STATUS_ZERO (by decide)
  obtain ⟨r3, a3, b3⟩ := k [⟨-1, [], 104, 0⟩] true 5 MESSAGE_STATUS_ERROR (by decide)
  obtain ⟨r4, a4, b4⟩ := k [⟨-1, [], 104, 0⟩] true 0 MESSAGE_STATUS_ERROR (by decide)
  exact ⟨⟨r1, a1, b1,
      ((C26_receive_timeout_set_and_cleared World.dirty _ true 5 none r1 a1).1
        (by decide)).1⟩,
    ⟨r2, a2, b2,
      ((C26_receive_timeout_set_and_cleared World.dirty _ false 5 none r2 a2).1
        (by decide)).1⟩,
    ⟨r3, a3, b3,
      ((C26_receive_timeout_set_and_cleared World.dirty _ true 5 none r3 a3).1
        (by decide)).1⟩,
    ⟨r4, a4, b4,
      ((C26_receive_timeout_set_and_cleared World.dirty _ true 0 none r4 a4).2
        (by decide)).1⟩⟩

/-! ## Claims C22, C28, C29: decisions of the TLS loops -/

theorem ssl_retry_code_iff (e : Int) :
    ssl_retry_code e = true ↔
      (e = SSL_ERROR_ZERO_RETURN ∨ e = SSL_ERROR_WANT_READ ∨ e = SSL_ERROR_WANT_WRITE
        ∨ e = SSL_ERROR_WANT_CONNECT ∨ e = SSL_ERROR_WANT_ACCEPT
        ∨ e = SSL_ERROR_WANT_X509_LOOKUP ∨ e = SSL_ERROR_WANT_ASYNC
        ∨ e = SSL_ERROR_WANT_ASYNC_JOB ∨ e = SSL_ERROR_WANT_CLIENT_HELLO_CB) := by
  simp [ssl_retry_code, or_assoc]

theorem ssl_fatal_code_iff (e : Int) :
    ssl_fatal_code e = true ↔ (e = SSL_ERROR_SYSCALL ∨ e = SSL_ERROR_SSL) := by
  simp [ssl_fatal_code]

theorem ssl_retry_not_fatal (e : Int) (h : ssl_retry_code e = true) :
    ssl_fatal_code e = false := by
  rw [ssl_retry_code_iff] at h
  rcases h with h | h | h | h | h | h | h | h | h <;> subst h <;> decide

/-- One failed attempt of `ssl_write_message`: the error code and the flag decide. -/
theorem ssl_write_message_loop_fail (L : Int) (w : World) (k : Bool) (r : WriteOutcome)
    (rest : List WriteOutcome) (o t rem : Int) (h1 : r.numbytes ≠ L) (h2 : r.numbytes ≤ 0) :
    ssl_write_message_loop L w k (r :: rest) o t rem
      = if ssl_retry_code r.err = true then
          (ssl_write_message_loop L { w with errno := 0 } true rest o t rem).map
            (WriteResult.after ⟨o, wrap_int32 rem⟩)
        else if ssl_fatal_code r.err = true then
          some ⟨{ w with errno := 0 }, MESSAGE_STATUS_ERROR, [⟨o, wrap_int32 rem⟩], rest⟩
        else if k = true then
          (ssl_write_message_loop L w k rest o t rem).map
            (WriteResult.after ⟨o, wrap_int32 rem⟩)
        else some ⟨w, MESSAGE_STATUS_ERROR, [⟨o, wrap_int32 rem⟩], rest⟩ := by
  have h3 : ¬ r.numbytes > 0 := by omega
  simp only [ssl_write_message_loop, if_neg h1, if_neg h3, ssl_retry_code_iff,
    ssl_fatal_code_iff]

/-- One failed attempt of `ssl_read_message` without a timeout, from a live singleton: the
buffer is released, and the error code and the flag decide. -/
theorem ssl_read_message_loop_fail_all (w : World) (pm pd : Ptr) (n : Nat)
    (timeout start_time : Int) (r : ReadOutcome) (h : w.live pm pd n = true)
    (hle : r.numbytes ≤ 0) (ht : timeout ≤ 0) :
    ∃ w1, w1.released pm pd n = true
      ∧ ∀ (k : Bool) (rest : List ReadOutcome) (msg : Option Ptr),
        ssl_read_message_loop timeout start_time w k (r :: rest) msg
          = if ssl_retry_code r.err = true then
              ssl_read_message_loop timeout start_time w1 true rest msg
            else if ssl_fatal_code r.err = true then
              some ⟨(if r.err = SSL_ERROR_SYSCALL then { w1 with errno := 0 } else w1),
                MESSAGE_STATUS_ERROR, msg, rest⟩
            else if k = true then
              ssl_read_message_loop timeout start_time w1 k rest msg
            else some ⟨w1, MESSAGE_STATUS_ERROR, msg, rest⟩ := by
  obtain ⟨hmsg, hdata, ⟨hdr, hm, hcap⟩, -⟩ := (live_iff w pm pd n).mp h
  have hmm : pgexporter_memory_message w = some pm := hmsg
  have hn1 : ¬ 0 < r.numbytes := by omega
  have hn2 : ¬ r.numbytes > 0 := by omega
  have hnt : ¬ (timeout > 0 ∧ r.now - start_time ≥ timeout) := by
    rintro ⟨hc, -⟩
    omega
  obtain ⟨w1, hfree, hrel, -, -, -⟩ := memory_free_spec w pm pd n h
  refine ⟨w1, hrel, ?_⟩
  intro k rest msg
  simp only [ssl_read_message_loop, hmm, hm, SSL_read, hn1, hn2, if_false,
    Option.bind_eq_bind, Option.some_bind, hfree, hnt]
  by_cases c1 : r.err = SSL_ERROR_ZERO_RETURN
  · have hr : ssl_retry_code r.err = true := by
      rw [ssl_retry_code_iff]
      exact Or.inl c1
    rw [if_pos c1, if_pos hr]
  · rw [if_neg c1]
    by_cases c2 : r.err = SSL_ERROR_WANT_READ ∨ r.err = SSL_ERROR_WANT_WRITE
        ∨ r.err = SSL_ERROR_WANT_CONNECT ∨ r.err = SSL_ERROR_WANT_ACCEPT
        ∨ r.err = SSL_ERROR_WANT_X509_LOOKUP ∨ r.err = SSL_ERROR_WANT_ASYNC
        ∨ r.err = SSL_ERROR_WANT_ASYNC_JOB ∨ r.err = SSL_ERROR_WANT_CLIENT_HELLO_CB
    · have hr : ssl_retry_code r.err = true := by
        rw [ssl_retry_code_iff]
        exact Or.inr c2
      rw [if_pos c2, if_pos hr]
    · have hr : ¬ ssl_retry_code r.err = true := by
        rw [ssl_retry_code_iff]
        rintro (hc | hc)
        · exact c1 hc
        · exact c2 hc
      rw [if_neg c2, if_neg hr]
      by_cases c3 : r.err = SSL_ERROR_SYSCALL
      · have hf : ssl_fatal_code r.err = true := by
          rw [ssl_fatal_code_iff]
          exact Or.inl c3
        rw [if_pos c3, if_pos hf, if_pos c3]
      · rw [if_neg c3]
        by_cases c4 : r.err = SSL_ERROR_SSL
        · have hf : ssl_fatal_code r.err = true := by
            rw [ssl_fatal_code_iff]
            exact Or.inr c4
          rw [if_pos c4, if_pos hf, if_neg c3]
        · have hf : ¬ ssl_fatal_code r.err = true := by
            rw [ssl_fatal_code_iff]
            rintro (hc | hc)
            · exact c3 hc
            · exact c4 hc
          rw [if_neg c4, if_neg hf]

theorem ssl_write_message_loop_never_zero (L : Int) :
    ∀ (script : List WriteOutcome) (w : World) (k : Bool) (o t rem : Int) (res : WriteResult),
      ssl_write_message_loop L w k script o t rem = some res →
      res.status ≠ MESSAGE_STATUS_ZERO := by
  intro script
  induction script with
  | nil =>
    intro w k o t rem res h
    simp [ssl_write_message_loop] at h
  | cons r rest ih =>
    intro w k o t rem res h
    simp only [ssl_write_message_loop] at h
    split_ifs at h
    all_goals first
      | (simp only [Option.some.injEq] at h
         subst h
         simp)
      | (simp only [Option.map_eq_some'] at h
         obtain ⟨r', hr', rfl⟩ := h
         exact ih _ _ _ _ _ r' hr')

/-- The decisions of the two TLS loops at a failed attempt with code `e` and flag `k`. -/
theorem ssl_decisions (e : Int) (k : Bool) (L : Int) (ww : World) (rw : WriteOutcome)
    (o t rem : Int) (wr : World) (pm pd : Ptr) (n : Nat) (rr : ReadOutcome)
    (timeout start_time : Int) (msg : Option Ptr)
    (hw1 : rw.numbytes ≤ 0) (hw2 : rw.numbytes ≠ L) (hwe : rw.err = e)
    (hlive : wr.live pm pd n = true) (hr1 : rr.numbytes ≤ 0) (hre : rr.err = e)
    (ht : timeout ≤ 0) :
    (ssl_retry_code e = true ∨ (ssl_fatal_code e = false ∧ k = true) →
        SslWriteRetries L ww k rw o t rem ∧ SslReadRetries timeout start_time wr k rr msg)
      ∧ (¬ (ssl_retry_code e = true ∨ (ssl_fatal_code e = false ∧ k = true)) →
        SslWriteAborts L ww k rw o t rem ∧ SslReadAborts timeout start_time wr k rr msg)
      ∧ ¬ (SslWriteRetries L ww k rw o t rem ∧ SslWriteAborts L ww k rw o t rem)
      ∧ ¬ (SslReadRetries timeout start_time wr k rr msg
            ∧ SslReadAborts timeout start_time wr k rr msg) := by
  obtain ⟨w1, -, hrd⟩ :=
    ssl_read_message_loop_fail_all wr pm pd n timeout start_time rr hlive hr1 ht
  have hwr := fun rest => ssl_write_message_loop_fail L ww k rw rest o t rem hw2 hw1
  rw [hwe] at hwr
  rw [hre] at hrd
  refine ⟨?_, ?_, ?_, ?_⟩
  · rintro (hc | ⟨hf, hk⟩)
    · exact ⟨⟨_, _, fun rest => by rw [hwr rest, if_pos hc]⟩,
        ⟨_, _, fun rest => by rw [hrd k rest msg, if_pos hc]⟩⟩
    · by_cases hc : ssl_retry_code e = true
      · exact ⟨⟨_, _, fun rest => by rw [hwr rest, if_pos hc]⟩,
          ⟨_, _, fun rest => by rw [hrd k rest msg, if_pos hc]⟩⟩
      · have hf' : ¬ ssl_fatal_code e = true := by simp [hf]
        exact ⟨⟨_, _, fun rest => by rw [hwr rest, if_neg hc, if_neg hf', if_pos hk]⟩,
          ⟨_, _, fun rest => by rw [hrd k rest msg, if_neg hc, if_neg hf', if_pos hk]⟩⟩
  · intro hn
    have hc : ¬ ssl_retry_code e = true := fun h => hn (Or.inl h)
    by_cases hf : ssl_fatal_code e = true
    · exact ⟨⟨_, fun rest => by rw [hwr rest, if_neg hc, if_pos hf]⟩,
        ⟨_, fun rest => by rw [hrd k rest msg, if_neg hc, if_pos hf]⟩⟩
    · have hk : ¬ k = true := fun h => hn (Or.inr ⟨by simpa using hf, h⟩)
      exact ⟨⟨_, fun rest => by rw [hwr rest, if_neg hc, if_neg hf, if_neg hk]⟩,
        ⟨_, fun rest => by rw [hrd k rest msg, if_neg hc, if_neg hf, if_neg hk]⟩⟩
  · rintro ⟨⟨a, b, h1⟩, ⟨c, h2⟩⟩
    have h := (h1 []).symm.trans (h2 [])
    simp [ssl_write_message_loop] at h
  · rintro ⟨⟨a, b, h1⟩, ⟨c, h2⟩⟩
    have h := (h1 []).symm.trans (h2 [])
    simp [ssl_read_message_loop] at h

/-- C22 as stated fails for the code `SSL_ERROR_NONE`: a failed write with that code that
follows a partial write is followed by another attempt (here the call then completes),
while a failed read with that code on the first attempt of `ssl_read_message` without a
timeout makes the call return `MESSAGE_STATUS_ERROR` with the next outcome unread. -/
theorem C22_counterexample_unhandled_code :
    (ssl_write_message World.sample [⟨2, 0⟩, ⟨-1, SSL_ERROR_NONE⟩, ⟨3, 0⟩] 0).map
        (fun r => (r.status, r.calls, r.rest))
        = some (MESSAGE_STATUS_OK, [⟨0, 5⟩, ⟨2, 3⟩, ⟨2, 3⟩], [])
      ∧ (ssl_read_message World.dirty
            [⟨-1, [], SSL_ERROR_NONE, 0⟩, ⟨3, [82, 0, 8], 0, 0⟩] 0 0 none).map
          (fun r => (r.status, r.msg, r.rest))
          = some (MESSAGE_STATUS_ERROR, none, [⟨3, [82, 0, 8], 0, 0⟩])
      ∧ SslWriteRetries 5 { World.sample with errno := 0 } true ⟨-1, SSL_ERROR_NONE⟩ 2 2 3
      ∧ SslReadAborts 0 0 World.dirty false ⟨-1, [], SSL_ERROR_NONE, 0⟩ none
      ∧ ¬ (SslWriteRetries 5 { World.sample with errno := 0 } true ⟨-1, SSL_ERROR_NONE⟩ 2 2 3
            ↔ SslReadRetries 0 0 World.dirty false ⟨-1, [], SSL_ERROR_NONE, 0⟩ none) := by
  have dw := ssl_decisions SSL_ERROR_NONE true 5 { World.sample with errno := 0 }
    ⟨-1, SSL_ERROR_NONE⟩ 2 2 3 World.dirty 0 1 8 ⟨-1, [], SSL_ERROR_NONE, 0⟩ 0 0 none
    (by decide) (by decide) rfl (by decide) (by decide) rfl (by decide)
  have dr := ssl_decisions SSL_ERROR_NONE false 5 { World.sample with errno := 0 }
    ⟨-1, SSL_ERROR_NONE⟩ 2 2 3 World.dirty 0 1 8 ⟨-1, [], SSL_ERROR_NONE, 0⟩ 0 0 none
    (by decide) (by decide) rfl (by decide) (by decide) rfl (by decide)
  have hw := (dw.1 (Or.inr ⟨by decide, rfl⟩)).1
  have hr := (dr.2.1 (by decide)).2
  exact ⟨by decide, by decide, hw, hr, fun h => dr.2.2.2 ⟨h.mp hw, hr⟩⟩

/-- C22, amended: at a failed attempt with TLS error code `e` (a non-positive return that,
for the write, differs from the message length; the singleton of the read is live),
`ssl_write_message` (retry flag `kw` before the attempt) makes another attempt if and only
if `ssl_read_message` without a timeout budget (retry flag `kr`) does, and returns
`MESSAGE_STATUS_ERROR` if and only if the read does, whenever the two flags are equal (as on
the first attempt of both calls, where they are false) or `e` is one of the handled codes;
each call does exactly one of the two.  Whatever the flags, both return
`MESSAGE_STATUS_ERROR` on `SSL_ERROR_SYSCALL` and `SSL_ERROR_SSL` and both make another
attempt on `ZERO_RETURN` and the `WANT_*` codes; for any other code each makes another
attempt exactly when its own flag is true.  `ssl_write_message` never returns
`MESSAGE_STATUS_ZERO`.  Both calls enter their loop with the flag false. -/
theorem C22_ssl_retry_decisions_agree (e : Int) (kw kr : Bool) (L : Int) (ww : World)
    (rw : WriteOutcome) (o t rem : Int) (wr : World) (pm pd : Ptr) (n : Nat)
    (rr : ReadOutcome) (timeout start_time : Int) (msg : Option Ptr)
    (hw1 : rw.numbytes ≤ 0) (hw2 : rw.numbytes ≠ L) (hwe : rw.err = e)
    (hlive : wr.live pm pd n = true) (hr1 : rr.numbytes ≤ 0) (hre : rr.err = e)
    (ht : timeout ≤ 0) :
    (kw = kr ∨ ssl_retry_code e = true ∨ ssl_fatal_code e = true →
        (SslWriteRetries L ww kw rw o t rem ↔ SslReadRetries timeout start_time wr kr rr msg)
          ∧ (SslWriteAborts L ww kw rw o t rem
              ↔ SslReadAborts timeout start_time wr kr rr msg))
      ∧ (SslWriteRetries L ww kw rw o t rem ∨ SslWriteAborts L ww kw rw o t rem)
      ∧ (SslReadRetries timeout start_time wr kr rr msg
          ∨ SslReadAborts timeout start_time wr kr rr msg)
      ∧ ¬ (SslWriteRetries L ww kw rw o t rem ∧ SslWriteAborts L ww kw rw o t rem)
      ∧ ¬ (SslReadRetries timeout start_time wr kr rr msg
            ∧ SslReadAborts timeout start_time wr kr rr msg)
      ∧ (e = SSL_ERROR_SYSCALL ∨ e = SSL_ERROR_SSL →
          SslWriteAborts L ww kw rw o t rem ∧ SslReadAborts timeout start_time wr kr rr msg)
      ∧ (ssl_retry_code e = true →
          SslWriteRetries L ww kw rw o t rem
            ∧ SslReadRetries timeout start_time wr kr rr msg)
      ∧ (ssl_retry_code e = false → ssl_fatal_code e = false →
          (SslWriteRetries L ww kw rw o t rem ↔ kw = true)
            ∧ (SslReadRetries timeout start_time wr kr rr msg ↔ kr = true))
      ∧ (∀ (script : List WriteOutcome) (m : Ptr) (res : WriteResult),
          ssl_write_message ww script m = some res → res.status ≠ MESSAGE_STATUS_ZERO)
      ∧ (∀ script : List ReadOutcome,
          ssl_read_message wr script timeout start_time msg
            = ssl_read_message_loop timeout start_time wr false script msg)
      ∧ (∀ (m : Ptr) (hdr : message_t) (script : List WriteOutcome),
          ww.loadMsg m = some hdr → hdr.length = L →
          ssl_write_message ww script m = ssl_write_message_loop L ww false script 0 0 L) := by
  obtain ⟨a1, a2, a3, -⟩ := ssl_decisions e kw L ww rw o t rem wr pm pd n rr timeout
    start_time msg hw1 hw2 hwe hlive hr1 hre ht
  obtain ⟨b1, b2, -, b4⟩ := ssl_decisions e kr L ww rw o t rem wr pm pd n rr timeout
    start_time msg hw1 hw2 hwe hlive hr1 hre ht
  have wret : SslWriteRetries L ww kw rw o t rem
      ↔ (ssl_retry_code e = true ∨ (ssl_fatal_code e = false ∧ kw = true)) :=
    ⟨fun h => by
        by_contra hn
        exact a3 ⟨h, (a2 hn).1⟩,
      fun h => (a1 h).1⟩
  have wab : SslWriteAborts L ww kw rw o t rem
      ↔ ¬ (ssl_retry_code e = true ∨ (ssl_fatal_code e = false ∧ kw = true)) :=
    ⟨fun h hR => a3 ⟨(a1 hR).1, h⟩, fun h => (a2 h).1⟩
  have rret : SslReadRetries timeout start_time wr kr rr msg
      ↔ (ssl_retry_code e = true ∨ (ssl_fatal_code e = false ∧ kr = true)) :=
    ⟨fun h => by
        by_contra hn
        exact b4 ⟨h, (b2 hn).2⟩,
      fun h => (b1 h).2⟩
  have rab : SslReadAborts timeout start_time wr kr rr msg
      ↔ ¬ (ssl_retry_code e = true ∨ (ssl_fatal_code e = false ∧ kr = true)) :=
    ⟨fun h hR => b4 ⟨(b1 hR).2, h⟩, fun h => (b2 h).2⟩
  have hfatal : ssl_fatal_code e = true → ¬ ssl_retry_code e = true := by
    intro hf hc
    rw [ssl_retry_not_fatal e hc] at hf
    simp at hf
  refine ⟨?_, ?_, ?_, a3, b4, ?_, ?_, ?_, ?_, fun _ => rfl, ?_⟩
  · intro hk
    have hsame : (ssl_retry_code e = true ∨ (ssl_fatal_code e = false ∧ kw = true))
        ↔ (ssl_retry_code e = true ∨ (ssl_fatal_code e = false ∧ kr = true)) := by
      rcases hk with hk | hk | hk
      · rw [hk]
      · exact ⟨fun _ => Or.inl hk, fun _ => Or.inl hk⟩
      · constructor
        · rintro (h | ⟨h, -⟩)
          · exact Or.inl h
          · rw [hk] at h
            simp at h
        · rintro (h | ⟨h, -⟩)
          · exact Or.inl h
          · rw [hk] at h
            simp at h
    exact ⟨by rw [wret, rret, hsame], by rw [wab, rab, hsame]⟩
  · by_cases hR : ssl_retry_code e = true ∨ (ssl_fatal_code e = false ∧ kw = true)
    · exact Or.inl (wret.mpr hR)
    · exact Or.inr (wab.mpr hR)
  · by_cases hR : ssl_retry_code e = true ∨ (ssl_fatal_code e = false ∧ kr = true)
    · exact Or.inl (rret.mpr hR)
    · exact Or.inr (rab.mpr hR)
  · intro he
    have hf : ssl_fatal_code e = true := (ssl_fatal_code_iff e).mpr he
    have hn : ∀ k : Bool,
        ¬ (ssl_retry_code e = true ∨ (ssl_fatal_code e = false ∧ k = true)) := by
      rintro k (h | ⟨h, -⟩)
      · exact hfatal hf h
      · rw [hf] at h
        simp at h
    exact ⟨wab.mpr (hn kw), rab.mpr (hn kr)⟩
  · intro hc
    exact ⟨wret.mpr (Or.inl hc), rret.mpr (Or.inl hc)⟩
  · intro hc hf
    have hc' : ¬ ssl_retry_code e = true := by simp [hc]
    constructor
    · rw [wret]
      exact ⟨fun h => h.elim (fun h => absurd h hc') (fun h => h.2),
        fun h => Or.inr ⟨hf, h⟩⟩
    · rw [rret]
      exact ⟨fun h => h.elim (fun h => absurd h hc') (fun h => h.2),
        fun h => Or.inr ⟨hf, h⟩⟩
  · intro script m res h
    simp only [ssl_write_message, Option.bind_eq_bind, Option.bind_eq_some] at h
    obtain ⟨hdr, -, h⟩ := h
    exact ssl_write_message_loop_never_zero _ _ _ _ _ _ _ _ h
  · intro m hdr script hm hl
    simp only [ssl_write_message, hm, hl, Option.bind_eq_bind, Option.some_bind]

/-- C22 at `SSL_ERROR_WANT_READ`, a write of 5 bytes whose flag is set and the first read on
the singleton of `World.dirty`: both go on to another attempt, and the decisions agree. -/
theorem C22_ssl_retry_decisions_agree_witness :
    (⟨-1, SSL_ERROR_WANT_READ⟩ : WriteOutcome).numbytes ≤ 0
      ∧ (⟨-1, SSL_ERROR_WANT_READ⟩ : WriteOutcome).numbytes ≠ 5
      ∧ World.dirty.live 0 1 8 = true
      ∧ (⟨-1, [], SSL_ERROR_WANT_READ, 0⟩ : ReadOutcome).numbytes ≤ 0
      ∧ (0 : Int) ≤ 0
      ∧ (true = false ∨ ssl_retry_code SSL_ERROR_WANT_READ = true
          ∨ ssl_fatal_code SSL_ERROR_WANT_READ = true)
      ∧ (SslWriteRetries 5 World.sample true ⟨-1, SSL_ERROR_WANT_READ⟩ 0 0 5
          ↔ SslReadRetries 0 0 World.dirty false ⟨-1, [], SSL_ERROR_WANT_READ, 0⟩ none)
      ∧ SslWriteRetries 5 World.sample true ⟨-1, SSL_ERROR_WANT_READ⟩ 0 0 5
      ∧ SslReadRetries 0 0 World.dirty false ⟨-1, [], SSL_ERROR_WANT_READ, 0⟩ none := by
  have h := C22_ssl_retry_decisions_agree SSL_ERROR_WANT_READ true false 5 World.sample
    ⟨-1, SSL_ERROR_WANT_READ⟩ 0 0 5 World.dirty 0 1 8 ⟨-1, [], SSL_ERROR_WANT_READ, 0⟩ 0 0
    none (by decide) (by decide) rfl (by decide) (by decide) rfl (by decide)
  exact ⟨by decide, by decide, by decide, by decide, by decide, Or.inr (Or.inl (by decide)),
    (h.1 (Or.inr (Or.inl (by decide)))).1, (h.2.2.2.2.2.2.1 (by decide)).1,
    (h.2.2.2.2.2.2.1 (by decide)).2⟩

/-- Without a timeout, a run of failed reads with `SSL_ERROR_ZERO_RETURN` is consumed
entirely and leaves `ssl_read_message` in its loop. -/
theorem ssl_read_zero_return_run (pm pd : Ptr) (n : Nat) (timeout start_time : Int)
    (msg : Option Ptr) (ht : timeout ≤ 0) :
    ∀ (tl : List ReadOutcome) (r : ReadOutcome) (w : World) (k : Bool),
      w.live pm pd n = true →
      (∀ x ∈ r :: tl, x.numbytes ≤ 0 ∧ x.err = SSL_ERROR_ZERO_RETURN) →
      ∃ w1, w1.released pm pd n = true
        ∧ ∀ rest, ssl_read_message_loop timeout start_time w k (r :: tl ++ rest) msg
            = ssl_read_message_loop timeout start_time w1 true rest msg := by
  intro tl
  induction tl with
  | nil =>
    intro r w k hlive hall
    obtain ⟨h1, h2⟩ := hall r (List.mem_cons_self _ _)
    obtain ⟨w1, hrel, heq⟩ :=
      ssl_read_message_loop_fail_all w pm pd n timeout start_time r hlive h1 ht
    refine ⟨w1, hrel, fun rest => ?_⟩
    rw [List.cons_append, List.nil_append, heq k rest msg, h2]
    rfl
  | cons r2 tl ih =>
    intro r w k hlive hall
    obtain ⟨h1, h2⟩ := hall r (List.mem_cons_self _ _)
    obtain ⟨w1, hrel, heq⟩ :=
      ssl_read_message_loop_fail_all w pm pd n timeout start_time r hlive h1 ht
    obtain ⟨w2, hrel2, heq2⟩ := ih r2 w1 true (released_live w1 pm pd n hrel)
      (fun x hx => hall x (List.mem_cons_of_mem _ hx))
    refine ⟨w2, hrel2, fun rest => ?_⟩
    rw [List.cons_append, heq k _ msg, h2]
    exact heq2 rest

/-- C28: `ssl_read_message` returns `MESSAGE_STATUS_ZERO` only when `timeout > 0`.  With
`timeout <= 0` (the 0 that `pgexporter_read_block_message` passes on a TLS handle), on a
live singleton, a failed read with `SSL_ERROR_ZERO_RETURN` is always followed by another
attempt; so a transport that reports `SSL_ERROR_ZERO_RETURN` at every attempt keeps the
call in its loop: after any number of such attempts it has not returned and goes on with
the next outcome. -/
theorem C28_zero_return_without_timeout (w : World) (pm pd : Ptr) (n : Nat)
    (timeout start_time : Int) (msg : Option Ptr)
    (hlive : w.live pm pd n = true) (ht : timeout ≤ 0) :
    (∀ (t : Int) (v : World) (script : List ReadOutcome) (res : ReadResult),
        ssl_read_message v script t start_time msg = some res →
        res.status = MESSAGE_STATUS_ZERO → t > 0)
      ∧ (∀ (k : Bool) (r : ReadOutcome), r.numbytes ≤ 0 → r.err = SSL_ERROR_ZERO_RETURN →
          SslReadRetries timeout start_time w k r msg)
      ∧ (∀ (script : List ReadOutcome), script ≠ [] →
          (∀ x ∈ script, x.numbytes ≤ 0 ∧ x.err = SSL_ERROR_ZERO_RETURN) →
          ∃ w1, w1.released pm pd n = true
            ∧ ∀ rest, ssl_read_message w (script ++ rest) timeout start_time msg
                = ssl_read_message_loop timeout start_time w1 true rest msg)
      ∧ (∀ (script : List ReadOutcome),
          (∀ x ∈ script, x.numbytes ≤ 0 ∧ x.err = SSL_ERROR_ZERO_RETURN) →
          ssl_read_message w script timeout start_time msg = none)
      ∧ (∀ (ssl : Ptr) (script : List ReadOutcome),
          pgexporter_read_block_message w (some ssl) script start_time msg
            = ssl_read_message w script 0 start_time msg) := by
  refine ⟨?_, ?_, ?_, ?_, fun _ _ => rfl⟩
  · intro t v script res h hz
    obtain ⟨pre, last, -, -, h2, -⟩ :=
      ssl_read_message_loop_last t start_time script v false msg res h
    exact (h2.mp hz).2.2.1
  · intro k r h1 h2
    obtain ⟨w1, -, heq⟩ :=
      ssl_read_message_loop_fail_all w pm pd n timeout start_time r hlive h1 ht
    refine ⟨w1, true, fun rest => ?_⟩
    rw [heq k rest msg, h2]
    rfl
  · intro script hne hall
    cases script with
    | nil => exact absurd rfl hne
    | cons r tl =>
      obtain ⟨w1, hrel, heq⟩ :=
        ssl_read_zero_return_run pm pd n timeout start_time msg ht tl r w false hlive hall
      exact ⟨w1, hrel, fun rest => heq rest⟩
  · intro script hall
    cases script with
    | nil => simp [ssl_read_message, ssl_read_message_loop]
    | cons r tl =>
      obtain ⟨w1, -, heq⟩ :=
        ssl_read_zero_return_run pm pd n timeout start_time msg ht tl r w false hlive hall
      have h := heq []
      rw [List.append_nil] at h
      unfold ssl_read_message
      rw [h]
      simp [ssl_read_message_loop]

/-- C28 at the singleton of `World.dirty` with timeout 0: after three reads that fail with
`SSL_ERROR_ZERO_RETURN` the call has not returned. -/
theorem C28_zero_return_without_timeout_witness :
    World.dirty.live 0 1 8 = true ∧ (0 : Int) ≤ 0
      ∧ (∀ x ∈ [(⟨0, [], SSL_ERROR_ZERO_RETURN, 1⟩ : ReadOutcome),
            ⟨0, [], SSL_ERROR_ZERO_RETURN, 2⟩, ⟨-1, [], SSL_ERROR_ZERO_RETURN, 3⟩],
          x.numbytes ≤ 0 ∧ x.err = SSL_ERROR_ZERO_RETURN)
      ∧ ssl_read_message World.dirty
          [⟨0, [], SSL_ERROR_ZERO_RETURN, 1⟩, ⟨0, [], SSL_ERROR_ZERO_RETURN, 2⟩,
            ⟨-1, [], SSL_ERROR_ZERO_RETURN, 3⟩] 0 0 none = none :=
  ⟨by decide, by decide, by decide,
    (C28_zero_return_without_timeout World.dirty 0 1 8 0 0 none (by decide)
      (by decide)).2.2.2.1 _ (by decide)⟩

/-- One failed attempt of `ssl_read_message`, from a live singleton and for any timeout: the
buffer is released, and the error code, the time and the flag decide. -/
theorem ssl_read_message_loop_fail_any (w : World) (pm pd : Ptr) (n : Nat)
    (timeout start_time : Int) (r : ReadOutcome) (h : w.live pm pd n = true)
    (hle : r.numbytes ≤ 0) :
    ∃ w1, w1.released pm pd n = true
      ∧ ∀ (k : Bool) (rest : List ReadOutcome) (msg : Option Ptr),
        ssl_read_message_loop timeout start_time w k (r :: rest) msg
          = if r.err = SSL_ERROR_ZERO_RETURN ∧ timeout > 0
                ∧ r.now - start_time ≥ timeout then
              some ⟨w1, MESSAGE_STATUS_ZERO, msg, rest⟩
            else if ssl_retry_code r.err = true then
              ssl_read_message_loop timeout start_time w1 true rest msg
            else if ssl_fatal_code r.err = true then
              some ⟨(if r.err = SSL_ERROR_SYSCALL then { w1 with errno := 0 } else w1),
                MESSAGE_STATUS_ERROR, msg, rest⟩
            else if k = true then
              ssl_read_message_loop timeout start_time w1 k rest msg
            else some ⟨w1, MESSAGE_STATUS_ERROR, msg, rest⟩ := by
  obtain ⟨hmsg, hdata, ⟨hdr, hm, hcap⟩, -⟩ := (live_iff w pm pd n).mp h
  have hmm : pgexporter_memory_message w = some pm := hmsg
  have hn1 : ¬ 0 < r.numbytes := by omega
  have hn2 : ¬ r.numbytes > 0 := by omega
  obtain ⟨w1, hfree, hrel, -, -, -⟩ := memory_free_spec w pm pd n h
  refine ⟨w1, hrel, ?_⟩
  intro k rest msg
  simp only [ssl_read_message_loop, hmm, hm, SSL_read, hn1, hn2, if_false,
    Option.bind_eq_bind, Option.some_bind, hfree]
  by_cases c1 : r.err = SSL_ERROR_ZERO_RETURN
  · have hr : ssl_retry_code r.err = true := by
      rw [ssl_retry_code_iff]
      exact Or.inl c1
    rw [if_pos c1]
    by_cases c0 : timeout > 0 ∧ r.now - start_time ≥ timeout
    · rw [if_pos c0, if_pos ⟨c1, c0⟩]
    · have c0' : ¬ (r.err = SSL_ERROR_ZERO_RETURN ∧ timeout > 0
          ∧ r.now - start_time ≥ timeout) := fun hc => c0 hc.2
      rw [if_neg c0, if_neg c0', if_pos hr]
  · have c0' : ¬ (r.err = SSL_ERROR_ZERO_RETURN ∧ timeout > 0
        ∧ r.now - start_time ≥ timeout) := fun hc => c1 hc.1
    rw [if_neg c1, if_neg c0']
    by_cases c2 : r.err = SSL_ERROR_WANT_READ ∨ r.err = SSL_ERROR_WANT_WRITE
        ∨ r.err = SSL_ERROR_WANT_CONNECT ∨ r.err = SSL_ERROR_WANT_ACCEPT
        ∨ r.err = SSL_ERROR_WANT_X509_LOOKUP ∨ r.err = SSL_ERROR_WANT_ASYNC
        ∨ r.err = SSL_ERROR_WANT_ASYNC_JOB ∨ r.err = SSL_ERROR_WANT_CLIENT_HELLO_CB
    · have hr : ssl_retry_code r.err = true := by
        rw [ssl_retry_code_iff]
        exact Or.inr c2
      rw [if_pos c2, if_pos hr]
    · have hr : ¬ ssl_retry_code r.err = true := by
        rw [ssl_retry_code_iff]
        rintro (hc | hc)
        · exact c1 hc
        · exact c2 hc
      rw [if_neg c2, if_neg hr]
      by_cases c3 : r.err = SSL_ERROR_SYSCALL
      · have hf : ssl_fatal_code r.err = true := by
          rw [ssl_fatal_code_iff]
          exact Or.inl c3
        rw [if_pos c3, if_pos hf, if_pos c3]
      · rw [if_neg c3]
        by_cases c4 : r.err = SSL_ERROR_SSL
        · have hf : ssl_fatal_code r.err = true := by
            rw [ssl_fatal_code_iff]
            exact Or.inr c4
          rw [if_pos c4, if_pos hf, if_neg c3]
        · have hf : ¬ ssl_fatal_code r.err = true := by
            rw [ssl_fatal_code_iff]
            rintro (hc | hc)
            · exact c3 hc
            · exact c4 hc
          rw [if_neg c4, if_neg hf]

/-- C29: a failed attempt of `ssl_read_message` or `ssl_write_message` whose TLS error code
`e` is outside the handled set (not `ZERO_RETURN`, not a `WANT_*` code, not `SYSCALL`, not
`SSL`; `SSL_ERROR_NONE` is one) leaves the retry flag as it was: with the flag false, as on
the first attempt of a call, the call returns `MESSAGE_STATUS_ERROR`; with the flag true, as
after a failed read with a `WANT_*` code or after a partial write, another attempt is made.
The same outcome thus ends the call or not depending on the attempt before it. -/
theorem C29_unhandled_code_keeps_flag (e : Int) (L : Int) (ww : World) (rw : WriteOutcome)
    (o t rem : Int) (wr : World) (pm pd : Ptr) (n : Nat) (rr : ReadOutcome)
    (timeout start_time : Int) (msg : Option Ptr)
    (he1 : ssl_retry_code e = false) (he2 : ssl_fatal_code e = false)
    (hw1 : rw.numbytes ≤ 0) (hw2 : rw.numbytes ≠ L) (hwe : rw.err = e)
    (hlive : wr.live pm pd n = true) (hr1 : rr.numbytes ≤ 0) (hre : rr.err = e) :
    (SslReadAborts timeout start_time wr false rr msg
        ∧ SslReadRetries timeout start_time wr true rr msg
        ∧ SslWriteAborts L ww false rw o t rem
        ∧ SslWriteRetries L ww true rw o t rem)
      ∧ (∃ w1, ∀ rest, ssl_read_message wr (rr :: rest) timeout start_time msg
          = some ⟨w1, MESSAGE_STATUS_ERROR, msg, rest⟩)
      ∧ (∀ (m : Ptr) (hdr : message_t) (rest : List WriteOutcome),
          ww.loadMsg m = some hdr → hdr.length = L →
          ssl_write_message ww (rw :: rest) m
            = some ⟨ww, MESSAGE_STATUS_ERROR, [⟨0, wrap_int32 L⟩], rest⟩)
      ∧ (∀ r0 : ReadOutcome, r0.numbytes ≤ 0 → ssl_retry_code r0.err = true →
          r0.err ≠ SSL_ERROR_ZERO_RETURN →
          ∃ w1, ∀ rest, ssl_read_message wr (r0 :: rr :: rest) timeout start_time msg
            = ssl_read_message_loop timeout start_time w1 true rest msg)
      ∧ (∀ (m : Ptr) (hdr : message_t) (p : WriteOutcome) (rest : List WriteOutcome),
          ww.loadMsg m = some hdr → hdr.length = L → 0 < p.numbytes → p.numbytes < L →
          ssl_write_message ww (p :: rw :: rest) m
            = (ssl_write_message_loop L { ww with errno := 0 } true rest
                (wrap_int32 (0 + p.numbytes)) (0 + p.numbytes) (L - p.numbytes)).map
                (fun r => WriteResult.after ⟨0, wrap_int32 L⟩
                  (WriteResult.after
                    ⟨wrap_int32 (0 + p.numbytes), wrap_int32 (L - p.numbytes)⟩ r))) := by
  have hc : ¬ ssl_retry_code e = true := by simp [he1]
  have hf : ¬ ssl_fatal_code e = true := by simp [he2]
  have hz : ¬ (e = SSL_ERROR_ZERO_RETURN ∧ timeout > 0 ∧ rr.now - start_time ≥ timeout) := by
    rintro ⟨h, -⟩
    exact hc ((ssl_retry_code_iff e).mpr (Or.inl h))
  obtain ⟨w1, hrel, hrd⟩ :=
    ssl_read_message_loop_fail_any wr pm pd n timeout start_time rr hlive hr1
  rw [hre] at hrd
  have hwr := fun (v : World) (k : Bool) (rest : List WriteOutcome) (a b c : Int) =>
    ssl_write_message_loop_fail L v k rw rest a b c hw2 hw1
  rw [hwe] at hwr
  refine ⟨⟨?_, ?_, ?_, ?_⟩, ?_, ?_, ?_, ?_⟩
  · exact ⟨w1, fun rest => by
      rw [hrd false rest msg, if_neg hz, if_neg hc, if_neg hf]
      rfl⟩
  · exact ⟨w1, true, fun rest => by
      rw [hrd true rest msg, if_neg hz, if_neg hc, if_neg hf, if_pos rfl]⟩
  · exact ⟨ww, fun rest => by
      rw [hwr ww false rest o t rem, if_neg hc, if_neg hf]
      rfl⟩
  · exact ⟨ww, true, fun rest => by
      rw [hwr ww true rest o t rem, if_neg hc, if_neg hf, if_pos rfl]⟩
  · exact ⟨w1, fun rest => by
      unfold ssl_read_message
      rw [hrd false rest msg, if_neg hz, if_neg hc, if_neg hf]
      rfl⟩
  · intro m hdr rest hm hl
    simp only [ssl_write_message, hm, hl, Option.bind_eq_bind, Option.some_bind]
    rw [hwr ww false rest 0 0 L, if_neg hc, if_neg hf]
    rfl
  · intro r0 h0 hc0 hz0
    obtain ⟨w0, hrel0, hrd0⟩ :=
      ssl_read_message_loop_fail_any wr pm pd n timeout start_time r0 hlive h0
    obtain ⟨w2, -, hrd2⟩ := ssl_read_message_loop_fail_any w0 pm pd n timeout start_time rr
      (released_live w0 pm pd n hrel0) hr1
    rw [hre] at hrd2
    have hz0' : ¬ (r0.err = SSL_ERROR_ZERO_RETURN ∧ timeout > 0
        ∧ r0.now - start_time ≥ timeout) := fun h => hz0 h.1
    refine ⟨w2, fun rest => ?_⟩
    unfold ssl_read_message
    rw [hrd0 false _ msg, if_neg hz0', if_pos hc0, hrd2 true rest msg, if_neg hz, if_neg hc,
      if_neg hf, if_pos rfl]
  · intro m hdr p rest hm hl hp1 hp2
    have q1 : ¬ p.numbytes = L := by omega
    have q2 : p.numbytes > 0 := hp1
    have q3 : ¬ (0 + p.numbytes = L) := by omega
    simp only [ssl_write_message, hm, hl, Option.bind_eq_bind, Option.some_bind]
    rw [ssl_write_message_loop]
    simp only [if_neg q1, if_pos q2, if_neg q3]
    rw [hwr _ true rest _ _ _, if_neg hc, if_neg hf, if_pos rfl, Option.map_map]
    rfl

/-- C29 at `SSL_ERROR_NONE`, a message of 5 bytes and the singleton of `World.dirty`: the
same failed attempt ends the call when the flag is false and is followed by another attempt
when the flag is true, in both directions. -/
theorem C29_unhandled_code_keeps_flag_witness :
    (ssl_retry_code SSL_ERROR_NONE = false ∧ ssl_fatal_code SSL_ERROR_NONE = false)
      ∧ ((⟨-1, SSL_ERROR_NONE⟩ : WriteOutcome).numbytes ≤ 0
        ∧ (⟨-1, SSL_ERROR_NONE⟩ : WriteOutcome).numbytes ≠ 5)
      ∧ (World.dirty.live 0 1 8 = true
        ∧ (⟨-1, [], SSL_ERROR_NONE, 0⟩ : ReadOutcome).numbytes ≤ 0)
      ∧ (SslReadAborts 0 0 World.dirty false ⟨-1, [], SSL_ERROR_NONE, 0⟩ none
        ∧ SslReadRetries 0 0 World.dirty true ⟨-1, [], SSL_ERROR_NONE, 0⟩ none
        ∧ SslWriteAborts 5 World.sample false ⟨-1, SSL_ERROR_NONE⟩ 0 0 5
        ∧ SslWriteRetries 5 World.sample true ⟨-1, SSL_ERROR_NONE⟩ 0 0 5) :=
  ⟨⟨by decide, by decide⟩, ⟨by decide, by decide⟩, ⟨by decide, by decide⟩,
    (C29_unhandled_code_keeps_flag SSL_ERROR_NONE 5 World.sample ⟨-1, SSL_ERROR_NONE⟩ 0 0 5
      World.dirty 0 1 8 ⟨-1, [], SSL_ERROR_NONE, 0⟩ 0 0 none (by decide) (by decide)
      (by decide) (by decide) rfl (by decide) (by decide) rfl).1⟩

/-! ## Claim C31: release and resize -/

theorem put_self (w : World) (p : Ptr) (o : Obj) (h : w.load p = some o) :
    w.put p (some o) = w := by
  have hlt := load_lt w p o h
  have hg : w.heap[p]? = some (some o) := by
    unfold World.load at h
    split at h
    · rename_i o' ho'
      simp only [Option.some.injEq] at h
      rw [ho', h]
    · simp at h
  cases w with
  | mk heap message data errno rcvtimeo uninit uninit_byte =>
    simp only [World.put, World.mk.injEq, and_true] at hg ⊢
    apply List.ext_getElem?
    intro i
    by_cases h1 : p = i
    · subst h1
      simp only [World.put] at hlt
      simp [List.getElem?_set, hg, hlt]
    · simp [List.getElem?_set, h1]

theorem put_put_same (w : World) (p : Ptr) (x y : Option Obj) :
    (w.put p x).put p y = w.put p y := by
  simp [World.put]

theorem put_comm (w : World) (p q : Ptr) (x y : Option Obj) (h : p ≠ q) :
    (w.put p x).put q y = (w.put q y).put p x := by
  simp only [World.put, World.mk.injEq, and_true]
  exact List.set_comm x y _ h

/-- Releasing a released singleton changes nothing. -/
theorem memory_free_released (w : World) (pm pd : Ptr) (n : Nat)
    (h : w.released pm pd n = true) : pgexporter_memory_free w = some w := by
  obtain ⟨hmsg, hdata, hm, hb⟩ := (released_iff w pm pd n).mp h
  have hne := msg_ne_buf w pm pd _ _ hm hb
  have hne' : pd ≠ pm := Ne.symm hne
  have hlm := loadMsg_lt w pm _ hm
  unfold pgexporter_memory_free
  simp only [hmsg, hdata, hm, World.memsetMsg, storeMsg_eq w pm _ _ hm, Option.bind_eq_bind,
    Option.some_bind, put_data]
  rw [memset_eq _ pd (List.replicate n 0) _ 0
    (by rw [put_loadBuf_ne _ _ _ _ hne']; exact hb) (by simp)]
  simp only [Option.some_bind, World.setKind, World.setLength, World.setMaxLength,
    World.setData, World.storeMsg, put_loadMsg_ne _ _ _ _ hne, loadMsg_put_self, hlm,
    put_heap_length, put_data, hdata, put_put_same]
  rw [put_comm _ pm pd _ _ hne, put_put_same, put_self w pd _ ((loadBuf_load w pd _).mp hb),
    put_self w pm _ ((loadMsg_load w pm _).mp hm)]

theorem singleton_of_released (w : World) (pm pd : Ptr) (n : Nat)
    (h : w.released pm pd n = true) :
    w.singleton = some (0, 0, n, List.replicate n 0) := by
  obtain ⟨hmsg, hdata, hm, hb⟩ := (released_iff w pm pd n).mp h
  simp only [World.singleton, hmsg, hdata, hm, hb, Option.bind_eq_bind, Option.some_bind]

/-- C31: on every live singleton of capacity `n`, `pgexporter_memory_free` and
`pgexporter_memory_size(n)` both return, and the singleton holds the same afterwards: kind
0, length 0, max_length `n` and `n` zero bytes.  A second `pgexporter_memory_free` returns
the state it was given, so the release is idempotent; and on the error path of
`read_message` with `timeout > 0` (a negative read that is not retried), where the buffer
is released in the loop and again after it, the state returned is the one a single release
leaves (with the receive timeout cleared). -/
theorem C31_memory_free_idempotent (w : World) (pm pd : Ptr) (n : Nat)
    (hlive : w.live pm pd n = true) :
    ∃ w1 w2, pgexporter_memory_free w = some w1 ∧ pgexporter_memory_size w n = some w2
      ∧ w1.singleton = some (0, 0, n, List.replicate n 0)
      ∧ w2.singleton = some (0, 0, n, List.replicate n 0)
      ∧ w1.singleton = w2.singleton
      ∧ w1.released pm pd n = true
      ∧ pgexporter_memory_free w1 = some w1
      ∧ (pgexporter_memory_free w).bind pgexporter_memory_free = pgexporter_memory_free w
      ∧ ∀ (r : ReadOutcome) (rest : List ReadOutcome) (block : Bool) (timeout : Int)
          (msg : Option Ptr),
          timeout > 0 → r.numbytes < 0 →
          ¬ ((r.err = EAGAIN ∨ r.err = EWOULDBLOCK) ∧ block = true) →
          ∃ v, pgexporter_memory_free { setsockopt w timeout with errno := r.err } = some v
            ∧ read_message w (r :: rest) block timeout msg
                = some ⟨setsockopt v 0, MESSAGE_STATUS_ERROR, msg, rest⟩
            ∧ pgexporter_memory_free (setsockopt v 0) = some (setsockopt v 0) := by
  obtain ⟨w1, h1, hrel1, -, -, -⟩ := memory_free_spec w pm pd n hlive
  obtain ⟨w2, h2, -, -, hs2, -⟩ := memory_size_spec w pm pd n n (Or.inl hlive)
  have hs1 := singleton_of_released w1 pm pd n hrel1
  have hidem := memory_free_released w1 pm pd n hrel1
  refine ⟨w1, w2, h1, h2, hs1, hs2, hs1.trans hs2.symm, hrel1, hidem, ?_, ?_⟩
  · rw [h1, Option.some_bind, hidem]
  · intro r rest block timeout msg ht hneg hc
    have hlive0 : ({ setsockopt w timeout with errno := r.err } : World).live pm pd n
        = true :=
      (live_congr w _ pm pd n rfl rfl rfl).trans hlive
    obtain ⟨v, hv, hrelv, hev, -, -⟩ := memory_free_spec _ pm pd n hlive0
    have hrelv0 : (setsockopt v 0).released pm pd n = true :=
      (released_congr v (setsockopt v 0) pm pd n rfl rfl rfl).trans hrelv
    have hidem0 := memory_free_released _ pm pd n hrelv0
    obtain ⟨hmsg, -, ⟨hdr, hm, -⟩, -⟩ := (live_iff w pm pd n).mp hlive
    have hmm : pgexporter_memory_message (setsockopt w timeout) = some pm := hmsg
    have hm0 : (setsockopt w timeout).loadMsg pm = some hdr := hm
    have hn1 : ¬ 0 < r.numbytes := by omega
    have hn2 : ¬ r.numbytes > 0 := by omega
    have hn3 : ¬ r.numbytes = 0 := by omega
    have hc' : ¬ ((v.errno = EAGAIN ∨ v.errno = EWOULDBLOCK) ∧ block = true) := by
      rw [hev]
      exact hc
    refine ⟨v, hv, ?_, hidem0⟩
    simp only [read_message, if_pos ht, read_message_loop, hmm, hm0, sys_read, hn1, hn2, hn3,
      hneg, if_true, if_false, Option.bind_eq_bind, Option.some_bind, hv, hc',
      read_message_exit, hidem0]

/-- C31 at the singleton of `World.dirty` (capacity 8, three bytes read): released and
resized, it holds kind 0, length 0, max_length 8 and eight zero bytes. -/
theorem C31_memory_free_idempotent_witness :
    World.dirty.live 0 1 8 = true
      ∧ ∃ w1 w2, pgexporter_memory_free World.dirty = some w1
          ∧ pgexporter_memory_size World.dirty 8 = some w2
          ∧ w1.singleton = some (0, 0, 8, List.replicate 8 0)
          ∧ w2.singleton = some (0, 0, 8, List.replicate 8 0)
          ∧ pgexporter_memory_free w1 = some w1 := by
  obtain ⟨w1, w2, h1, h2, h3, h4, -, -, h7, -⟩ :=
    C31_memory_free_idempotent World.dirty 0 1 8 (by decide)
  exact ⟨by decide, w1, w2, h1, h2, h3, h4, h7⟩

end Pgexporter
